import Mathlib

/-! # Boids flocking simulation: spatial grid and agent kinematics

A shallow embedding of `src/Assignment-04/spatial-grid.js` and of the simulation
core of `src/Assignment-04/script.js`.

Modelling conventions.

* JavaScript numbers are idealised as elements of a linearly ordered field `K`
  (exact arithmetic, no rounding, no NaN/Infinity).  `Math.floor` is `Int.floor`,
  `Math.sqrt` is a function parameter `sqrt : K → K`; theorems that depend on
  it assume it is an exact non-negative square root (as `Real.sqrt` is on `ℝ`).
  Concrete runs are evaluated over `ℚ`.
* JavaScript objects have reference identity.  An agent is a reference
  (`Ref`), its fields live in a heap `Ref → Boid K`, and `other === boid` is
  equality of references.  Arrays of agents are lists of references.
* The `Map` of the grid is an insertion-ordered association list whose keys are
  the integer pairs that the template string `${x},${y}` encodes.
* `p5.Vector` is restricted to the two components the program uses.
-/

namespace Boids

/-! ## Data model -/

/-- An object reference (the identity of a `Boid` instance). -/
abbrev Ref := Nat

/-- A two-dimensional `p5.Vector`. -/
structure Vec (K : Type) where
  x : K
  y : K
deriving DecidableEq, Repr

/-- The species tag of an agent: `'blue'` or `'red'`. -/
inductive Species where
  | blue
  | red
deriving DecidableEq, Repr

/-- The per-agent parameters `this.genes`. -/
structure Genes (K : Type) where
  separation : K
  alignment : K
  cohesion : K
  maxSpeed : K
  radius : K
deriving DecidableEq, Repr

/-- One entry `{x, y, time}` of `this.trails`. -/
structure TrailPoint (K : Type) where
  x : K
  y : K
  time : K
deriving DecidableEq, Repr

/-- The fields of a `Boid` instance. -/
structure Boid (K : Type) where
  position : Vec K
  velocity : Vec K
  acceleration : Vec K
  species : Species
  fitness : K
  neighborCount : Nat
  panicTimer : K
  trails : List (TrailPoint K)
  lastTrailTime : K
  genes : Genes K
deriving DecidableEq, Repr

/-- The heap: the fields of the object behind every reference. -/
abbrev Heap (K : Type) := Ref → Boid K

/-- The key of a grid cell, the pair encoded by the string `${cell.x},${cell.y}`. -/
abbrev CellKey := Int × Int

/-- The contents of `this.grid`: an insertion-ordered map from keys to buckets. -/
abbrev BucketMap := List (CellKey × List Ref)

/-- The fields of a `SpatialGrid` instance. -/
structure SpatialGrid (K : Type) where
  cellSize : K
  width : K
  height : K
  grid : BucketMap
  queryCount : Nat
  candidateCount : Nat
deriving DecidableEq, Repr

/-! ## The `Map` operations used by the grid -/

/-- The `Map.prototype.get` operation: the bucket stored under `k`, if any. -/
def mapGet : BucketMap → CellKey → Option (List Ref)
  | [], _ => none
  | (k', v) :: t, k => if k' = k then some v else mapGet t k

/-- The `Map.prototype.has` operation. -/
def mapHas (m : BucketMap) (k : CellKey) : Bool := (mapGet m k).isSome

/-- The `Map.prototype.set` operation: overwrite the entry of `k`, or append a new entry. -/
def mapSet : BucketMap → CellKey → List Ref → BucketMap
  | [], k, v => [(k, v)]
  | (k', v') :: t, k, v => if k' = k then (k', v) :: t else (k', v') :: mapSet t k v

section Grid

variable {K : Type} [LinearOrderedField K] [FloorRing K]

/-- `SpatialGrid.getCell` (spatial-grid.js 143-148). -/
def getCell (g : SpatialGrid K) (x y : K) : CellKey :=
  (Int.floor (x / g.cellSize), Int.floor (y / g.cellSize))

/-- `SpatialGrid.clear` (spatial-grid.js 22-26). -/
def clear (g : SpatialGrid K) : SpatialGrid K :=
  { g with grid := [], queryCount := 0, candidateCount := 0 }

/-- `SpatialGrid.insert` (spatial-grid.js 32-39): create the bucket when the key is
new, then push the reference onto the bucket. -/
def insert (h : Heap K) (g : SpatialGrid K) (boid : Ref) : SpatialGrid K :=
  let key := getCell g (h boid).position.x (h boid).position.y
  let grid1 := if mapHas g.grid key then g.grid else mapSet g.grid key []
  { g with grid := mapSet grid1 key ((mapGet grid1 key).getD [] ++ [boid]) }

/-- `SpatialGrid.resize` (spatial-grid.js 156-160). -/
def resize (g : SpatialGrid K) (cellSize width height : K) : SpatialGrid K :=
  { g with cellSize := cellSize, width := width, height := height }

/-- The values taken by the loop variables `dx` and `dy`, in loop order. -/
def offsets : List Int := [-1, 0, 1]

/-- The inner loop of `getNeighbors` over one bucket (spatial-grid.js 59-72); the
accumulator is the `neighbors` array and the `candidateCount` counter. -/
def scanBucket (h : Heap K) (boid : Ref) (radiusSq : K) (cellBoids : List Ref)
    (acc : List Ref × Nat) : List Ref × Nat :=
  cellBoids.foldl (fun acc other =>
    if other = boid then acc
    else
      let dxPos := (h boid).position.x - (h other).position.x
      let dyPos := (h boid).position.y - (h other).position.y
      let distSq := dxPos * dxPos + dyPos * dyPos
      if distSq < radiusSq then (acc.1 ++ [other], acc.2 + 1) else (acc.1, acc.2 + 1)) acc

/-- `SpatialGrid.getNeighbors` (spatial-grid.js 47-78): the returned array and the
grid with its counters advanced. -/
def getNeighbors (h : Heap K) (g : SpatialGrid K) (boid : Ref) (radius : K) :
    List Ref × SpatialGrid K :=
  let cell := getCell g (h boid).position.x (h boid).position.y
  let radiusSq := radius * radius
  let res := offsets.foldl (fun acc dx =>
    offsets.foldl (fun acc dy =>
      match mapGet g.grid (cell.1 + dx, cell.2 + dy) with
      | some cellBoids => scanBucket h boid radiusSq cellBoids acc
      | none => acc) acc) (([] : List Ref), g.candidateCount)
  (res.1, { g with queryCount := g.queryCount + 1, candidateCount := res.2 })

/-- The minimum-image adjustment of one axis (spatial-grid.js 118-123). -/
def wrapDelta (extent d : K) : K :=
  if |d| > extent / 2 then (if d > 0 then d - extent else d + extent) else d

/-- The inner loop of `getNeighborsWrapped` over one bucket (spatial-grid.js 108-129). -/
def scanBucketWrapped (h : Heap K) (g : SpatialGrid K) (boid : Ref) (radiusSq : K)
    (cellBoids : List Ref) (acc : List Ref × Nat) : List Ref × Nat :=
  cellBoids.foldl (fun acc other =>
    if other = boid then acc
    else
      let dxPos := wrapDelta g.width ((h boid).position.x - (h other).position.x)
      let dyPos := wrapDelta g.height ((h boid).position.y - (h other).position.y)
      let distSq := dxPos * dxPos + dyPos * dyPos
      if distSq < radiusSq then (acc.1 ++ [other], acc.2 + 1) else (acc.1, acc.2 + 1)) acc

/-- The wrapping of one cell coordinate (spatial-grid.js 100-103). -/
def wrapCell (maxCell c : Int) : Int :=
  let c1 := if c < 0 then maxCell else c
  if c1 > maxCell then 0 else c1

/-- `SpatialGrid.getNeighborsWrapped` (spatial-grid.js 87-135). -/
def getNeighborsWrapped (h : Heap K) (g : SpatialGrid K) (boid : Ref) (radius : K) :
    List Ref × SpatialGrid K :=
  let cell := getCell g (h boid).position.x (h boid).position.y
  let radiusSq := radius * radius
  let maxCellX := Int.floor (g.width / g.cellSize)
  let maxCellY := Int.floor (g.height / g.cellSize)
  let res := offsets.foldl (fun acc dx =>
    offsets.foldl (fun acc dy =>
      let cx := wrapCell maxCellX (cell.1 + dx)
      let cy := wrapCell maxCellY (cell.2 + dy)
      match mapGet g.grid (cx, cy) with
      | some cellBoids => scanBucketWrapped h g boid radiusSq cellBoids acc
      | none => acc) acc) (([] : List Ref), g.candidateCount)
  (res.1, { g with queryCount := g.queryCount + 1, candidateCount := res.2 })

/-- The per-tick rebuild of the driver (script.js 158-163): set the geometry,
clear, and insert every agent of `boids` in array order. -/
def rebuild (h : Heap K) (g : SpatialGrid K) (neighborRadius width height : K)
    (boids : List Ref) : SpatialGrid K :=
  boids.foldl (insert h)
    (clear (resize { g with cellSize := neighborRadius } neighborRadius width height))

end Grid

/-! ## `p5.Vector` arithmetic (p5.js 1.x) -/

section Vector

variable {K : Type} [LinearOrderedField K]

namespace Vec

/-- The vector `createVector(0, 0)`. -/
def zero : Vec K := ⟨0, 0⟩

/-- The `add` method. -/
def add (v w : Vec K) : Vec K := ⟨v.x + w.x, v.y + w.y⟩

/-- The `sub` method. -/
def sub (v w : Vec K) : Vec K := ⟨v.x - w.x, v.y - w.y⟩

/-- The `mult` method with a scalar argument. -/
def mult (v : Vec K) (n : K) : Vec K := ⟨v.x * n, v.y * n⟩

/-- The `div` method with a scalar argument; p5 leaves the vector unchanged (and
warns) when the divisor is `0`. -/
def div (v : Vec K) (n : K) : Vec K := if n = 0 then v else ⟨v.x / n, v.y / n⟩

/-- The `magSq` method. -/
def magSq (v : Vec K) : K := v.x * v.x + v.y * v.y

/-- The `mag` method: `Math.sqrt(this.magSq())`. -/
def mag (sqrt : K → K) (v : Vec K) : K := sqrt (magSq v)

/-- The `normalize` method: scale by `1 / len` unless the length is `0`. -/
def normalize (sqrt : K → K) (v : Vec K) : Vec K :=
  let len := mag sqrt v
  if len ≠ 0 then mult v (1 / len) else v

/-- The `setMag` method: `this.normalize().mult(n)`. -/
def setMag (sqrt : K → K) (v : Vec K) (n : K) : Vec K := mult (normalize sqrt v) n

/-- The `limit` method: when `magSq` exceeds `max * max`, divide by the magnitude
and multiply by `max`. -/
def limit (sqrt : K → K) (v : Vec K) (max : K) : Vec K :=
  let mSq := magSq v
  if mSq > max * max then mult (div v (sqrt mSq)) max else v

/-- The static `p5.Vector.dist(v1, v2)`: the magnitude of `v2 - v1`. -/
def dist (sqrt : K → K) (v1 v2 : Vec K) : K := mag sqrt (sub v2 v1)

end Vec

/-- The p5 function `constrain(n, low, high)`: `Math.max(Math.min(n, high), low)`. -/
def constrain (n low high : K) : K := max (min n high) low

end Vector

/-! ## Simulation state -/

/-- The values of `boundaryMode`. -/
inductive BoundaryMode where
  | wrap
  | bounce
deriving DecidableEq, Repr

/-- The values of `visionMode`. -/
inductive VisionMode where
  | omni
  | cone
deriving DecidableEq, Repr

/-- The values of `currentMode`. -/
inductive Mode where
  | normal
  | predator
  | painter
  | evolution
  | sound
deriving DecidableEq, Repr

/-- The values of an obstacle's `type`. -/
inductive ObstacleType where
  | static
  | drift
  | repel
deriving DecidableEq, Repr

/-- An entry `{x, y, radius, type, vx, vy}` of `obstacles`. -/
structure Obstacle (K : Type) where
  x : K
  y : K
  radius : K
  type : ObstacleType
  vx : K
  vy : K
deriving DecidableEq, Repr

/-- An entry `{species, respawnTime}` of `deadBoids`. -/
structure DeadBoid (K : Type) where
  species : Species
  respawnTime : K
deriving DecidableEq, Repr

/-- An entry `{x, y, vx, vy}` of `evolutionPredators`. -/
structure EvoPredator (K : Type) where
  x : K
  y : K
  vx : K
  vy : K
deriving DecidableEq, Repr

/-- The values of `AudioAnalyzer.sourceType`. -/
inductive SourceType where
  | microphone
  | file
  | none
deriving DecidableEq, Repr

/-- The fields of the `AudioAnalyzer` instance (audio-analyzer.js 6-43) that its
analysis and modulation methods use; `hasAnalyser` records whether `this.analyser`
is non-null.  The Web Audio handles are not modelled. -/
structure AudioAnalyzer (K : Type) where
  hasAnalyser : Bool
  bassLevel : K
  midLevel : K
  trebleLevel : K
  smoothBass : K
  smoothMid : K
  smoothTreble : K
  beatThreshold : K
  lastBeatTime : K
  beatCooldown : K
  beatDetected : Bool
  previousBassLevel : K
  bassSensitivity : K
  midSensitivity : K
  trebleSensitivity : K
  active : Bool
  muted : Bool
  sourceType : SourceType
  smoothingFactor : K
deriving DecidableEq, Repr

/-- The global simulation state of `script.js` together with the readings of the
environment taken during a tick (`millis()`, `deltaTime`, `width`, `height`).
`nextRef` is the identity that the next `new Boid(...)` receives; `followObstacle`
is the index in `obstacles` of the obstacle that follows the pointer. -/
structure Sim (K : Type) where
  boids : List Ref
  heap : Heap K
  spatialGrid : SpatialGrid K
  separationWeight : K
  alignmentWeight : K
  cohesionWeight : K
  neighborRadius : K
  maxSpeed : K
  boundaryMode : BoundaryMode
  visionMode : VisionMode
  trailsEnabled : Bool
  spatialGridEnabled : Bool
  twoSpeciesEnabled : Bool
  currentMode : Mode
  predatorDisplayPos : Option (Vec K)
  predatorRadius : K
  predatorFearTrail : Bool
  killCount : Nat
  fearPoints : List (TrailPoint K)
  deadBoids : List (DeadBoid K)
  obstacles : List (Obstacle K)
  generation : Nat
  lastSelectionTime : K
  evolutionInterval : K
  evolutionPredators : List (EvoPredator K)
  selectedBoid : Option Ref
  width : K
  height : K
  millis : K
  deltaTime : K
  targetBoidCount : Nat
  nextRef : Ref
  followObstacle : Option Nat
  baseSeparation : K
  baseAlignment : K
  baseCohesion : K
  avgSpeed : K
  avgNeighborCount : K
  chartAvgNeighbors : List K
  chartAvgSpeed : List K
  chartCompactness : List K
  audioAnalyzer : AudioAnalyzer K

/-- The library functions that are not field operations: `Math.sqrt` and
`p5.Vector.angleBetween`, and the constant `PERCEPTION_CONE_ANGLE = Math.PI / 3`. -/
structure Env (K : Type) where
  sqrt : K → K
  angleBetween : Vec K → Vec K → K
  coneAngle : K

section BoidMethods

variable {K : Type} [LinearOrderedField K] [FloorRing K]

/-- The constant `MAX_FORCE = 0.2`. -/
def MAX_FORCE : K := 1 / 5

/-- The constant `TRAIL_LIFETIME = 1000`. -/
def TRAIL_LIFETIME : K := 1000

/-- The constant `TRAIL_RECORD_INTERVAL = 50`. -/
def TRAIL_RECORD_INTERVAL : K := 50

/-- Overwrite the fields of the object behind `r`. -/
def setBoid (s : Sim K) (r : Ref) (b : Boid K) : Sim K :=
  { s with heap := Function.update s.heap r b }

/-- `Boid.getBruteForceNeighbors` (script.js 394-405). -/
def getBruteForceNeighbors (s : Sim K) (this : Ref) : List Ref :=
  let radiusSq := s.neighborRadius * s.neighborRadius
  s.boids.foldl (fun neighbors other =>
    if other = this then neighbors
    else
      let dSq := Vec.magSq (Vec.sub (s.heap other).position (s.heap this).position)
      if dSq < radiusSq then neighbors ++ [other] else neighbors) []

/-- The loop of `Boid.separate` (script.js 417-426): the accumulated `steer` and `count`. -/
def separateLoop (env : Env K) (s : Sim K) (this : Ref) (neighbors : List Ref) : Vec K × Nat :=
  let desiredSep := s.neighborRadius * (2 / 5)
  neighbors.foldl (fun acc other =>
    let d := Vec.dist env.sqrt (s.heap this).position (s.heap other).position
    if d > 0 ∧ d < desiredSep then
      let diff := Vec.sub (s.heap this).position (s.heap other).position
      let diff := Vec.normalize env.sqrt diff
      let diff := Vec.div diff d
      (Vec.add acc.1 diff, acc.2 + 1)
    else acc) (Vec.zero, 0)

/-- `Boid.separate` (script.js 412-435). -/
def separate (env : Env K) (s : Sim K) (this : Ref) (neighbors : List Ref) : Vec K :=
  let r := separateLoop env s this neighbors
  if r.2 > 0 then
    let steer := Vec.div r.1 (r.2 : K)
    let steer := Vec.setMag env.sqrt steer s.maxSpeed
    let steer := Vec.sub steer (s.heap this).velocity
    Vec.limit env.sqrt steer MAX_FORCE
  else r.1

/-- `Boid.align` (script.js 442-454). -/
def align (env : Env K) (s : Sim K) (this : Ref) (neighbors : List Ref) : Vec K :=
  if neighbors.length = 0 then Vec.zero
  else
    let avg := neighbors.foldl (fun avg other => Vec.add avg (s.heap other).velocity) Vec.zero
    let avg := Vec.div avg (neighbors.length : K)
    let avg := Vec.setMag env.sqrt avg s.maxSpeed
    let steer := Vec.sub avg (s.heap this).velocity
    Vec.limit env.sqrt steer MAX_FORCE

/-- `Boid.seek` (script.js 477-483). -/
def seek (env : Env K) (s : Sim K) (this : Ref) (target : Vec K) : Vec K :=
  let desired := Vec.sub target (s.heap this).position
  let desired := Vec.setMag env.sqrt desired s.maxSpeed
  let steer := Vec.sub desired (s.heap this).velocity
  Vec.limit env.sqrt steer MAX_FORCE

/-- `Boid.cohesion` (script.js 461-470). -/
def cohesion (env : Env K) (s : Sim K) (this : Ref) (neighbors : List Ref) : Vec K :=
  if neighbors.length = 0 then Vec.zero
  else
    let center := neighbors.foldl (fun c other => Vec.add c (s.heap other).position) Vec.zero
    let center := Vec.div center (neighbors.length : K)
    seek env s this center

/-- `Boid.applyForce` (script.js 575-577). -/
def applyForce (s : Sim K) (this : Ref) (force : Vec K) : Sim K :=
  setBoid s this { s.heap this with acceleration := Vec.add (s.heap this).acceleration force }

/-- The local `ms` of `Boid.update` (script.js 584): the per-agent gene in evolution
mode, the global `maxSpeed` otherwise. -/
def baseSpeed (s : Sim K) (this : Ref) : K :=
  if s.currentMode = Mode.evolution then (s.heap this).genes.maxSpeed else s.maxSpeed

/-- The local `effectiveSpeed` of `Boid.update` (script.js 585). -/
def effectiveSpeed (s : Sim K) (this : Ref) : K :=
  if (s.heap this).panicTimer > 0 then baseSpeed s this * (3 / 2) else baseSpeed s this

/-- The trail bookkeeping of `Boid.update` (script.js 592-602), with one reading
`s.millis` of the clock. -/
def recordTrail (s : Sim K) (b : Boid K) : Boid K :=
  let now := s.millis
  let b1 : Boid K :=
    if now - b.lastTrailTime > TRAIL_RECORD_INTERVAL then
      { b with trails := b.trails ++ [⟨b.position.x, b.position.y, now⟩], lastTrailTime := now }
    else b
  { b1 with trails := b1.trails.dropWhile (fun tp => decide (now - tp.time > TRAIL_LIFETIME)) }

/-- `Boid.update` (script.js 580-603). -/
def update (env : Env K) (s : Sim K) (this : Ref) : Sim K :=
  let b := s.heap this
  let velocity := Vec.add b.velocity b.acceleration
  let velocity := Vec.limit env.sqrt velocity (effectiveSpeed s this)
  let position := Vec.add b.position velocity
  let b1 : Boid K :=
    { b with velocity := velocity, position := position, acceleration := Vec.mult b.acceleration 0 }
  setBoid s this (if s.trailsEnabled then recordTrail s b1 else b1)

/-- `Boid.edges` (script.js 606-632). -/
def edges (s : Sim K) (this : Ref) : Sim K :=
  let b := s.heap this
  let margin : K := 5
  match s.boundaryMode with
  | BoundaryMode.wrap =>
    let x := if b.position.x > s.width then 0 else b.position.x
    let x := if x < 0 then s.width else x
    let y := if b.position.y > s.height then 0 else b.position.y
    let y := if y < 0 then s.height else y
    setBoid s this { b with position := ⟨x, y⟩ }
  | BoundaryMode.bounce =>
    let (x, vx) := if b.position.x < margin then (margin, b.velocity.x * -1)
      else (b.position.x, b.velocity.x)
    let (x, vx) := if x > s.width - margin then (s.width - margin, vx * -1) else (x, vx)
    let (y, vy) := if b.position.y < margin then (margin, b.velocity.y * -1)
      else (b.position.y, b.velocity.y)
    let (y, vy) := if y > s.height - margin then (s.height - margin, vy * -1) else (y, vy)
    setBoid s this { b with position := ⟨x, y⟩, velocity := ⟨vx, vy⟩ }

/-- `Boid.die` (script.js 507-528); `indexOf` is `-1` exactly when `List.indexOf`
returns the length.  The DOM update of the kill counter is not modelled. -/
def die (env : Env K) (s : Sim K) (this : Ref) : Sim K :=
  let idx := s.boids.indexOf this
  if idx = s.boids.length then s
  else
    let heap := s.boids.foldl (fun hp other =>
      if other = this then hp
      else
        let d := Vec.dist env.sqrt (hp this).position (hp other).position
        if d < s.neighborRadius then Function.update hp other { hp other with panicTimer := 2000 }
        else hp) s.heap
    { s with
      killCount := s.killCount + 1
      heap := heap
      boids := s.boids.eraseIdx idx
      deadBoids := s.deadBoids ++ [⟨(heap this).species, s.millis + 3000⟩]
      selectedBoid := if s.selectedBoid = some this then none else s.selectedBoid }

/-- `Boid.fleeFromPredator` (script.js 490-504). -/
def fleeFromPredator (env : Env K) (s : Sim K) (this : Ref) (predPos : Vec K) (radius : K) :
    Sim K :=
  let d := Vec.dist env.sqrt (s.heap this).position predPos
  if d < radius then
    let flee := Vec.sub (s.heap this).position predPos
    let flee := Vec.setMag env.sqrt flee (s.maxSpeed * (3 / 2))
    let flee := Vec.sub flee (s.heap this).velocity
    let flee := Vec.limit env.sqrt flee (MAX_FORCE * 3)
    let s1 := applyForce s this flee
    if d < 10 ∧ s.currentMode = Mode.predator then die env s1 this else s1
  else s

/-- `Boid.avoidObstacles` (script.js 534-554). -/
def avoidObstacles (env : Env K) (s : Sim K) (this : Ref) : Vec K :=
  let steer := s.obstacles.foldl (fun steer obs =>
    let obsPos : Vec K := ⟨obs.x, obs.y⟩
    let d := Vec.dist env.sqrt (s.heap this).position obsPos
    let avoidDist := obs.radius + s.neighborRadius
    if d < avoidDist then
      let diff := Vec.sub (s.heap this).position obsPos
      let diff := Vec.normalize env.sqrt diff
      let diff := Vec.div diff (max (d - obs.radius) 1)
      let multiplier : K := if obs.type = ObstacleType.repel then 4 else 2
      let diff := Vec.mult diff (s.separationWeight * multiplier)
      Vec.add steer diff
    else steer) Vec.zero
  Vec.limit env.sqrt steer (MAX_FORCE * 3)

/-- `Boid.avoidFearTrail` (script.js 557-569). -/
def avoidFearTrail (env : Env K) (s : Sim K) (this : Ref) : Sim K :=
  let now := s.millis
  s.fearPoints.foldl (fun s fp =>
    if now - fp.time > 5000 then s
    else
      let d := Vec.dist env.sqrt (s.heap this).position ⟨fp.x, fp.y⟩
      if d < 60 then
        let flee : Vec K := ⟨(s.heap this).position.x - fp.x, (s.heap this).position.y - fp.y⟩
        let flee := Vec.normalize env.sqrt flee
        let flee := Vec.mult flee (MAX_FORCE * (1 / 2))
        applyForce s this flee
      else s) s

/-- The neighbour acquisition of `Boid.flock` (script.js 305-311): the neighbour
array and the state with the grid counters advanced. -/
def acquireNeighbors (s : Sim K) (this : Ref) : List Ref × Sim K :=
  if s.spatialGridEnabled then
    let res := if s.boundaryMode = BoundaryMode.wrap
      then getNeighborsWrapped s.heap s.spatialGrid this s.neighborRadius
      else getNeighbors s.heap s.spatialGrid this s.neighborRadius
    (res.1, { s with spatialGrid := res.2 })
  else (getBruteForceNeighbors s this, s)

/-- The evolution-mode loop of `Boid.flock` over the automatic predators
(script.js 375-384). -/
def fleeEvolutionPredators (env : Env K) (s : Sim K) (this : Ref) : Sim K :=
  s.evolutionPredators.foldl (fun s pred =>
    let predVec : Vec K := ⟨pred.x, pred.y⟩
    let s1 := fleeFromPredator env s this predVec 150
    let d := Vec.dist env.sqrt (s1.heap this).position predVec
    if d < 200 then
      setBoid s1 this { s1.heap this with fitness := (s1.heap this).fitness + 1 / 50 }
    else s1) s

/-- The predator step of `Boid.flock` (script.js 364-366). -/
def predatorStep (env : Env K) (s : Sim K) (this : Ref) : Sim K :=
  match s.predatorDisplayPos with
  | some pos =>
    if s.currentMode = Mode.predator then fleeFromPredator env s this pos s.predatorRadius
    else s
  | none => s

/-- `Boid.flock` (script.js 301-391). -/
def flock (env : Env K) (s : Sim K) (this : Ref) : Sim K :=
  let res := acquireNeighbors s this
  let neighbors := res.1
  let s := res.2
  let neighbors :=
    if s.visionMode = VisionMode.cone then
      neighbors.filter (fun other =>
        let toOther := Vec.sub (s.heap other).position (s.heap this).position
        let angle := env.angleBetween (s.heap this).velocity toOther
        decide (|angle| < env.coneAngle))
    else neighbors
  let sameSpecies :=
    if s.twoSpeciesEnabled then
      neighbors.filter (fun b => decide ((s.heap b).species = (s.heap this).species))
    else neighbors
  let otherSpecies :=
    if s.twoSpeciesEnabled then
      neighbors.filter (fun b => decide ((s.heap b).species ≠ (s.heap this).species))
    else []
  let s := setBoid s this { s.heap this with neighborCount := neighbors.length }
  let sep := separate env s this sameSpecies
  let ali := align env s this sameSpecies
  let coh := cohesion env s this sameSpecies
  let sw := if s.currentMode = Mode.evolution then (s.heap this).genes.separation
    else s.separationWeight
  let aw := if s.currentMode = Mode.evolution then (s.heap this).genes.alignment
    else s.alignmentWeight
  let cw := if s.currentMode = Mode.evolution then (s.heap this).genes.cohesion
    else s.cohesionWeight
  let s := applyForce s this (Vec.mult sep sw)
  let s := applyForce s this (Vec.mult ali aw)
  let s := applyForce s this (Vec.mult coh cw)
  let s :=
    if s.twoSpeciesEnabled ∧ otherSpecies.length > 0 then
      applyForce s this (Vec.mult (separate env s this otherSpecies) (sw * 2))
    else s
  let s := if s.obstacles.length > 0 then applyForce s this (avoidObstacles env s this) else s
  let s := predatorStep env s this
  let s :=
    if s.currentMode = Mode.predator ∧ s.predatorFearTrail = true then avoidFearTrail env s this
    else s
  let s := if s.currentMode = Mode.evolution then fleeEvolutionPredators env s this else s
  if (s.heap this).panicTimer > 0 then
    setBoid s this { s.heap this with panicTimer := (s.heap this).panicTimer - s.deltaTime }
  else s

/-- The body of the agent loop of `draw` (script.js 182-184). -/
def agentStep (env : Env K) (s : Sim K) (this : Ref) : Sim K :=
  edges (update env (flock env s this) this) this

/-- The first `n` iterations of the agent loop of `draw` (script.js 181-187), started
at array index `i`.  The array iterator reads the live `boids` array at its current
index and stops when the index is past the end. -/
def agentLoop (env : Env K) : Nat → Sim K → Nat → Sim K
  | 0, s, _ => s
  | n + 1, s, i =>
    match s.boids.get? i with
    | some this => agentLoop env n (agentStep env s this) (i + 1)
    | none => s

/-- The per-tick grid update of `draw` (script.js 157-164). -/
def drawRebuild (s : Sim K) : Sim K :=
  if s.spatialGridEnabled then
    { s with spatialGrid :=
        rebuild s.heap s.spatialGrid s.neighborRadius s.width s.height s.boids }
  else s

/-! ## Evolution mode -/

/-- The outcomes of the random draws made for one replaced agent by the selection
event (script.js 906-915): the new position `(random(width), random(height))`, the
new velocity `p5.Vector.random2D().mult(2)` and the five `random(0.9, 1.1)` factors. -/
structure Draws (K : Type) where
  position : Vec K
  velocity : Vec K
  separation : K
  alignment : K
  cohesion : K
  maxSpeed : K
  radius : K

/-- The array sort `boids.sort((a, b) => b.fitness - a.fitness)` (script.js 881): a
stable sort by non-increasing fitness. -/
def sortByFitness (heap : Heap K) (boids : List Ref) : List Ref :=
  boids.insertionSort (fun a b => (heap b).fitness ≤ (heap a).fitness)

/-- The sums accumulated in `avgGenes` divided by `topCount` (script.js 889-901). -/
def averageGenes (heap : Heap K) (topBoids : List Ref) (topCount : Nat) : Genes K :=
  let sum : Genes K := topBoids.foldl (fun avg b =>
    { separation := avg.separation + (heap b).genes.separation
      alignment := avg.alignment + (heap b).genes.alignment
      cohesion := avg.cohesion + (heap b).genes.cohesion
      maxSpeed := avg.maxSpeed + (heap b).genes.maxSpeed
      radius := avg.radius + (heap b).genes.radius }) ⟨0, 0, 0, 0, 0⟩
  { separation := sum.separation / topCount
    alignment := sum.alignment / topCount
    cohesion := sum.cohesion / topCount
    maxSpeed := sum.maxSpeed / topCount
    radius := sum.radius / topCount }

/-- The body of the replacement loop (script.js 905-915) for one agent. -/
def offspring (b : Boid K) (avgGenes : Genes K) (d : Draws K) : Boid K :=
  { b with
    position := d.position
    velocity := d.velocity
    fitness := 50
    genes :=
      { separation := avgGenes.separation * d.separation
        alignment := avgGenes.alignment * d.alignment
        cohesion := avgGenes.cohesion * d.cohesion
        maxSpeed := constrain (avgGenes.maxSpeed * d.maxSpeed) 1 10
        radius := constrain (avgGenes.radius * d.radius) 20 200 } }

/-- The replacement loop (script.js 904-916) over the indices
`totalCount - bottomCount ≤ i < totalCount` of the sorted array; `draws i` are the
random outcomes of iteration `i`. -/
def replaceBottom (heap : Heap K) (sorted : List Ref) (start : Nat) (avgGenes : Genes K)
    (draws : Nat → Draws K) : Heap K :=
  (List.enumFrom start (sorted.drop start)).foldl (fun hp ib =>
    Function.update hp ib.2 (offspring (hp ib.2) avgGenes (draws ib.1))) heap

/-- The selection event of `updateEvolution` (script.js 877-916). -/
def selectionEvent (s : Sim K) (now : K) (draws : Nat → Draws K) : Sim K :=
  let sorted := sortByFitness s.heap s.boids
  let totalCount := sorted.length
  let bottomCount := Nat.floor ((totalCount : K) * (1 / 5))
  let topCount := Nat.floor ((totalCount : K) * (1 / 5))
  let topBoids := sorted.take topCount
  let avgGenes := averageGenes s.heap topBoids topCount
  { s with
    lastSelectionTime := now
    generation := s.generation + 1
    boids := sorted
    heap := replaceBottom s.heap sorted (totalCount - bottomCount) avgGenes draws }

/-- The movement of one automatic predator (script.js 856-872); `turn` is `some` of
the two `random(-0.5, 0.5)` outcomes when `random() < 0.02`, and `none` otherwise. -/
def movePredator (env : Env K) (s : Sim K) (pred : EvoPredator K) (turn : Option (K × K)) :
    EvoPredator K :=
  let x := pred.x + pred.vx
  let y := pred.y + pred.vy
  let vx := if x < 0 ∨ x > s.width then pred.vx * -1 else pred.vx
  let vy := if y < 0 ∨ y > s.height then pred.vy * -1 else pred.vy
  let x := constrain x 0 s.width
  let y := constrain y 0 s.height
  match turn with
  | none => ⟨x, y, vx, vy⟩
  | some (rx, ry) =>
    let vx := vx + rx
    let vy := vy + ry
    let sp := env.sqrt (vx * vx + vy * vy)
    if sp > 2 then ⟨x, y, vx / sp * 2, vy / sp * 2⟩ else ⟨x, y, vx, vy⟩

/-- `updateEvolution` (script.js 853-918); `turns i` is the random outcome for the
predator at array index `i` and `draws` are those of the selection event. -/
def updateEvolution (env : Env K) (s : Sim K) (now : K) (turns : Nat → Option (K × K))
    (draws : Nat → Draws K) : Sim K :=
  let preds := s.evolutionPredators.enum.map (fun ip => movePredator env s ip.2 (turns ip.1))
  let s := { s with evolutionPredators := preds }
  if now - s.lastSelectionTime > s.evolutionInterval ∧ s.boids.length > 10 then
    selectionEvent s now draws
  else s

end BoidMethods

/-! ## Population control -/

/-- The random outcomes consumed by one `new Boid(random(width), random(height), species)`:
`coin` is the `Math.random()` of the species choice in `adjustBoidCount`, `x` and `y`
the outcomes of `random(width)` and `random(height)`, `velocity` the outcome of
`p5.Vector.random2D().mult(random(1, maxSpeed))`. -/
structure SpawnDraw (K : Type) where
  coin : K
  x : K
  y : K
  velocity : Vec K

section Population

variable {K : Type} [LinearOrderedField K] [FloorRing K]

/-- The constant `DEFAULT_BOID_COUNT = 200`. -/
def DEFAULT_BOID_COUNT : Nat := 200

/-- The constant `CHART_MAX_POINTS = 120`. -/
def CHART_MAX_POINTS : Nat := 120

/-- The `Boid` constructor (script.js 277-296). -/
def newBoid (s : Sim K) (x y : K) (species : Species) (velocity : Vec K) : Boid K :=
  { position := ⟨x, y⟩
    velocity := velocity
    acceleration := ⟨0, 0⟩
    species := species
    fitness := 50
    neighborCount := 0
    panicTimer := 0
    trails := []
    lastTrailTime := 0
    genes :=
      { separation := s.separationWeight
        alignment := s.alignmentWeight
        cohesion := s.cohesionWeight
        maxSpeed := s.maxSpeed
        radius := s.neighborRadius } }

/-- The statement `boids.push(new Boid(x, y, species))`: the new object gets the
identity `nextRef`. -/
def pushNewBoid (s : Sim K) (x y : K) (species : Species) (velocity : Vec K) : Sim K :=
  { s with
    heap := Function.update s.heap s.nextRef (newBoid s x y species velocity)
    boids := s.boids ++ [s.nextRef]
    nextRef := s.nextRef + 1 }

/-- `spawnBoids` (script.js 680-685); `draws i` are the random outcomes of iteration `i`. -/
def spawnBoids (s : Sim K) (count : Nat) (draws : Nat → SpawnDraw K) : Sim K :=
  (List.range count).foldl (fun (s : Sim K) (i : Nat) =>
    let species :=
      if s.twoSpeciesEnabled = true ∧ (i : K) ≥ (count : K) / 2 then Species.red
      else Species.blue
    pushNewBoid s (draws i).x (draws i).y species (draws i).velocity) s

/-- The array method `splice(start, deleteCount)` without inserted items, for
`0 ≤ start`. -/
def splice {α : Type} (l : List α) (start deleteCount : Nat) : List α :=
  l.take start ++ l.drop (start + deleteCount)

/-- `adjustBoidCount` (script.js 688-699); `draws i` are the random outcomes of
iteration `i` of the spawning loop. -/
def adjustBoidCount (s : Sim K) (draws : Nat → SpawnDraw K) : Sim K :=
  let diff : Int := (s.targetBoidCount : Int) - (s.boids.length : Int)
  if diff > 0 then
    (List.range diff.toNat).foldl (fun (s : Sim K) (i : Nat) =>
      let species :=
        if s.twoSpeciesEnabled = true ∧ (draws i).coin > 1 / 2 then Species.red
        else Species.blue
      pushNewBoid s (draws i).x (draws i).y species (draws i).velocity) s
  else if diff < 0 then
    let boids := splice s.boids ((s.boids.length : Int) + diff).toNat (-diff).toNat
    { s with
      boids := boids
      selectedBoid :=
        match s.selectedBoid with
        | some r => if boids.contains r then some r else none
        | none => none }
  else s

/-- The body of the first loop of `processDeadBoids` (script.js 778-781) at index `i`;
the accumulator is the state and the array `respawned`. -/
def respawnStep (now : K) (draws : Nat → SpawnDraw K) (acc : Sim K × List Nat) (i : Nat) :
    Sim K × List Nat :=
  match acc.1.deadBoids.get? i with
  | some d =>
    if now ≥ d.respawnTime then
      (pushNewBoid acc.1 (draws i).x (draws i).y d.species (draws i).velocity, acc.2 ++ [i])
    else acc
  | none => acc

/-- The first loop of `processDeadBoids` (script.js 777-782), from the last index of
the queue down to `0`: the state after the pushes and the array `respawned`. -/
def respawnLoop (s : Sim K) (now : K) (draws : Nat → SpawnDraw K) : Sim K × List Nat :=
  (List.range s.deadBoids.length).reverse.foldl (respawnStep now draws) (s, [])

/-- `processDeadBoids` (script.js 775-786). -/
def processDeadBoids (s : Sim K) (now : K) (draws : Nat → SpawnDraw K) : Sim K :=
  let r := respawnLoop s now draws
  { r.1 with deadBoids := r.2.foldl (fun dead idx => splice dead idx 1) r.1.deadBoids }

/-- `setupEvolutionPredators` (script.js 1269-1279); `draws i` is the predator built
from the four random outcomes of iteration `i`. -/
def setupEvolutionPredators (s : Sim K) (draws : Nat → EvoPredator K) : Sim K :=
  (List.range 3).foldl (fun s i =>
    { s with evolutionPredators := s.evolutionPredators ++ [draws i] })
    { s with evolutionPredators := [] }

/-- `resetSimulation` (script.js 1172-1216).  The DOM updates and the `paused` flag
are not modelled. -/
def resetSimulation (s : Sim K) (draws : Nat → SpawnDraw K) (predators : Nat → EvoPredator K) :
    Sim K :=
  let s : Sim K :=
    { s with
      boids := []
      deadBoids := []
      obstacles := []
      followObstacle := none
      fearPoints := []
      killCount := 0
      generation := 0
      lastSelectionTime := s.millis
      evolutionPredators := []
      selectedBoid := none
      chartAvgNeighbors := []
      chartAvgSpeed := []
      chartCompactness := []
      separationWeight := 3 / 2
      alignmentWeight := 1
      cohesionWeight := 1
      neighborRadius := 80
      maxSpeed := 4
      targetBoidCount := DEFAULT_BOID_COUNT }
  let s := spawnBoids s DEFAULT_BOID_COUNT draws
  if s.currentMode = Mode.evolution then setupEvolutionPredators s predators else s

/-- `AudioAnalyzer.cleanup` (audio-analyzer.js 234-259), on the modelled fields. -/
def AudioAnalyzer.cleanup (a : AudioAnalyzer K) : AudioAnalyzer K :=
  { a with
    hasAnalyser := false
    active := false
    sourceType := SourceType.none
    smoothBass := 0
    smoothMid := 0
    smoothTreble := 0 }

/-- `switchMode` (script.js 1220-1266).  The DOM updates are not modelled. -/
def switchMode (s : Sim K) (mode : Mode) (predators : Nat → EvoPredator K) : Sim K :=
  let s : Sim K :=
    { s with
      currentMode := mode
      predatorDisplayPos := none
      fearPoints := []
      followObstacle := none }
  let s : Sim K :=
    if mode ≠ Mode.sound then { s with audioAnalyzer := s.audioAnalyzer.cleanup } else s
  let s : Sim K :=
    if mode = Mode.evolution then
      let s : Sim K := { s with generation := 0, lastSelectionTime := s.millis }
      let heap := s.boids.foldl (fun hp b =>
        Function.update hp b
          { hp b with
            fitness := 50
            genes :=
              { separation := s.separationWeight
                alignment := s.alignmentWeight
                cohesion := s.cohesionWeight
                maxSpeed := s.maxSpeed
                radius := s.neighborRadius } }) s.heap
      setupEvolutionPredators { s with heap := heap } predators
    else { s with evolutionPredators := [] }
  if mode = Mode.sound then
    { s with
      baseSeparation := s.separationWeight
      baseAlignment := s.alignmentWeight
      baseCohesion := s.cohesionWeight }
  else s

/-! ## The statistics of a tick -/

/-- The variables of the agent loop of `draw` (script.js 178-187): the state, the
position of the array iterator and the two running sums.  `stepped` is a ghost
variable: the agents whose `flock`, `update` and `edges` have been run, in order. -/
structure LoopState (K : Type) where
  sim : Sim K
  index : Nat
  totalSpeed : K
  totalNeighbors : Nat
  stepped : List Ref

/-- The first `n` iterations of the agent loop of `draw` (script.js 181-187) with its
running sums.  The array iterator reads the live `boids` array at its current index
and stops when the index is past the end. -/
def agentLoopStats (env : Env K) : Nat → LoopState K → LoopState K
  | 0, st => st
  | n + 1, st =>
    match st.sim.boids.get? st.index with
    | some this =>
      let s1 := agentStep env st.sim this
      agentLoopStats env n
        { sim := s1
          index := st.index + 1
          totalSpeed := st.totalSpeed + Vec.mag env.sqrt (s1.heap this).velocity
          totalNeighbors := st.totalNeighbors + (s1.heap this).neighborCount
          stepped := st.stepped ++ [this] }
    | none => st

/-- The agent loop of `draw` run to its end: every iteration advances the iterator
and no iteration lengthens the array, so `boids.length` iterations suffice. -/
def runAgentLoop (env : Env K) (s : Sim K) : LoopState K :=
  agentLoopStats env s.boids.length
    { sim := s, index := 0, totalSpeed := 0, totalNeighbors := 0, stepped := [] }

/-- The part of `draw` from the agent loop to the statistics (script.js 177-196);
`draws` are the random outcomes used by `processDeadBoids`. -/
def drawUpdateBoids (env : Env K) (s : Sim K) (draws : Nat → SpawnDraw K) : Sim K :=
  let st := runAgentLoop env s
  let s1 := processDeadBoids st.sim s.millis draws
  if s1.boids.length > 0 then
    { s1 with
      avgSpeed := st.totalSpeed / (s1.boids.length : K)
      avgNeighborCount := (st.totalNeighbors : K) / (s1.boids.length : K) }
  else s1

/-- The trimming of one chart series (script.js 975-979). -/
def trimSeries (l : List K) : List K :=
  if l.length > CHART_MAX_POINTS then l.tail else l

/-- The compactness value computed by `updateChartData` (script.js 963-971). -/
def compactnessSample (env : Env K) (s : Sim K) : K :=
  if s.boids.length > 0 then
    let cx := s.boids.foldl (fun acc b => acc + (s.heap b).position.x) 0 / (s.boids.length : K)
    let cy := s.boids.foldl (fun acc b => acc + (s.heap b).position.y) 0 / (s.boids.length : K)
    s.boids.foldl (fun acc b =>
      acc + Vec.dist env.sqrt ⟨(s.heap b).position.x, (s.heap b).position.y⟩ ⟨cx, cy⟩) 0 /
        (s.boids.length : K)
  else 0

/-- `updateChartData` (script.js 958-980). -/
def updateChartData (env : Env K) (s : Sim K) : Sim K :=
  { s with
    chartAvgNeighbors := trimSeries (s.chartAvgNeighbors ++ [s.avgNeighborCount])
    chartAvgSpeed := trimSeries (s.chartAvgSpeed ++ [s.avgSpeed])
    chartCompactness := trimSeries (s.chartCompactness ++ [compactnessSample env s]) }

/-! ## Sound-reactive modulation -/

/-- The object passed to and returned by `getModulatedParams`: a property that the
object does not have reads as `undefined`, here `none`. -/
structure ParamObject (K : Type) where
  baseSeparation : Option K
  baseAlignment : Option K
  baseCohesion : Option K
  separationWeight : Option K
  alignmentWeight : Option K
  cohesionWeight : Option K
deriving DecidableEq, Repr

/-- `AudioAnalyzer.averageRange` (audio-analyzer.js 162-169) on the byte array `data`. -/
def AudioAnalyzer.averageRange (data : List Nat) (start stop : Nat) : K :=
  if stop ≤ start then 0
  else
    let sum := (List.range' start (stop - start)).foldl (fun sum i =>
      if i < data.length then sum + data.getD i 0 else sum) 0
    ((sum : K) / ((stop : K) - (start : K))) / 255

/-- `AudioAnalyzer.lerp` (audio-analyzer.js 178-180). -/
def AudioAnalyzer.lerp (a b t : K) : K := a + (b - a) * t

/-- `AudioAnalyzer.analyze` (audio-analyzer.js 115-154); `data` is the byte array
filled by `getByteFrequencyData` and `now` the reading of `performance.now()`. -/
def AudioAnalyzer.analyze (a : AudioAnalyzer K) (data : List Nat) (now : K) : AudioAnalyzer K :=
  if a.hasAnalyser = false ∨ a.active = false ∨ a.muted = true then
    { a with
      smoothBass := a.smoothBass * (19 / 20)
      smoothMid := a.smoothMid * (19 / 20)
      smoothTreble := a.smoothTreble * (19 / 20)
      beatDetected := false }
  else
    let bassLevel : K := AudioAnalyzer.averageRange data 0 3
    let midLevel : K := AudioAnalyzer.averageRange data 3 24
    let trebleLevel : K := AudioAnalyzer.averageRange data 24 data.length
    let bassDelta := bassLevel - a.previousBassLevel
    let beat : Bool := decide (bassDelta > a.beatThreshold ∧ now - a.lastBeatTime > a.beatCooldown)
    { a with
      bassLevel := bassLevel
      midLevel := midLevel
      trebleLevel := trebleLevel
      smoothBass := AudioAnalyzer.lerp a.smoothBass bassLevel (1 - a.smoothingFactor)
      smoothMid := AudioAnalyzer.lerp a.smoothMid midLevel (1 - a.smoothingFactor)
      smoothTreble := AudioAnalyzer.lerp a.smoothTreble trebleLevel (1 - a.smoothingFactor)
      beatDetected := beat
      lastBeatTime := if beat then now else a.lastBeatTime
      previousBassLevel := bassLevel }

/-- `AudioAnalyzer.getModulatedParams` (audio-analyzer.js 187-195); a sum with an
`undefined` operand is not a number, here `none`. -/
def AudioAnalyzer.getModulatedParams (a : AudioAnalyzer K) (params : ParamObject K) :
    ParamObject K :=
  if a.active = false ∨ a.muted = true then params
  else
    { baseSeparation := none
      baseAlignment := none
      baseCohesion := none
      cohesionWeight := params.baseCohesion.map (fun b => b + a.smoothBass * a.bassSensitivity)
      alignmentWeight := params.baseAlignment.map (fun b => b + a.smoothMid * a.midSensitivity)
      separationWeight :=
        params.baseSeparation.map (fun b => b + a.smoothTreble * a.trebleSensitivity) }

/-- The object `modulated` of the sound step of `draw` (script.js 146-149), together
with the analyzer after `analyze()`. -/
def soundModulated (s : Sim K) (data : List Nat) (now : K) : AudioAnalyzer K × ParamObject K :=
  let a := s.audioAnalyzer.analyze data now
  (a, a.getModulatedParams
    { baseSeparation := some s.baseSeparation
      baseAlignment := some s.baseAlignment
      baseCohesion := some s.baseCohesion
      separationWeight := none
      alignmentWeight := none
      cohesionWeight := none })

/-- The sound step of `draw` (script.js 145-154): the three weights are assigned from
`modulated`.  The result is `none` when an assigned value is `undefined`, which the
numeric fields of the state cannot hold. -/
def drawSoundModulation (s : Sim K) (data : List Nat) (now : K) : Option (Sim K) :=
  if s.currentMode = Mode.sound ∧ s.audioAnalyzer.active = true then
    let r := soundModulated s data now
    match r.2.separationWeight, r.2.alignmentWeight, r.2.cohesionWeight with
    | some sw, some aw, some cw =>
      some { s with
        audioAnalyzer := r.1
        separationWeight := sw
        alignmentWeight := aw
        cohesionWeight := cw }
    | _, _, _ => none
  else some s

end Population

/-! ## Auxiliary notions used in the statements -/

/-- The bucket of `k`, read as the empty array when the key is absent. -/
def bucketOf (m : BucketMap) (k : CellKey) : List Ref := (mapGet m k).getD []

/-- The keys under which the reference `r` is stored, one entry for every stored
copy, in map order. -/
def occurrences (m : BucketMap) (r : Ref) : List CellKey :=
  m.flatMap (fun kv => (kv.2.filter (fun o => decide (o = r))).map (fun _ => kv.1))

/-- The map update performed by `SpatialGrid.insert` for key `k` and reference `b`. -/
def pushAt (m : BucketMap) (k : CellKey) (b : Ref) : BucketMap :=
  let grid1 := if mapHas m k then m else mapSet m k []
  mapSet grid1 k ((mapGet grid1 k).getD [] ++ [b])

section Notions

variable {K : Type} [LinearOrderedField K]

/-- The test applied to a candidate by `getNeighbors`. -/
def inRange (h : Heap K) (boid : Ref) (radiusSq : K) (other : Ref) : Bool :=
  decide (other ≠ boid) &&
    decide (((h boid).position.x - (h other).position.x) *
        ((h boid).position.x - (h other).position.x) +
      ((h boid).position.y - (h other).position.y) *
        ((h boid).position.y - (h other).position.y) < radiusSq)

/-- The assumption made on `Math.sqrt`: it returns the exact non-negative square root
of every non-negative number. -/
def ExactSqrt (sqrt : K → K) : Prop := ∀ x, 0 ≤ x → 0 ≤ sqrt x ∧ sqrt x * sqrt x = x

/-- The per-axis property of C8: the adjusted delta is the raw delta shifted by
`-extent`, `0` or `+extent`, it is shifted exactly when the raw magnitude exceeds half
the extent, and its magnitude is at most half the extent. -/
def MinimumImage (extent d d' : K) : Prop :=
  (d' = d - extent ∨ d' = d ∨ d' = d + extent) ∧
  (extent / 2 < |d| → (0 < d → d' = d - extent) ∧ (d ≤ 0 → d' = d + extent)) ∧
  (|d| ≤ extent / 2 → d' = d) ∧
  |d'| ≤ extent / 2

/-- The arithmetic mean of the gene `f` over the agents of `l`. -/
def geneMean (heap : Heap K) (l : List Ref) (f : Genes K → K) : K :=
  (l.map (fun b => f (heap b).genes)).sum / (l.length : K)

/-- The value `v` lies between `0.9` and `1.1` times `m`. -/
def WithinTenPercent (m v : K) : Prop :=
  min (m * (9 / 10)) (m * (11 / 10)) ≤ v ∧ v ≤ max (m * (9 / 10)) (m * (11 / 10))

/-- The five noise factors of a draw are outcomes of `random(0.9, 1.1)`. -/
def NoiseDraws (d : Draws K) : Prop :=
  (9 / 10 ≤ d.separation ∧ d.separation < 11 / 10) ∧
  (9 / 10 ≤ d.alignment ∧ d.alignment < 11 / 10) ∧
  (9 / 10 ≤ d.cohesion ∧ d.cohesion < 11 / 10) ∧
  (9 / 10 ≤ d.maxSpeed ∧ d.maxSpeed < 11 / 10) ∧
  (9 / 10 ≤ d.radius ∧ d.radius < 11 / 10)

end Notions

/-- The relation between a state and a later state of the same tick that the grid is
blind to: the bucket map and the cell size are the same and the population has
gained no agent. -/
def SameBuckets {K : Type} (s s' : Sim K) : Prop :=
  s'.spatialGrid.grid = s.spatialGrid.grid ∧
  s'.spatialGrid.cellSize = s.spatialGrid.cellSize ∧
  s'.boids ⊆ s.boids

/-- The invariant of C5 on a state: every agent of the population is stored exactly
once in the grid, in the bucket whose key is the cell of its current position. -/
def GridInvariant {K : Type} [LinearOrderedField K] [FloorRing K] (s : Sim K) : Prop :=
  ∀ r ∈ s.boids,
    occurrences s.spatialGrid.grid r =
      [getCell s.spatialGrid (s.heap r).position.x (s.heap r).position.y]

/-! ## Notions used in the statements about the population -/

/-- The selected-agent reference is not dangling: it is `null` or an agent of the
population. -/
def SelectedValid {K : Type} (s : Sim K) : Prop :=
  ∀ r, s.selectedBoid = some r → r ∈ s.boids

/-- The test `now >= deadBoids[i].respawnTime` of `processDeadBoids` at index `i`. -/
def dueAt {K : Type} [LinearOrderedField K] (dead : List (DeadBoid K)) (now : K) (i : Nat) :
    Bool :=
  match dead.get? i with
  | some d => decide (now ≥ d.respawnTime)
  | none => false

/-- The arithmetic mean of the velocity magnitudes of the population. -/
def meanSpeed {K : Type} [LinearOrderedField K] (env : Env K) (s : Sim K) : K :=
  (s.boids.map (fun r => Vec.mag env.sqrt (s.heap r).velocity)).sum / (s.boids.length : K)

/-- The arithmetic mean of the neighbour counts of the population. -/
def meanNeighborCount {K : Type} [LinearOrderedField K] (s : Sim K) : K :=
  ((s.boids.map (fun r => (s.heap r).neighborCount)).sum : K) / (s.boids.length : K)

/-- The population of the later state is not longer than that of the earlier one. -/
def NoGrowth {K : Type} (s s' : Sim K) : Prop := s'.boids.length ≤ s.boids.length

/-- One of the operations of C13 on the population: `adjustBoidCount` after the
slider has set any target, `Boid.die` of any agent, `processDeadBoids`, the
selection event of `updateEvolution`, or `resetSimulation`. -/
inductive PopulationStep {K : Type} [LinearOrderedField K] [FloorRing K] (env : Env K) :
    Sim K → Sim K → Prop where
  | adjust (s : Sim K) (target : Nat) (draws : Nat → SpawnDraw K) :
      PopulationStep env s (adjustBoidCount { s with targetBoidCount := target } draws)
  | die (s : Sim K) (this : Ref) : PopulationStep env s (die env s this)
  | respawn (s : Sim K) (now : K) (draws : Nat → SpawnDraw K) :
      PopulationStep env s (processDeadBoids s now draws)
  | select (s : Sim K) (now : K) (draws : Nat → Draws K) :
      PopulationStep env s (selectionEvent s now draws)
  | reset (s : Sim K) (draws : Nat → SpawnDraw K) (predators : Nat → EvoPredator K) :
      PopulationStep env s (resetSimulation s draws predators)

/-! ## Concrete configurations over `ℚ` -/

/-- An agent at rest at `(x, y)` with the default parameters of `script.js`. -/
def fixtureBoid {K : Type} [LinearOrderedField K] (x y : K) : Boid K :=
  { position := ⟨x, y⟩, velocity := ⟨0, 0⟩, acceleration := ⟨0, 0⟩, species := Species.blue,
    fitness := 50, neighborCount := 0, panicTimer := 0, trails := [], lastTrailTime := 0,
    genes := ⟨3 / 2, 1, 1, 4, 80⟩ }

/-- Newton iteration for the integer square root of `n` from the estimate `x`. -/
def natSqrtIter : Nat → Nat → Nat → Nat
  | 0, _, x => x
  | fuel + 1, n, x =>
    let y := (x + n / x) / 2
    if y < x then natSqrtIter fuel n y else x

/-- The integer square root (for the magnitudes used in the configurations below). -/
def natSqrt (n : Nat) : Nat := if n = 0 then 0 else natSqrtIter 100 n n

/-- A square root on `ℚ`, exact on the squares of rationals that occur in the
configurations below. -/
def ratSqrt (q : ℚ) : ℚ := (natSqrt q.num.toNat : ℚ) / (natSqrt q.den : ℚ)

/-- The library functions over `ℚ`; the angle functions are not used by the
configurations below (`visionMode` is `omni`). -/
def ratEnv : Env ℚ := { sqrt := ratSqrt, angleBetween := fun _ _ => 0, coneAngle := 1 }

/-- The analyzer as its constructor leaves it (audio-analyzer.js 6-43). -/
def freshAnalyzer {K : Type} [LinearOrderedField K] : AudioAnalyzer K :=
  { hasAnalyser := false, bassLevel := 0, midLevel := 0, trebleLevel := 0,
    smoothBass := 0, smoothMid := 0, smoothTreble := 0,
    beatThreshold := 3 / 5, lastBeatTime := 0, beatCooldown := 200, beatDetected := false,
    previousBassLevel := 0, bassSensitivity := 2, midSensitivity := 2, trebleSensitivity := 2,
    active := false, muted := false, sourceType := SourceType.none, smoothingFactor := 4 / 5 }

/-- The initial state of `script.js` (defaults of lines 6-66) in an `800 × 600`
world, for a given population and heap. -/
def fixtureSim {K : Type} [LinearOrderedField K] (boids : List Ref) (heap : Heap K) : Sim K :=
  { boids := boids, heap := heap, spatialGrid := ⟨80, 800, 600, [], 0, 0⟩,
    separationWeight := 3 / 2, alignmentWeight := 1, cohesionWeight := 1,
    neighborRadius := 80, maxSpeed := 4,
    boundaryMode := BoundaryMode.wrap, visionMode := VisionMode.omni,
    trailsEnabled := false, spatialGridEnabled := true, twoSpeciesEnabled := false,
    currentMode := Mode.normal, predatorDisplayPos := none, predatorRadius := 150,
    predatorFearTrail := true, killCount := 0, fearPoints := [], deadBoids := [],
    obstacles := [], generation := 0, lastSelectionTime := 0, evolutionInterval := 10000,
    evolutionPredators := [], selectedBoid := none, width := 800, height := 600,
    millis := 0, deltaTime := 16,
    targetBoidCount := 200, nextRef := boids.foldl max 0 + 1, followObstacle := none,
    baseSeparation := 3 / 2, baseAlignment := 1, baseCohesion := 1,
    avgSpeed := 0, avgNeighborCount := 0,
    chartAvgNeighbors := [], chartAvgSpeed := [], chartCompactness := [],
    audioAnalyzer := freshAnalyzer }

/-- Two agents at opposite corners of the `800 × 600` world: `(1, 1)` and `(798, 598)`. -/
def cornerHeap : Heap ℚ := fun r => if r = 0 then fixtureBoid 1 1 else fixtureBoid 798 598

/-- The grid of cell size `80` over the `800 × 600` world holding the two corner agents. -/
def cornerGrid : SpatialGrid ℚ :=
  [0, 1].foldl (insert cornerHeap) (clear ⟨80, 800, 600, [], 0, 0⟩)

/-- Three agents: two `50` apart in adjacent cells and one far away. -/
def trioHeap : Heap ℚ := fun r =>
  if r = 0 then fixtureBoid 70 70 else if r = 1 then fixtureBoid 100 110 else fixtureBoid 400 300

/-- A panicking agent at the origin with velocity `(3, 4)` and acceleration `(3, 4)`. -/
def hurriedHeap {K : Type} [LinearOrderedField K] : Heap K := fun _ =>
  { fixtureBoid 0 0 with
    velocity := ⟨3, 4⟩
    acceleration := ⟨3, 4⟩
    panicTimer := 2000 }

/-- An agent at `(79, 100)` moving right with velocity `(2, 0)`, and an agent at rest
at `(400, 300)`. -/
def moverHeap : Heap ℚ := fun r =>
  if r = 0 then { fixtureBoid 79 100 with velocity := ⟨2, 0⟩ } else fixtureBoid 400 300

/-- Predator mode with the predator at `(6, 0)` and influence radius `5`: agent `0`
at the origin is at distance `6` from the predator, agent `1` is far away. -/
def closePredatorSim : Sim ℚ :=
  { fixtureSim [0, 1] (fun r => if r = 0 then fixtureBoid 0 0 else fixtureBoid 400 300) with
    currentMode := Mode.predator
    predatorDisplayPos := some ⟨6, 0⟩
    predatorRadius := 5 }

/-- Predator mode with the default influence radius `150` at clock reading `1000`;
agent `0` is at the origin. -/
def killSim : Sim ℚ :=
  { closePredatorSim with
    predatorDisplayPos := some ⟨3, 4⟩
    predatorRadius := 150
    millis := 1000 }

/-- Random outcomes with every noise factor equal to `1`. -/
def unitDraws : Draws ℚ :=
  { position := ⟨0, 0⟩, velocity := ⟨2, 0⟩, separation := 1, alignment := 1, cohesion := 1,
    maxSpeed := 1, radius := 1 }

/-- Evolution mode at clock reading `20000` with eleven agents; agent `r` has fitness
`50 + r` and the default genes. -/
def evolutionSim : Sim ℚ :=
  { fixtureSim (List.range 11) (fun r => { fixtureBoid (r : ℚ) 0 with fitness := 50 + r }) with
    currentMode := Mode.evolution
    millis := 20000 }

/-- Evolution mode with eleven agents whose `maxSpeed` gene is `0.5`, the value they
inherit from a global `maxSpeed` of `0.5`. -/
def slowEvolutionSim : Sim ℚ :=
  { fixtureSim (List.range 11)
      (fun r => { fixtureBoid (r : ℚ) 0 with genes := ⟨3 / 2, 1, 1, 1 / 2, 80⟩ }) with
    currentMode := Mode.evolution
    maxSpeed := 1 / 2
    millis := 20000 }

/-! ## Concrete configurations for the population operations -/

/-- Agent `0` at `(100, 100)` with velocity `(1, 2)` and three agents at distance
exactly `32 = 0.4 * 80` from it, to the right, below and to the left. -/
def ringHeap : Heap ℚ := fun r =>
  if r = 0 then { fixtureBoid 100 100 with velocity := ⟨1, 2⟩ }
  else if r = 1 then fixtureBoid 132 100
  else if r = 2 then fixtureBoid 100 132
  else fixtureBoid 68 100

/-- Three agents with agent `2` selected. -/
def selectedSim : Sim ℚ :=
  { fixtureSim [0, 1, 2] (fun r => fixtureBoid (r : ℚ) 0) with selectedBoid := some 2 }

/-- Agent `0` at rest at the origin, agents `1` at `(400, 300)` and `2` at
`(600, 500)` moving right with velocity `(1, 0)`. -/
def preyHeap : Heap ℚ := fun r =>
  if r = 0 then fixtureBoid 0 0
  else if r = 1 then { fixtureBoid 400 300 with velocity := ⟨1, 0⟩ }
  else { fixtureBoid 600 500 with velocity := ⟨1, 0⟩ }

/-- Predator mode with the predator at `(3, 4)`: agent `0` at the origin is within
kill distance, agents `1` at `(400, 300)` and `2` at `(600, 500)` move right with
velocity `(1, 0)` and are out of the predator's reach. -/
def preySim : Sim ℚ :=
  { fixtureSim [0, 1, 2] preyHeap with
    currentMode := Mode.predator
    predatorDisplayPos := some ⟨3, 4⟩ }

/-- Predator mode at clock reading `5000` with the pointer outside the canvas: one
agent with velocity `(0, 3)` and one agent waiting in the respawn queue since `3000`. -/
def respawnSim : Sim ℚ :=
  { fixtureSim [0] (fun _ => { (fixtureBoid 100 100 : Boid ℚ) with velocity := ⟨0, 3⟩ }) with
    currentMode := Mode.predator
    deadBoids := [⟨Species.blue, 3000⟩]
    millis := 5000 }

/-- Sound mode with an active analyzer whose smoothed levels are `0.5`; `muted` is the
state of the mute toggle. -/
def soundSim (muted : Bool) : Sim ℚ :=
  { fixtureSim [0] (fun _ => (fixtureBoid 100 100 : Boid ℚ)) with
    currentMode := Mode.sound
    audioAnalyzer :=
      { (freshAnalyzer : AudioAnalyzer ℚ) with
        hasAnalyser := true
        active := true
        muted := muted
        sourceType := SourceType.microphone
        smoothBass := 1 / 2
        smoothMid := 1 / 2
        smoothTreble := 1 / 2 } }

/-- Random outcomes of a spawn: position `(10, 20)`, velocity `(0, 2)`, coin `0`. -/
def fixedSpawn : SpawnDraw ℚ := { coin := 0, x := 10, y := 20, velocity := ⟨0, 2⟩ }

/-! ## The divisions of the steering rules -/

section Divisors

variable {K : Type} [LinearOrderedField K]

/-- The divisor of the division `1 / len` that `normalize` executes: `len`, when it
is not `0`; no division otherwise. -/
def Vec.normalizeDivisors (sqrt : K → K) (v : Vec K) : List K :=
  let len := Vec.mag sqrt v
  if len ≠ 0 then [len] else []

/-- The divisor of the division that `limit` executes: `Math.sqrt(mSq)`, when `mSq`
exceeds `max * max`; no division otherwise. -/
def Vec.limitDivisors (sqrt : K → K) (v : Vec K) (max : K) : List K :=
  let mSq := Vec.magSq v
  if mSq > max * max then [sqrt mSq] else []

/-- The divisors of all divisions executed by `Boid.separate` (script.js 412-435), in
execution order: for every neighbour that passes the test `d > 0 && d < desiredSep`
the length in `diff.normalize()` and the distance `d` of `diff.div(d)`; then, when
`count > 0`, the count of `steer.div(count)` and the divisors inside `setMag` and
`limit`. -/
def separateDivisors (env : Env K) (s : Sim K) (this : Ref) (neighbors : List Ref) : List K :=
  let desiredSep := s.neighborRadius * (2 / 5)
  let inLoop := neighbors.foldl (fun (acc : List K) other =>
    let d := Vec.dist env.sqrt (s.heap this).position (s.heap other).position
    if d > 0 ∧ d < desiredSep then
      acc ++ Vec.normalizeDivisors env.sqrt
        (Vec.sub (s.heap this).position (s.heap other).position) ++ [d]
    else acc) []
  let r := separateLoop env s this neighbors
  if r.2 > 0 then
    let steer := Vec.div r.1 (r.2 : K)
    let steer1 := Vec.sub (Vec.setMag env.sqrt steer s.maxSpeed) (s.heap this).velocity
    inLoop ++ [(r.2 : K)] ++ Vec.normalizeDivisors env.sqrt steer ++
      Vec.limitDivisors env.sqrt steer1 MAX_FORCE
  else inLoop

/-- The divisors of all divisions executed by `Boid.align` (script.js 442-454): the
neighbour count of `avg.div(neighbors.length)`, then those inside `setMag` and
`limit`; none on the empty array. -/
def alignDivisors (env : Env K) (s : Sim K) (this : Ref) (neighbors : List Ref) : List K :=
  if neighbors.length = 0 then []
  else
    let avg := neighbors.foldl (fun avg other => Vec.add avg (s.heap other).velocity) Vec.zero
    let avg1 := Vec.div avg (neighbors.length : K)
    let steer := Vec.sub (Vec.setMag env.sqrt avg1 s.maxSpeed) (s.heap this).velocity
    [(neighbors.length : K)] ++ Vec.normalizeDivisors env.sqrt avg1 ++
      Vec.limitDivisors env.sqrt steer MAX_FORCE

/-- The divisors of all divisions executed by `Boid.seek` (script.js 477-483), inside
`setMag` and `limit`. -/
def seekDivisors (env : Env K) (s : Sim K) (this : Ref) (target : Vec K) : List K :=
  let desired := Vec.sub target (s.heap this).position
  let steer := Vec.sub (Vec.setMag env.sqrt desired s.maxSpeed) (s.heap this).velocity
  Vec.normalizeDivisors env.sqrt desired ++ Vec.limitDivisors env.sqrt steer MAX_FORCE

/-- The divisors of all divisions executed by `Boid.cohesion` (script.js 461-470): the
neighbour count of `center.div(neighbors.length)`, then those of `seek`; none on the
empty array. -/
def cohesionDivisors (env : Env K) (s : Sim K) (this : Ref) (neighbors : List Ref) : List K :=
  if neighbors.length = 0 then []
  else
    let center := neighbors.foldl (fun c other => Vec.add c (s.heap other).position) Vec.zero
    let center1 := Vec.div center (neighbors.length : K)
    [(neighbors.length : K)] ++ seekDivisors env s this center1

end Divisors

/-! ## The trail with the clock read call by call -/

section Trail

variable {K : Type} [LinearOrderedField K]

/-- The expiry loop of `Boid.update` (script.js 599-601), run for at most `fuel`
evaluations of its condition.  `clock c` is the value of the `c`-th call of `millis()`
and the second argument counts the calls made so far; the condition calls `millis()`
only when the trail is not empty.  The result is the trail and the call count when the
condition fails, and `none` when the fuel runs out first. -/
def expireLoop (clock : Nat → K) :
    Nat → Nat → List (TrailPoint K) → Option (List (TrailPoint K) × Nat)
  | 0, _, _ => none
  | _ + 1, c, [] => some ([], c)
  | fuel + 1, c, tp :: rest =>
    if clock c - tp.time > TRAIL_LIFETIME then expireLoop clock fuel (c + 1) rest
    else some (tp :: rest, c + 1)

/-- The recording step of `Boid.update` (script.js 594-597) at the clock reading
`now`. -/
def recordSample (now : K) (b : Boid K) : Boid K :=
  if now - b.lastTrailTime > TRAIL_RECORD_INTERVAL then
    { b with trails := b.trails ++ [⟨b.position.x, b.position.y, now⟩], lastTrailTime := now }
  else b

/-- The trail bookkeeping of `Boid.update` (script.js 593-601) with every call of
`millis()` read from `clock`: `now` is call `c`, the expiry loop reads the following
calls.  The result is the agent and the call count afterwards. -/
def recordTrailClocked (clock : Nat → K) (fuel c : Nat) (b : Boid K) : Option (Boid K × Nat) :=
  match expireLoop clock fuel (c + 1) (recordSample (clock c) b).trails with
  | some (trails, c1) => some ({ recordSample (clock c) b with trails := trails }, c1)
  | none => none

/-- The histories of one agent as far as its trail is concerned: `TrailRun clock c b`
says that `b` is a state of an agent that was created with an empty trail, at a moment
when `c` calls of `millis()` have been made.  Between two updates with trail recording
the clock may be read by others, fields other than `trails` and `lastTrailTime` may
change, and switching the trails off empties the trail (script.js 1383). -/
inductive TrailRun (clock : Nat → K) : Nat → Boid K → Prop where
  | created (c : Nat) (b : Boid K) (h : b.trails = []) : TrailRun clock c b
  | elapsed (c c1 : Nat) (b : Boid K) (h : TrailRun clock c b) (hc : c ≤ c1) :
      TrailRun clock c1 b
  | touched (c : Nat) (b b1 : Boid K) (h : TrailRun clock c b) (ht : b1.trails = b.trails)
      (hl : b1.lastTrailTime = b.lastTrailTime) : TrailRun clock c b1
  | cleared (c : Nat) (b : Boid K) (h : TrailRun clock c b) :
      TrailRun clock c { b with trails := [] }
  | updated (c c1 fuel : Nat) (b b1 : Boid K) (h : TrailRun clock c b)
      (hu : recordTrailClocked clock fuel c b = some (b1, c1)) : TrailRun clock c1 b1

/-- The invariant of the trail fields when `c` calls of `millis()` have been made: two
samples are more than the recording interval apart, in array order; no sample is later
than `lastTrailTime`; and when the trail is not empty `lastTrailTime` is the value of
an earlier call. -/
def TrailInv (clock : Nat → K) (c : Nat) (b : Boid K) : Prop :=
  b.trails.Pairwise (fun p q => p.time + TRAIL_RECORD_INTERVAL < q.time) ∧
  (∀ tp ∈ b.trails, tp.time ≤ b.lastTrailTime) ∧
  (b.trails ≠ [] → ∃ j, j < c ∧ b.lastTrailTime = clock j)

end Trail

/-! ## Notions for the statements about `flock` -/

section FlockNotions

variable {K : Type} [LinearOrderedField K] [FloorRing K]

/-- The neighbour array of `Boid.flock` after the vision filter (script.js 305-320),
before the split by species. -/
def perceivedNeighbors (env : Env K) (s : Sim K) (this : Ref) : List Ref :=
  if s.visionMode = VisionMode.cone then
    (acquireNeighbors s this).1.filter (fun other =>
      let toOther := Vec.sub (s.heap other).position (s.heap this).position
      let angle := env.angleBetween (s.heap this).velocity toOther
      decide (|angle| < env.coneAngle))
  else (acquireNeighbors s this).1

/-- The later state has the positions and velocities of the earlier one, and the same
`neighborRadius` and `maxSpeed`: all that `separate`, `align` and `cohesion` read. -/
def SameKinematics (s s1 : Sim K) : Prop :=
  (∀ r, (s1.heap r).position = (s.heap r).position) ∧
  (∀ r, (s1.heap r).velocity = (s.heap r).velocity) ∧
  s1.neighborRadius = s.neighborRadius ∧ s1.maxSpeed = s.maxSpeed

/-- The state `s` with the genes of every agent `r` replaced by `G r`. -/
def withGenes (G : Ref → Genes K) (s : Sim K) : Sim K :=
  { s with heap := fun r => { s.heap r with genes := G r } }

end FlockNotions

/-- Two agents of each species around agent `0`: agents `1` (blue) and `2` (red) at
distance `10`, agents `3` (blue) and `4` (red) at distance `50`. -/
def mixedHeap : Heap ℚ := fun r =>
  if r = 0 then fixtureBoid 100 100
  else if r = 1 then { (fixtureBoid 110 100 : Boid ℚ) with velocity := ⟨1, 0⟩ }
  else if r = 2 then { (fixtureBoid 100 110 : Boid ℚ) with species := Species.red }
  else if r = 3 then { (fixtureBoid 150 100 : Boid ℚ) with velocity := ⟨0, 1⟩ }
  else { (fixtureBoid 100 150 : Boid ℚ) with species := Species.red }

/-- The default state with two-species mode switched on, the grid switched off, and
the five agents of `mixedHeap`. -/
def mixedSim : Sim ℚ :=
  { fixtureSim [0, 1, 2, 3, 4] mixedHeap with
    twoSpeciesEnabled := true
    spatialGridEnabled := false }

/-- The state `fixtureSim [0, 1] moverHeap` with every gene of every agent set to `9`. -/
def mutantSim : Sim ℚ := withGenes (fun _ => ⟨9, 9, 9, 9, 9⟩) (fixtureSim [0, 1] moverHeap)

/-- Two agents in a `150 × 150` world: agent `0` at `(70, 10)` and agent `1` at
`(90, 10)`. -/
def narrowHeap : Heap ℚ := fun r => if r = 0 then fixtureBoid 70 10 else fixtureBoid 90 10

/-- The grid of cell size `80` over the `150 × 150` world holding the two agents of
`narrowHeap`, each inserted once. -/
def narrowGrid : SpatialGrid ℚ :=
  [0, 1].foldl (insert narrowHeap) (clear ⟨80, 150, 150, [], 0, 0⟩)

/-- Agent `0` at `(900, 300)`, where a window `900` wide has left it, and agent `1` at
`(50, 300)`. -/
def shrunkHeap : Heap ℚ := fun r => if r = 0 then fixtureBoid 900 300 else fixtureBoid 50 300

/-- The grid of cell size `80` after the world has shrunk to `800 × 600`, holding the
two agents of `shrunkHeap`, each inserted once. -/
def shrunkGrid : SpatialGrid ℚ :=
  [0, 1].foldl (insert shrunkHeap) (clear ⟨80, 800, 600, [], 0, 0⟩)

/-- A clock that advances by `60` ms from one call of `millis()` to the next. -/
def steadyClock (c : Nat) : ℚ := 60 * c

/-! ## Concrete configurations for the kinematics -/

/-- An agent at `(900, -3)`, outside the `800 × 600` world on both axes, with velocity
`(1, 2)`. -/
def strayHeap : Heap ℚ := fun _ => { (fixtureBoid 900 (-3) : Boid ℚ) with velocity := ⟨1, 2⟩ }

/-- The default state in bounce mode with the agent of `strayHeap`. -/
def bounceSim : Sim ℚ :=
  { fixtureSim [0] strayHeap with boundaryMode := BoundaryMode.bounce }

end Boids

/-! # Snake Quest

A shallow embedding of the game logic of `src/snake-quest/script.js`.  Grid
coordinates and times are integers, scores are natural numbers.  Rendering, particles
and the DOM are not modelled; random outcomes and clock readings are parameters.
-/

namespace Snake

/-- The constant `GRID_SIZE = 12`. -/
def GRID_SIZE : Int := 12

/-- A grid position `{x, y}`. -/
structure Cell where
  x : Int
  y : Int
deriving DecidableEq, Repr

/-- The values of `GameState`. -/
inductive GameState where
  | start
  | playing
  | paused
  | countdown
  | gameover
deriving DecidableEq, Repr

/-- The four objects of `Direction`. -/
inductive Direction where
  | up
  | down
  | left
  | right
deriving DecidableEq, Repr

/-- The `x` property of a direction object (script.js 46-51). -/
def Direction.x : Direction → Int
  | Direction.up => 0
  | Direction.down => 0
  | Direction.left => -1
  | Direction.right => 1

/-- The `y` property of a direction object (script.js 46-51). -/
def Direction.y : Direction → Int
  | Direction.up => -1
  | Direction.down => 1
  | Direction.left => 0
  | Direction.right => 0

/-- The values of `PowerUpType`. -/
inductive PowerUpType where
  | slowMo
  | ghost
  | scoreBoost
deriving DecidableEq, Repr

/-- The values of `gameMode`. -/
inductive GameMode where
  | classic
  | full
  | custom
deriving DecidableEq, Repr

/-- The object `settings`. -/
structure Settings where
  obstacles : Bool
  bridges : Bool
  poison : Bool
  powerups : Bool
  wallWrap : Bool
deriving DecidableEq, Repr

/-- An entry `{cells, isHorizontal}` of `bridges`. -/
structure Bridge where
  cells : List Cell
  isHorizontal : Bool
deriving DecidableEq, Repr

/-- The object `powerUp`: `{pos, type}`. -/
structure PowerUp where
  pos : Cell
  type : PowerUpType
deriving DecidableEq, Repr

/-- The game-logic fields of a `SnakeQuest` instance.  `direction` and
`nextDirection` are first assigned by `startGame`. -/
structure SnakeQuest where
  state : GameState
  highScore : Nat
  gameMode : GameMode
  settings : Settings
  snake : List Cell
  obstacles : List Cell
  bridges : List Bridge
  food : Option Cell
  poisonFood : Option Cell
  powerUp : Option PowerUp
  activeBuff : Option PowerUpType
  direction : Direction
  nextDirection : Direction
  score : Nat
  streak : Nat
  bestStreak : Nat
  wallWrap : Bool
  buffEndTime : Int
  powerUpExpireTime : Int
  baseTickRate : ℚ
  tickRate : ℚ
deriving DecidableEq, Repr

/-- The random outcomes and the clock reading consumed by one `spawnFood()` or
`activateBuff()`: the candidate cells drawn by the three calls of
`getRandomEmptyCell`, the two `Math.random()` coins, the index drawn by
`getRandomPowerUpType` and `Date.now()`. -/
structure FoodDraws where
  foodCells : Nat → Cell
  poisonCoin : ℚ
  poisonCells : Nat → Cell
  powerUpCoin : ℚ
  powerUpCells : Nat → Cell
  powerUpIndex : Nat
  now : Int

/-- The arrays built by `generateObstacles()` and `generateBridges()` (script.js
340-430), whose random construction is not modelled. -/
structure Generated where
  obstacles : List Cell
  bridges : List Bridge

/-- `setDirection` (script.js 259-269). -/
def setDirection (g : SnakeQuest) (newDir : Direction) : SnakeQuest :=
  let isOpposite : Bool :=
    (decide (g.direction.x = -newDir.x) && decide (g.direction.x ≠ 0)) ||
    (decide (g.direction.y = -newDir.y) && decide (g.direction.y ≠ 0))
  if isOpposite then g else { g with nextDirection := newDir }

/-- The occupancy test of `getRandomEmptyCell` (script.js 469-473). -/
def occupied (g : SnakeQuest) (cell : Cell) : Bool :=
  g.snake.any (fun s => decide (s.x = cell.x ∧ s.y = cell.y)) ||
  g.obstacles.any (fun o => decide (o.x = cell.x ∧ o.y = cell.y)) ||
  (match g.food with
    | some f => decide (f.x = cell.x ∧ f.y = cell.y)
    | none => false) ||
  (match g.poisonFood with
    | some p => decide (p.x = cell.x ∧ p.y = cell.y)
    | none => false) ||
  (match g.powerUp with
    | some p => decide (p.pos.x = cell.x ∧ p.pos.y = cell.y)
    | none => false)

/-- The `do … while` loop of `getRandomEmptyCell` (script.js 462-474) after `attempts`
draws; `cells k` is the cell of draw `k`. -/
def getRandomEmptyCellLoop (g : SnakeQuest) (cells : Nat → Cell) : Nat → Nat → Cell
  | 0, attempts => cells attempts
  | fuel + 1, attempts =>
    let cell := cells attempts
    if attempts + 1 < 200 ∧ occupied g cell = true then
      getRandomEmptyCellLoop g cells fuel (attempts + 1)
    else cell

/-- `getRandomEmptyCell` (script.js 458-477): the loop makes at most 200 draws. -/
def getRandomEmptyCell (g : SnakeQuest) (cells : Nat → Cell) : Cell :=
  getRandomEmptyCellLoop g cells 200 0

/-- `getRandomPowerUpType` (script.js 479-482) for the drawn index. -/
def getRandomPowerUpType (index : Nat) : PowerUpType :=
  match index with
  | 0 => PowerUpType.slowMo
  | 1 => PowerUpType.ghost
  | _ => PowerUpType.scoreBoost

/-- `spawnFood` (script.js 436-456). -/
def spawnFood (g : SnakeQuest) (d : FoodDraws) : SnakeQuest :=
  let g : SnakeQuest := { g with food := some (getRandomEmptyCell g d.foodCells) }
  let g : SnakeQuest :=
    if g.settings.poison = true ∧ d.poisonCoin < 1 / 5 then
      { g with poisonFood := some (getRandomEmptyCell g d.poisonCells) }
    else { g with poisonFood := none }
  if g.settings.powerups = true ∧ d.powerUpCoin < 3 / 20 then
    { g with
      powerUp := some ⟨getRandomEmptyCell g d.powerUpCells, getRandomPowerUpType d.powerUpIndex⟩
      powerUpExpireTime := d.now + 8000 }
  else { g with powerUp := none }

/-- `startGame` (script.js 275-338); `gen` holds the arrays that the two generators
build when their setting is enabled. -/
def startGame (g : SnakeQuest) (gen : Generated) (d : FoodDraws) : SnakeQuest :=
  let startX : Int := Int.floor ((GRID_SIZE : ℚ) / 2)
  let startY : Int := Int.floor ((GRID_SIZE : ℚ) / 2)
  let g : SnakeQuest :=
    { g with
      score := 0
      streak := 1
      bestStreak := 1
      wallWrap := g.settings.wallWrap
      snake := [⟨startX, startY⟩, ⟨startX - 1, startY⟩, ⟨startX - 2, startY⟩]
      direction := Direction.right
      nextDirection := Direction.right
      activeBuff := none
      buffEndTime := 0
      obstacles := if g.settings.obstacles then gen.obstacles else [] }
  let g : SnakeQuest :=
    { g with bridges := if g.settings.bridges then gen.bridges else [] }
  let g : SnakeQuest :=
    { g with food := none, poisonFood := none, powerUp := none, powerUpExpireTime := 0 }
  let g := spawnFood g d
  let base : ℚ := if g.gameMode = GameMode.classic then 180 else 130
  { g with baseTickRate := base, tickRate := base, state := GameState.playing }

/-- `gameOver` (script.js 1169-1175). -/
def gameOver (g : SnakeQuest) : SnakeQuest := { g with state := GameState.gameover }

/-- `isOnBridge` (script.js 615-620). -/
def isOnBridge (g : SnakeQuest) (pos : Cell) : Bool :=
  if g.bridges.length = 0 then false
  else g.bridges.any (fun b => b.cells.any (fun c => decide (c.x = pos.x ∧ c.y = pos.y)))

/-- `isGhostMode` (script.js 622-624). -/
def isGhostMode (g : SnakeQuest) : Bool := decide (g.activeBuff = some PowerUpType.ghost)

/-- `activateBuff` (script.js 630-640). -/
def activateBuff (g : SnakeQuest) (type : PowerUpType) (now : Int) : SnakeQuest :=
  let g : SnakeQuest := { g with activeBuff := some type, buffEndTime := now + 5000 }
  if type = PowerUpType.slowMo then { g with tickRate := g.baseTickRate * (3 / 2) } else g

/-- The array method `pop()`. -/
def pop (l : List Cell) : List Cell := l.dropLast

/-- The food handling of `update` (script.js 567-605), after `unshift(newHead)`. -/
def eat (g : SnakeQuest) (newHead : Cell) (d : FoodDraws) : SnakeQuest :=
  if g.food.any (fun f => decide (newHead.x = f.x ∧ newHead.y = f.y)) then
    let points := 10 * g.streak
    let points := if g.activeBuff = some PowerUpType.scoreBoost then points * 2 else points
    let g : SnakeQuest := { g with score := g.score + points, streak := g.streak + 1 }
    let g : SnakeQuest :=
      if g.streak > g.bestStreak then { g with bestStreak := g.streak } else g
    spawnFood g d
  else if g.poisonFood.any (fun p => decide (newHead.x = p.x ∧ newHead.y = p.y)) then
    let g : SnakeQuest := { g with streak := 1 }
    let g : SnakeQuest := if g.snake.length > 3 then { g with snake := pop g.snake } else g
    { g with snake := pop g.snake, poisonFood := none }
  else
    match g.powerUp with
    | some p =>
      if newHead.x = p.pos.x ∧ newHead.y = p.pos.y then
        let g := activateBuff g p.type d.now
        { g with powerUp := none, snake := pop g.snake }
      else { g with snake := pop g.snake }
    | none => { g with snake := pop g.snake }

/-- `update` (script.js 520-613). -/
def update (g : SnakeQuest) (d : FoodDraws) : SnakeQuest :=
  let g : SnakeQuest := { g with direction := g.nextDirection }
  match g.snake.head? with
  | none => g
  | some head =>
    let newHead : Cell := ⟨head.x + g.direction.x, head.y + g.direction.y⟩
    let outside : Bool :=
      decide (newHead.x < 0 ∨ newHead.x ≥ GRID_SIZE ∨ newHead.y < 0 ∨ newHead.y ≥ GRID_SIZE)
    if outside = true ∧ g.wallWrap = false then gameOver g
    else
      let newHead : Cell :=
        if outside then ⟨(newHead.x + GRID_SIZE) % GRID_SIZE, (newHead.y + GRID_SIZE) % GRID_SIZE⟩
        else newHead
      let g : SnakeQuest := if outside then { g with streak := 1 } else g
      if g.obstacles.any (fun o => decide (o.x = newHead.x ∧ o.y = newHead.y)) then gameOver g
      else if !isGhostMode g && !isOnBridge g newHead &&
          g.snake.tail.any (fun s => decide (s.x = newHead.x ∧ s.y = newHead.y)) then
        gameOver g
      else
        let g : SnakeQuest := { g with snake := newHead :: g.snake }
        let g := eat g newHead d
        if g.score > g.highScore then { g with highScore := g.score } else g

/-- The opposite of a direction. -/
def Direction.opposite : Direction → Direction
  | Direction.up => Direction.down
  | Direction.down => Direction.up
  | Direction.left => Direction.right
  | Direction.right => Direction.left

/-- The states reachable from `startGame()` by calls of `setDirection` (with one of
the four direction objects) and `update()` ticks, in any order. -/
inductive Reachable : SnakeQuest → Prop where
  | start (g : SnakeQuest) (gen : Generated) (d : FoodDraws) : Reachable (startGame g gen d)
  | setDirection (g : SnakeQuest) (newDir : Direction) :
      Reachable g → Reachable (setDirection g newDir)
  | update (g : SnakeQuest) (d : FoodDraws) : Reachable g → Reachable (update g d)

/-- The instance as the constructor leaves it (script.js 93-115), with the given
settings. -/
def newGame (settings : Settings) : SnakeQuest :=
  { state := GameState.start, highScore := 0, gameMode := GameMode.custom,
    settings := settings, snake := [], obstacles := [], bridges := [], food := none,
    poisonFood := none, powerUp := none, activeBuff := none,
    direction := Direction.right, nextDirection := Direction.right,
    score := 0, streak := 1, bestStreak := 1, wallWrap := false,
    buffEndTime := 0, powerUpExpireTime := 0, baseTickRate := 130, tickRate := 130 }

/-- Random outcomes that put the food at `(0, 0)` and, with the coin `0.1 < 0.2`, the
poison food at `(7, 6)`, directly in front of the starting snake. -/
def poisonAhead : FoodDraws :=
  { foodCells := fun _ => ⟨0, 0⟩, poisonCoin := 1 / 10, poisonCells := fun _ => ⟨7, 6⟩,
    powerUpCoin := 1 / 2, powerUpCells := fun _ => ⟨11, 11⟩, powerUpIndex := 0, now := 0 }

end Snake

namespace Boids

/-! ## Lemmas about the bucket map -/

theorem mapGet_mapSet (m : BucketMap) (k k' : CellKey) (v : List Ref) :
    mapGet (mapSet m k v) k' = if k = k' then some v else mapGet m k' := by
  induction m with
  | nil => simp [mapSet, mapGet]
  | cons e t ih =>
    obtain ⟨k0, v0⟩ := e
    by_cases h0 : k0 = k
    · subst h0
      by_cases h1 : k0 = k' <;> simp [mapSet, mapGet, h1]
    · by_cases h1 : k0 = k'
      · subst h1
        have : ¬ k = k0 := fun h => h0 h.symm
        simp [mapSet, mapGet, h0, this]
      · simp [mapSet, mapGet, h0, h1, ih]

section ScanLemmas

variable {K : Type} [LinearOrderedField K]

theorem scanBucket_fst (h : Heap K) (boid : Ref) (radiusSq : K) (cellBoids : List Ref)
    (acc : List Ref × Nat) :
    (scanBucket h boid radiusSq cellBoids acc).1 =
      acc.1 ++ cellBoids.filter (inRange h boid radiusSq) := by
  unfold scanBucket
  induction cellBoids generalizing acc with
  | nil => simp
  | cons o t ih =>
    rw [List.foldl_cons, ih]
    by_cases ho : o = boid
    · simp [ho, inRange, List.filter_cons]
    · by_cases hd : ((h boid).position.x - (h o).position.x) *
          ((h boid).position.x - (h o).position.x) +
        ((h boid).position.y - (h o).position.y) *
          ((h boid).position.y - (h o).position.y) < radiusSq
      · simp [ho, hd, inRange, List.filter_cons]
      · simp [ho, hd, inRange, List.filter_cons]

theorem abs_lt_of_sumsq_lt (u v R : K) (hR : 0 < R) (h : u * u + v * v < R * R) : |u| < R := by
  rw [abs_lt]
  constructor <;> nlinarith [mul_self_nonneg v, mul_self_nonneg u]

theorem mem_getBruteForceNeighbors (s : Sim K) (this b : Ref) :
    b ∈ getBruteForceNeighbors s this ↔
      b ∈ s.boids ∧ b ≠ this ∧
        Vec.magSq (Vec.sub (s.heap b).position (s.heap this).position) <
          s.neighborRadius * s.neighborRadius := by
  unfold getBruteForceNeighbors
  have key : ∀ (l acc : List Ref),
      l.foldl (fun neighbors other =>
        if other = this then neighbors
        else if Vec.magSq (Vec.sub (s.heap other).position (s.heap this).position) <
            s.neighborRadius * s.neighborRadius then neighbors ++ [other] else neighbors) acc =
      acc ++ l.filter (fun o => decide (o ≠ this) &&
        decide (Vec.magSq (Vec.sub (s.heap o).position (s.heap this).position) <
          s.neighborRadius * s.neighborRadius)) := by
    intro l
    induction l with
    | nil => simp
    | cons o t ih =>
      intro acc
      rw [List.foldl_cons, ih]
      by_cases ho : o = this
      · simp [ho, List.filter_cons]
      · by_cases hd : Vec.magSq (Vec.sub (s.heap o).position (s.heap this).position) <
            s.neighborRadius * s.neighborRadius
        · simp [ho, hd, List.filter_cons]
        · simp [ho, hd, List.filter_cons]
  simp only [key, List.nil_append, List.mem_filter, Bool.and_eq_true, decide_eq_true_eq]

theorem scanOption_fst (h : Heap K) (boid : Ref) (radiusSq : K) (o : Option (List Ref))
    (acc : List Ref × Nat) :
    (match o with
      | some cellBoids => scanBucket h boid radiusSq cellBoids acc
      | none => acc).1 = acc.1 ++ (o.getD []).filter (inRange h boid radiusSq) := by
  cases o with
  | none => simp
  | some cb => simp [scanBucket_fst]

end ScanLemmas

section GridLemmas

variable {K : Type} [LinearOrderedField K] [FloorRing K]

theorem insert_cellSize (h : Heap K) (g : SpatialGrid K) (r : Ref) :
    (insert h g r).cellSize = g.cellSize := rfl

theorem bucketOf_insert (h : Heap K) (g : SpatialGrid K) (r : Ref) (k : CellKey) :
    bucketOf (insert h g r).grid k =
      if getCell g (h r).position.x (h r).position.y = k then bucketOf g.grid k ++ [r]
      else bucketOf g.grid k := by
  unfold insert bucketOf
  by_cases hk : getCell g (h r).position.x (h r).position.y = k
  · subst hk
    by_cases hhas : mapHas g.grid (getCell g (h r).position.x (h r).position.y) = true
    · simp [mapGet_mapSet, hhas]
    · have hnone : mapGet g.grid (getCell g (h r).position.x (h r).position.y) = none := by
        simpa [mapHas] using hhas
      simp [mapGet_mapSet, hhas, hnone]
  · by_cases hhas : mapHas g.grid (getCell g (h r).position.x (h r).position.y) = true
    · simp [mapGet_mapSet, hhas, hk]
    · simp [mapGet_mapSet, hhas, hk]

theorem foldl_insert_cellSize (h : Heap K) (rs : List Ref) (g : SpatialGrid K) :
    (rs.foldl (insert h) g).cellSize = g.cellSize := by
  induction rs generalizing g with
  | nil => rfl
  | cons r t ih => simp [List.foldl_cons, ih, insert_cellSize]

theorem getCell_congr (g g' : SpatialGrid K) (hc : g'.cellSize = g.cellSize) (x y : K) :
    getCell g' x y = getCell g x y := by
  simp [getCell, hc]

theorem bucketOf_foldl_insert (h : Heap K) (rs : List Ref) (g : SpatialGrid K) (k : CellKey) :
    bucketOf (rs.foldl (insert h) g).grid k =
      bucketOf g.grid k ++
        rs.filter (fun r => decide (getCell g (h r).position.x (h r).position.y = k)) := by
  induction rs generalizing g with
  | nil => simp
  | cons r t ih =>
    rw [List.foldl_cons, ih, bucketOf_insert]
    have hcell : ∀ r', getCell (insert h g r) (h r').position.x (h r').position.y =
        getCell g (h r').position.x (h r').position.y :=
      fun r' => getCell_congr g _ (insert_cellSize h g r) _ _
    simp only [hcell]
    by_cases hk : getCell g (h r).position.x (h r).position.y = k
    · simp [hk, List.filter_cons]
    · simp [hk, List.filter_cons]

/-- The array returned by `getNeighbors`, bucket by bucket in scan order. -/
theorem getNeighbors_fst (h : Heap K) (g : SpatialGrid K) (boid : Ref) (radius : K) :
    (getNeighbors h g boid radius).1 =
      offsets.flatMap (fun dx => offsets.flatMap (fun dy =>
        (bucketOf g.grid ((getCell g (h boid).position.x (h boid).position.y).1 + dx,
            (getCell g (h boid).position.x (h boid).position.y).2 + dy)).filter
          (inRange h boid (radius * radius)))) := by
  simp only [getNeighbors, offsets, List.foldl_cons, List.foldl_nil, scanOption_fst,
    List.flatMap_cons, List.flatMap_nil, bucketOf, List.nil_append, List.append_nil,
    List.append_assoc]

theorem floor_div_diff (c x x' : K) (hc : 0 < c) (hd : |x - x'| < c) :
    Int.floor (x' / c) - Int.floor (x / c) ∈ offsets := by
  have h1 := Int.floor_le (x / c)
  have h2 := Int.lt_floor_add_one (x / c)
  have h3 := Int.floor_le (x' / c)
  have h4 := Int.lt_floor_add_one (x' / c)
  have habs := abs_lt.mp hd
  have hx : x / c - x' / c < 1 := by
    rw [← sub_div, div_lt_one hc]; exact habs.2
  have hx' : x' / c - x / c < 1 := by
    rw [← sub_div, div_lt_one hc]; linarith [habs.1]
  have ha : ((Int.floor (x' / c) : Int) : K) < (Int.floor (x / c) : K) + 2 := by linarith
  have hb : ((Int.floor (x / c) : Int) : K) < (Int.floor (x' / c) : K) + 2 := by linarith
  have ha' : Int.floor (x' / c) < Int.floor (x / c) + 2 := by exact_mod_cast ha
  have hb' : Int.floor (x / c) < Int.floor (x' / c) + 2 := by exact_mod_cast hb
  have : Int.floor (x' / c) - Int.floor (x / c) = -1 ∨ Int.floor (x' / c) - Int.floor (x / c) = 0 ∨
      Int.floor (x' / c) - Int.floor (x / c) = 1 := by omega
  simpa [offsets] using this

theorem mem_getNeighbors_rebuilt (h : Heap K) (g : SpatialGrid K) (boids : List Ref)
    (a b : Ref) (radius : K) :
    b ∈ (getNeighbors h (boids.foldl (insert h) (clear g)) a radius).1 ↔
      ∃ dx ∈ offsets, ∃ dy ∈ offsets,
        (b ∈ boids ∧ getCell g (h b).position.x (h b).position.y =
          ((getCell g (h a).position.x (h a).position.y).1 + dx,
            (getCell g (h a).position.x (h a).position.y).2 + dy)) ∧
        inRange h a (radius * radius) b = true := by
  have hcs : (boids.foldl (insert h) (clear g)).cellSize = g.cellSize := by
    rw [foldl_insert_cellSize]; rfl
  have hcell : ∀ x y, getCell (boids.foldl (insert h) (clear g)) x y = getCell g x y :=
    fun x y => getCell_congr g _ hcs x y
  have hcell' : ∀ x y, getCell (clear g) x y = getCell g x y :=
    fun x y => getCell_congr g _ rfl x y
  have hempty : ∀ k, bucketOf (clear g).grid k = [] := fun k => rfl
  rw [getNeighbors_fst]
  simp only [List.mem_flatMap, List.mem_filter, bucketOf_foldl_insert, hcell, hcell', hempty,
    List.nil_append, decide_eq_true_eq]

end GridLemmas

/-! ## Velocity bound and empty neighbourhoods -/

section Kinematics

variable {K : Type} [LinearOrderedField K]

theorem sqrt_le_of_le_mul_self (sqrt : K → K) (hsqrt : ExactSqrt sqrt) (x e : K)
    (hx : 0 ≤ x) (he : 0 ≤ e) (h : x ≤ e * e) : sqrt x ≤ e := by
  obtain ⟨h0, h1⟩ := hsqrt x hx
  by_contra hlt
  have hlt' : e < sqrt x := not_le.mp hlt
  have : e * e < sqrt x * sqrt x := by nlinarith
  linarith

theorem Vec.magSq_nonneg (v : Vec K) : 0 ≤ Vec.magSq v := by
  unfold Vec.magSq
  nlinarith [mul_self_nonneg v.x, mul_self_nonneg v.y]

theorem Vec.mag_limit_le (sqrt : K → K) (hsqrt : ExactSqrt sqrt) (v : Vec K) (e : K)
    (he : 0 ≤ e) : Vec.mag sqrt (Vec.limit sqrt v e) ≤ e := by
  unfold Vec.limit
  by_cases hbig : Vec.magSq v > e * e
  · simp only [hbig, if_true]
    obtain ⟨h0, h1⟩ := hsqrt (Vec.magSq v) (Vec.magSq_nonneg v)
    have hee : 0 ≤ e * e := mul_nonneg he he
    have hm : 0 < Vec.magSq v := lt_of_le_of_lt hee hbig
    have hr : sqrt (Vec.magSq v) ≠ 0 := by
      intro h
      rw [h] at h1
      simp at h1
      exact absurd h1.symm (ne_of_gt hm)
    have hsq : Vec.magSq (Vec.mult (Vec.div v (sqrt (Vec.magSq v))) e) = e * e := by
      generalize hrdef : sqrt (Vec.magSq v) = r at h0 h1 hr
      have hxy : v.x * v.x + v.y * v.y = r * r := by
        rw [h1]; rfl
      simp only [Vec.div, hr, if_false, Vec.mult, Vec.magSq]
      have hrr : r * r ≠ 0 := mul_ne_zero hr hr
      have hexp : v.x / r * e * (v.x / r * e) + v.y / r * e * (v.y / r * e) =
          (v.x * v.x + v.y * v.y) / (r * r) * (e * e) := by
        field_simp
        ring
      rw [hexp, hxy, div_self hrr, one_mul]
    unfold Vec.mag
    rw [hsq]
    exact sqrt_le_of_le_mul_self sqrt hsqrt _ _ hee he (le_refl _)
  · simp only [hbig, if_false]
    exact sqrt_le_of_le_mul_self sqrt hsqrt _ _ (Vec.magSq_nonneg v) he (not_lt.mp hbig)

theorem update_velocity (env : Env K) (s : Sim K) (this : Ref) :
    ((update env s this).heap this).velocity =
      Vec.limit env.sqrt (Vec.add (s.heap this).velocity (s.heap this).acceleration)
        (effectiveSpeed s this) := by
  unfold update setBoid
  by_cases ht : s.trailsEnabled = true
  · simp only [ht, if_true, Function.update_same, recordTrail]
    split_ifs <;> rfl
  · simp only [ht, Function.update_same]
    rfl

theorem edges_velocity_magSq (s : Sim K) (this : Ref) :
    Vec.magSq ((edges s this).heap this).velocity = Vec.magSq (s.heap this).velocity := by
  unfold edges setBoid
  cases hb : s.boundaryMode with
  | wrap => simp only [Function.update_same]
  | bounce =>
    simp only [Function.update_same, Vec.magSq]
    split_ifs <;> ring

theorem effectiveSpeed_nonneg (s : Sim K) (this : Ref) (hms : 0 ≤ baseSpeed s this) :
    0 ≤ effectiveSpeed s this := by
  unfold effectiveSpeed
  split_ifs
  · exact mul_nonneg hms (by norm_num)
  · exact hms

/-- C3. With an exact square root and a non-negative max speed `ms` (the global
`maxSpeed`, or `genes.maxSpeed` in evolution mode), the velocity magnitude after
`update()`, and still after the following `edges()`, is at most the effective max
speed, which is `1.5 * ms` when `panicTimer > 0` and `ms` otherwise. -/
theorem velocity_bounded_after_update (env : Env K) (s : Sim K) (this : Ref)
    (hsqrt : ExactSqrt env.sqrt) (hms : 0 ≤ baseSpeed s this) :
    effectiveSpeed s this =
      (if (s.heap this).panicTimer > 0 then baseSpeed s this * (3 / 2) else baseSpeed s this) ∧
    baseSpeed s this =
      (if s.currentMode = Mode.evolution then (s.heap this).genes.maxSpeed else s.maxSpeed) ∧
    Vec.mag env.sqrt ((update env s this).heap this).velocity ≤ effectiveSpeed s this ∧
    Vec.mag env.sqrt ((edges (update env s this) this).heap this).velocity ≤
      effectiveSpeed s this := by
  have he := effectiveSpeed_nonneg s this hms
  have h1 : Vec.mag env.sqrt ((update env s this).heap this).velocity ≤ effectiveSpeed s this := by
    rw [update_velocity]
    exact Vec.mag_limit_le env.sqrt hsqrt _ _ he
  refine ⟨rfl, rfl, h1, ?_⟩
  unfold Vec.mag at h1 ⊢
  rw [edges_velocity_magSq]
  exact h1

/-- C3 over the reals with `Real.sqrt`: a panicking agent with velocity `(3, 4)` and
acceleration `(3, 4)` under `maxSpeed = 4`. -/
theorem velocity_bounded_after_update_witness :
    ExactSqrt Real.sqrt ∧
    (0 : ℝ) ≤ baseSpeed (fixtureSim [0] hurriedHeap) 0 ∧
    Vec.mag Real.sqrt ((update ⟨Real.sqrt, fun _ _ => 0, 1⟩
      (fixtureSim [0] hurriedHeap) 0).heap 0).velocity ≤
        effectiveSpeed (fixtureSim [0] (hurriedHeap : Heap ℝ)) 0 ∧
    Vec.mag Real.sqrt ((edges (update ⟨Real.sqrt, fun _ _ => 0, 1⟩
      (fixtureSim [0] hurriedHeap) 0) 0).heap 0).velocity ≤
        effectiveSpeed (fixtureSim [0] (hurriedHeap : Heap ℝ)) 0 :=
  have hs : ExactSqrt Real.sqrt := fun x hx => ⟨Real.sqrt_nonneg x, Real.mul_self_sqrt hx⟩
  have hb : (0 : ℝ) ≤ baseSpeed (fixtureSim [0] hurriedHeap) 0 := by
    simp [baseSpeed, fixtureSim]
  ⟨hs, hb, (velocity_bounded_after_update ⟨Real.sqrt, fun _ _ => 0, 1⟩ _ 0 hs hb).2.2⟩

/-- C4. On the empty neighbour array `separate`, `align` and `cohesion` each return
the zero vector, so the three weighted forces that `flock` applies leave the
acceleration of the agent unchanged, whatever the weights. -/
theorem flocking_forces_empty (env : Env K) (s : Sim K) (this : Ref) (sw aw cw : K) :
    separate env s this [] = ⟨0, 0⟩ ∧
    align env s this [] = ⟨0, 0⟩ ∧
    cohesion env s this [] = ⟨0, 0⟩ ∧
    ((applyForce (applyForce (applyForce s this (Vec.mult (separate env s this []) sw)) this
        (Vec.mult (align env s this []) aw)) this
        (Vec.mult (cohesion env s this []) cw)).heap this).acceleration =
      (s.heap this).acceleration := by
  have h1 : separate env s this [] = ⟨0, 0⟩ := by
    simp [separate, separateLoop, Vec.zero]
  have h2 : align env s this [] = ⟨0, 0⟩ := by
    simp [align, Vec.zero]
  have h3 : cohesion env s this [] = ⟨0, 0⟩ := by
    simp [cohesion, Vec.zero]
  refine ⟨h1, h2, h3, ?_⟩
  rw [h1, h2, h3]
  simp [applyForce, setBoid, Vec.add, Vec.mult]

end Kinematics

/-! ## The buckets after a rebuild and during the agent loop -/

theorem pushAt_nil (k : CellKey) (b : Ref) : pushAt [] k b = [(k, [b])] := by
  simp [pushAt, mapHas, mapGet, mapSet]

theorem pushAt_cons (k0 : CellKey) (v0 : List Ref) (t : BucketMap) (k : CellKey) (b : Ref) :
    pushAt ((k0, v0) :: t) k b =
      if k0 = k then (k0, v0 ++ [b]) :: t else (k0, v0) :: pushAt t k b := by
  by_cases h0 : k0 = k
  · simp [pushAt, mapHas, mapGet, mapSet, h0]
  · by_cases ht : (mapGet t k).isSome = true
    · simp [pushAt, mapHas, mapGet, mapSet, h0, ht]
    · simp [pushAt, mapHas, mapGet, mapSet, h0, ht]

theorem occurrences_cons (k0 : CellKey) (v0 : List Ref) (t : BucketMap) (r : Ref) :
    occurrences ((k0, v0) :: t) r =
      (v0.filter (fun o => decide (o = r))).map (fun _ => k0) ++ occurrences t r := by
  simp [occurrences, List.flatMap_cons]

theorem occurrences_pushAt_of_ne (m : BucketMap) (k : CellKey) (b r : Ref) (hne : b ≠ r) :
    occurrences (pushAt m k b) r = occurrences m r := by
  induction m with
  | nil => simp [pushAt_nil, occurrences, hne]
  | cons e t ih =>
    obtain ⟨k0, v0⟩ := e
    rw [pushAt_cons]
    by_cases h0 : k0 = k
    · simp [h0, occurrences_cons, List.filter_append, hne]
    · simp [h0, occurrences_cons, ih]

theorem occurrences_pushAt_self (m : BucketMap) (k : CellKey) (r : Ref)
    (hnone : occurrences m r = []) : occurrences (pushAt m k r) r = [k] := by
  induction m with
  | nil => simp [pushAt_nil, occurrences]
  | cons e t ih =>
    obtain ⟨k0, v0⟩ := e
    rw [occurrences_cons, List.append_eq_nil] at hnone
    rw [pushAt_cons]
    by_cases h0 : k0 = k
    · simp only [h0, if_true, occurrences_cons, List.filter_append, List.map_append]
      rw [hnone.2]
      have := hnone.1
      rw [h0] at this
      rw [this]
      simp
    · simp only [h0, if_false, occurrences_cons]
      rw [hnone.1, ih hnone.2]
      rfl

section RebuildLemmas

variable {K : Type} [LinearOrderedField K] [FloorRing K]

theorem insert_grid (h : Heap K) (g : SpatialGrid K) (b : Ref) :
    (insert h g b).grid = pushAt g.grid (getCell g (h b).position.x (h b).position.y) b := rfl

theorem occurrences_foldl_insert_of_not_mem (h : Heap K) (rs : List Ref) (g : SpatialGrid K)
    (r : Ref) (hr : r ∉ rs) :
    occurrences (rs.foldl (insert h) g).grid r = occurrences g.grid r := by
  induction rs generalizing g with
  | nil => rfl
  | cons b t ih =>
    rw [List.foldl_cons, ih _ (fun hm => hr (List.mem_cons_of_mem _ hm)), insert_grid]
    exact occurrences_pushAt_of_ne _ _ _ _ (fun hb => hr (hb ▸ List.mem_cons_self _ _))

theorem occurrences_foldl_insert (h : Heap K) (rs : List Ref) (g : SpatialGrid K) (r : Ref)
    (hnd : rs.Nodup) (hr : r ∈ rs) (hnone : occurrences g.grid r = []) :
    occurrences (rs.foldl (insert h) g).grid r =
      [getCell g (h r).position.x (h r).position.y] := by
  induction rs generalizing g with
  | nil => exact absurd hr (List.not_mem_nil r)
  | cons b t ih =>
    rw [List.nodup_cons] at hnd
    rw [List.foldl_cons]
    by_cases hb : b = r
    · subst hb
      rw [occurrences_foldl_insert_of_not_mem _ _ _ _ hnd.1, insert_grid]
      exact occurrences_pushAt_self _ _ _ hnone
    · have hrt : r ∈ t := by
        rcases List.mem_cons.mp hr with h1 | h1
        · exact absurd h1.symm hb
        · exact h1
      have hn' : occurrences (insert h g b).grid r = [] := by
        rw [insert_grid, occurrences_pushAt_of_ne _ _ _ _ hb]; exact hnone
      rw [ih _ hnd.2 hrt hn']
      rw [getCell_congr g _ (insert_cellSize h g b)]

end RebuildLemmas

section FrameLemmas

variable {K : Type}

theorem SameBuckets.refl (s : Sim K) : SameBuckets s s :=
  ⟨rfl, rfl, List.Subset.refl _⟩

theorem SameBuckets.trans {a b c : Sim K} (h1 : SameBuckets a b) (h2 : SameBuckets b c) :
    SameBuckets a c :=
  ⟨h2.1.trans h1.1, h2.2.1.trans h1.2.1, List.Subset.trans h2.2.2 h1.2.2⟩

theorem SameBuckets.ite {a b c : Sim K} (p : Prop) [Decidable p] (h1 : SameBuckets a b)
    (h2 : SameBuckets a c) : SameBuckets a (if p then b else c) := by
  split_ifs
  · exact h1
  · exact h2

theorem SameBuckets.setBoid {a b : Sim K} (h : SameBuckets a b) (r : Ref) (v : Boid K) :
    SameBuckets a (setBoid b r v) := h

theorem SameBuckets.applyForce [LinearOrderedField K] {a b : Sim K} (h : SameBuckets a b) (r : Ref) (f : Vec K) :
    SameBuckets a (applyForce b r f) := h

theorem SameBuckets.die [LinearOrderedField K] {a b : Sim K} (h : SameBuckets a b) (env : Env K) (r : Ref) :
    SameBuckets a (die env b r) := by
  refine SameBuckets.trans h ?_
  unfold Boids.die
  simp only []
  split_ifs
  · exact SameBuckets.refl b
  · exact ⟨rfl, rfl, (List.eraseIdx_sublist _ _).subset⟩
  · exact ⟨rfl, rfl, (List.eraseIdx_sublist _ _).subset⟩

theorem SameBuckets.fleeFromPredator [LinearOrderedField K] {a b : Sim K} (h : SameBuckets a b) (env : Env K)
    (r : Ref) (predPos : Vec K) (radius : K) :
    SameBuckets a (fleeFromPredator env b r predPos radius) := by
  unfold Boids.fleeFromPredator
  simp only []
  split_ifs
  · exact SameBuckets.die (SameBuckets.applyForce h _ _) _ _
  · exact SameBuckets.applyForce h _ _
  · exact h

theorem SameBuckets.foldl {α : Type} (f : Sim K → α → Sim K)
    (hf : ∀ (x : Sim K) (y : α), SameBuckets x (f x y)) (l : List α) {a b : Sim K}
    (h : SameBuckets a b) : SameBuckets a (l.foldl f b) := by
  induction l generalizing b with
  | nil => exact h
  | cons y t ih => exact ih (SameBuckets.trans h (hf b y))

theorem SameBuckets.avoidFearTrail [LinearOrderedField K] {a b : Sim K} (h : SameBuckets a b) (env : Env K)
    (r : Ref) : SameBuckets a (avoidFearTrail env b r) := by
  unfold Boids.avoidFearTrail
  refine SameBuckets.foldl _ ?_ _ h
  intro x y
  simp only []
  split_ifs
  · exact SameBuckets.refl x
  · exact SameBuckets.applyForce (SameBuckets.refl x) _ _
  · exact SameBuckets.refl x

theorem SameBuckets.fleeEvolutionPredators [LinearOrderedField K] {a b : Sim K} (h : SameBuckets a b) (env : Env K)
    (r : Ref) : SameBuckets a (fleeEvolutionPredators env b r) := by
  unfold Boids.fleeEvolutionPredators
  refine SameBuckets.foldl _ ?_ _ h
  intro x y
  simp only []
  split_ifs
  · exact SameBuckets.setBoid (SameBuckets.fleeFromPredator (SameBuckets.refl x) _ _ _ _) _ _
  · exact SameBuckets.fleeFromPredator (SameBuckets.refl x) _ _ _ _

theorem SameBuckets.predatorStep [LinearOrderedField K] {a b : Sim K} (h : SameBuckets a b) (env : Env K)
    (r : Ref) : SameBuckets a (predatorStep env b r) := by
  unfold Boids.predatorStep
  split
  · exact SameBuckets.ite _ (SameBuckets.fleeFromPredator h _ _ _ _) h
  · exact h

theorem SameBuckets.acquireNeighbors [LinearOrderedField K] [FloorRing K] (s : Sim K) (r : Ref) :
    SameBuckets s (acquireNeighbors s r).2 := by
  unfold Boids.acquireNeighbors
  split_ifs
  · exact ⟨rfl, rfl, List.Subset.refl _⟩
  · exact ⟨rfl, rfl, List.Subset.refl _⟩
  · exact SameBuckets.refl s

theorem SameBuckets.flock [LinearOrderedField K] [FloorRing K] (env : Env K) (s : Sim K) (r : Ref) :
    SameBuckets s (flock env s r) := by
  unfold Boids.flock
  lift_lets
  intro res nb s1 nb2 same other src s2 sep ali coh sw aw cw s3 s4 s5 s6 s7 s8 s9 s10
  have h1 : SameBuckets s s1 := SameBuckets.acquireNeighbors s r
  have h2 : SameBuckets s s2 := SameBuckets.setBoid h1 _ _
  have h5 : SameBuckets s s5 :=
    SameBuckets.applyForce (SameBuckets.applyForce (SameBuckets.applyForce h2 _ _) _ _) _ _
  have h6 : SameBuckets s s6 := SameBuckets.ite _ (SameBuckets.applyForce h5 _ _) h5
  have h7 : SameBuckets s s7 := SameBuckets.ite _ (SameBuckets.applyForce h6 _ _) h6
  have h8 : SameBuckets s s8 := SameBuckets.predatorStep h7 _ _
  have h9 : SameBuckets s s9 := SameBuckets.ite _ (SameBuckets.avoidFearTrail h8 _ _) h8
  have h10 : SameBuckets s s10 := SameBuckets.ite _ (SameBuckets.fleeEvolutionPredators h9 _ _) h9
  intros
  exact SameBuckets.ite _ (SameBuckets.setBoid h10 _ _) h10

theorem SameBuckets.update [LinearOrderedField K] (env : Env K) (s : Sim K) (r : Ref) :
    SameBuckets s (update env s r) := SameBuckets.refl s

theorem SameBuckets.edges [LinearOrderedField K] (s : Sim K) (r : Ref) : SameBuckets s (edges s r) := by
  unfold Boids.edges
  split
  · exact SameBuckets.refl s
  · exact SameBuckets.refl s

theorem SameBuckets.agentStep [LinearOrderedField K] [FloorRing K] (env : Env K) (s : Sim K) (r : Ref) :
    SameBuckets s (agentStep env s r) :=
  SameBuckets.trans (SameBuckets.flock env s r)
    (SameBuckets.trans (SameBuckets.update env _ r) (SameBuckets.edges _ r))

theorem SameBuckets.agentLoop [LinearOrderedField K] [FloorRing K] (env : Env K) (n : Nat) (s : Sim K) (i : Nat) :
    SameBuckets s (agentLoop env n s i) := by
  induction n generalizing s i with
  | zero => exact SameBuckets.refl s
  | succ n ih =>
    unfold Boids.agentLoop
    split
    · exact SameBuckets.trans (SameBuckets.agentStep env s _) (ih _ _)
    · exact SameBuckets.refl s

theorem SameBuckets.updateEvolution [LinearOrderedField K] [FloorRing K] (env : Env K)
    (s : Sim K) (now : K) (turns : Nat → Option (K × K)) (draws : Nat → Draws K) :
    SameBuckets s (updateEvolution env s now turns draws) := by
  unfold Boids.updateEvolution
  simp only []
  split_ifs
  · exact ⟨rfl, rfl, (List.perm_insertionSort _ _).subset⟩
  · exact SameBuckets.refl s

end FrameLemmas

section RebuildTheorems

variable {K : Type} [LinearOrderedField K] [FloorRing K]

/-- C5, as amended. With the spatial grid enabled and a population of distinct
agents: right after the per-tick rebuild every agent of the population is stored
exactly once, in the bucket keyed by the cell of its current position.  From then
on, whatever the driver does between the rebuild and the agent loop without touching
the bucket map or adding agents (`s1` below; `updateEvolution` is such a step), at the
neighbour query of every iteration of the agent loop every agent of the population
was in it at the rebuild and is stored exactly once, in the bucket keyed by the cell
of the position it had at the rebuild. -/
theorem rebuilt_buckets_during_loop (env : Env K) (s : Sim K)
    (hen : s.spatialGridEnabled = true) (hnd : s.boids.Nodup) :
    GridInvariant (drawRebuild s) ∧
    (∀ (now : K) (turns : Nat → Option (K × K)) (draws : Nat → Draws K),
      SameBuckets (drawRebuild s) (updateEvolution env (drawRebuild s) now turns draws)) ∧
    ∀ (s1 : Sim K), SameBuckets (drawRebuild s) s1 →
      ∀ (n : Nat) (r : Ref), r ∈ (agentLoop env n s1 0).boids →
        r ∈ s.boids ∧
        occurrences (agentLoop env n s1 0).spatialGrid.grid r =
          [getCell (agentLoop env n s1 0).spatialGrid
            (s.heap r).position.x (s.heap r).position.y] := by
  have hboids : (drawRebuild s).boids = s.boids := by
    unfold drawRebuild; rw [if_pos hen]
  have hheap : (drawRebuild s).heap = s.heap := by
    unfold drawRebuild; rw [if_pos hen]
  have hgrid : (drawRebuild s).spatialGrid =
      s.boids.foldl (insert s.heap)
        (clear (resize { s.spatialGrid with cellSize := s.neighborRadius }
          s.neighborRadius s.width s.height)) := by
    unfold drawRebuild; rw [if_pos hen]; rfl
  have hocc : ∀ r ∈ s.boids, occurrences (drawRebuild s).spatialGrid.grid r =
      [getCell (drawRebuild s).spatialGrid (s.heap r).position.x (s.heap r).position.y] := by
    intro r hr
    have hnone : occurrences (clear (resize { s.spatialGrid with cellSize := s.neighborRadius }
        s.neighborRadius s.width s.height)).grid r = [] := rfl
    rw [hgrid, occurrences_foldl_insert s.heap s.boids _ r hnd hr hnone]
    rw [getCell_congr _ _ (foldl_insert_cellSize _ _ _)]
  refine ⟨?_, fun now turns draws => SameBuckets.updateEvolution env _ now turns draws, ?_⟩
  · intro r hr
    rw [hboids] at hr
    rw [hheap]
    exact hocc r hr
  · intro s1 hs1 n r hr
    obtain ⟨hg, hc, hsub⟩ := SameBuckets.trans hs1 (SameBuckets.agentLoop env n s1 0)
    have hmem : r ∈ s.boids := by
      rw [← hboids]; exact hsub hr
    refine ⟨hmem, ?_⟩
    rw [hg, hocc r hmem, getCell_congr _ _ hc]

/-- C5, as amended, on the two-agent configuration, with the agent loop started
right after the rebuild. -/
theorem rebuilt_buckets_during_loop_witness :
    ((fixtureSim [0, 1] moverHeap).spatialGridEnabled = true ∧
      (fixtureSim [0, 1] moverHeap).boids.Nodup) ∧
    GridInvariant (drawRebuild (fixtureSim [0, 1] moverHeap)) ∧
    ∀ (n : Nat) (r : Ref),
      r ∈ (agentLoop ratEnv n (drawRebuild (fixtureSim [0, 1] moverHeap)) 0).boids →
      r ∈ (fixtureSim [0, 1] moverHeap).boids ∧
      occurrences (agentLoop ratEnv n (drawRebuild (fixtureSim [0, 1] moverHeap)) 0).spatialGrid.grid
          r =
        [getCell (agentLoop ratEnv n (drawRebuild (fixtureSim [0, 1] moverHeap)) 0).spatialGrid
          ((fixtureSim [0, 1] moverHeap).heap r).position.x
          ((fixtureSim [0, 1] moverHeap).heap r).position.y] :=
  have h := rebuilt_buckets_during_loop ratEnv (fixtureSim [0, 1] moverHeap) (by decide!)
    (by decide!)
  ⟨by decide!, h.1, h.2.2 _ (SameBuckets.refl _)⟩

/-- C5 as stated fails at the second query of a tick: agent `0` starts at `(79, 100)`
with velocity `(2, 0)`; after the rebuild and its own `flock`, `update` and `edges`
it is at `(81, 100)`, in cell `(1, 1)`, but it is still stored in the bucket `(0, 1)`
when agent `1` makes its neighbour query. -/
theorem grid_invariant_broken_at_second_query :
    ((agentLoop ratEnv 1 (drawRebuild (fixtureSim [0, 1] moverHeap)) 0).heap 0).position =
      ⟨81, 100⟩ ∧
    (agentLoop ratEnv 1 (drawRebuild (fixtureSim [0, 1] moverHeap)) 0).boids.get? 1 = some 1 ∧
    occurrences (agentLoop ratEnv 1 (drawRebuild (fixtureSim [0, 1] moverHeap)) 0).spatialGrid.grid
      0 = [(0, 1)] ∧
    getCell (agentLoop ratEnv 1 (drawRebuild (fixtureSim [0, 1] moverHeap)) 0).spatialGrid
      81 100 = (1, 1) ∧
    ¬ GridInvariant (agentLoop ratEnv 1 (drawRebuild (fixtureSim [0, 1] moverHeap)) 0) := by
  refine ⟨by decide!, by decide!, by decide!, by decide!, ?_⟩
  intro hinv
  have h0 := hinv 0 (by decide!)
  revert h0
  decide!

end RebuildTheorems

/-! ## Kills -/

section Kills

variable {K : Type} [LinearOrderedField K]

theorem panic_fold_this (sqrt : K → K) (radius : K) (this : Ref) (l : List Ref) (hp : Heap K) :
    (l.foldl (fun hp other =>
      if other = this then hp
      else
        if Vec.dist sqrt (hp this).position (hp other).position < radius then
          Function.update hp other { hp other with panicTimer := 2000 }
        else hp) hp) this = hp this := by
  induction l generalizing hp with
  | nil => rfl
  | cons o t ih =>
    rw [List.foldl_cons, ih]
    by_cases ho : o = this
    · simp [ho]
    · split_ifs
      · exact Function.update_noteq (fun h => ho h.symm) _ _
      · rfl

theorem die_boids (env : Env K) (s : Sim K) (this : Ref) :
    (die env s this).boids = s.boids.erase this := by
  unfold die
  by_cases hidx : s.boids.indexOf this = s.boids.length
  · have hnot : this ∉ s.boids := List.indexOf_eq_length.mp hidx
    simp only [hidx, if_true]
    exact (List.erase_of_not_mem hnot).symm
  · simp only [hidx, if_false]
    exact List.eraseIdx_indexOf_eq_erase this s.boids

theorem die_deadBoids (env : Env K) (s : Sim K) (this : Ref) (hmem : this ∈ s.boids) :
    (die env s this).deadBoids = s.deadBoids ++ [⟨(s.heap this).species, s.millis + 3000⟩] := by
  unfold die
  have hidx : ¬ s.boids.indexOf this = s.boids.length := by
    rw [List.indexOf_eq_length]; exact fun h => h hmem
  simp only [hidx, if_false]
  rw [panic_fold_this]

/-- C6, as amended. In predator mode, when the predator is at distance `d < 10` from
an agent of the population and `d` is also below the influence radius passed to
`fleeFromPredator`, the step removes that agent from the population (the other
agents stay, in order) and appends exactly one entry to the respawn queue, carrying
the agent's species and the respawn time `millis() + 3000`. -/
theorem fleeFromPredator_kill (env : Env K) (s : Sim K) (this : Ref) (predPos : Vec K)
    (radius : K) (hmode : s.currentMode = Mode.predator) (hmem : this ∈ s.boids)
    (hd : Vec.dist env.sqrt (s.heap this).position predPos < 10)
    (hr : Vec.dist env.sqrt (s.heap this).position predPos < radius) :
    (fleeFromPredator env s this predPos radius).boids = s.boids.erase this ∧
    (fleeFromPredator env s this predPos radius).deadBoids =
      s.deadBoids ++ [⟨(s.heap this).species, s.millis + 3000⟩] := by
  unfold fleeFromPredator
  simp only [hr, hd, hmode, if_true, and_self]
  constructor
  · rw [die_boids]; rfl
  · rw [die_deadBoids _ _ _ (by exact hmem)]
    simp [applyForce, setBoid]

/-- C6, as amended, on a concrete kill: predator at `(3, 4)`, agent `0` at the origin
(distance `5`), default influence radius `150`, clock `1000`. -/
theorem fleeFromPredator_kill_witness :
    (killSim.currentMode = Mode.predator ∧ 0 ∈ killSim.boids ∧
      Vec.dist ratEnv.sqrt (killSim.heap 0).position ⟨3, 4⟩ < 10 ∧
      Vec.dist ratEnv.sqrt (killSim.heap 0).position ⟨3, 4⟩ < 150) ∧
    ((fleeFromPredator ratEnv killSim 0 ⟨3, 4⟩ 150).boids = killSim.boids.erase 0 ∧
      (fleeFromPredator ratEnv killSim 0 ⟨3, 4⟩ 150).deadBoids =
        killSim.deadBoids ++ [⟨(killSim.heap 0).species, killSim.millis + 3000⟩]) ∧
    (fleeFromPredator ratEnv killSim 0 ⟨3, 4⟩ 150).boids = [1] ∧
    (fleeFromPredator ratEnv killSim 0 ⟨3, 4⟩ 150).deadBoids = [⟨Species.blue, 4000⟩] :=
  ⟨by decide!,
    fleeFromPredator_kill ratEnv killSim 0 ⟨3, 4⟩ 150 (by decide!) (by decide!) (by decide!)
      (by decide!),
    by decide!⟩

/-- C6 as stated fails when the influence radius is not above the distance: in
predator mode with the predator at distance `6 < 10` from agent `0` and
`predatorRadius = 5`, neither `fleeFromPredator` nor the whole `flock` step removes
the agent or schedules a respawn. -/
theorem fleeFromPredator_no_kill_outside_radius :
    closePredatorSim.currentMode = Mode.predator ∧
    0 ∈ closePredatorSim.boids ∧
    Vec.dist ratEnv.sqrt (closePredatorSim.heap 0).position ⟨6, 0⟩ = 6 ∧
    (fleeFromPredator ratEnv closePredatorSim 0 ⟨6, 0⟩ closePredatorSim.predatorRadius).boids =
      [0, 1] ∧
    (fleeFromPredator ratEnv closePredatorSim 0 ⟨6, 0⟩
      closePredatorSim.predatorRadius).deadBoids = [] ∧
    (flock ratEnv closePredatorSim 0).boids = [0, 1] ∧
    (flock ratEnv closePredatorSim 0).deadBoids = [] := by
  decide!

end Kills

/-! ## The selection event -/

section Selection

variable {K : Type} [LinearOrderedField K]

theorem withinTenPercent_mul (m d : K) (h1 : 9 / 10 ≤ d) (h2 : d < 11 / 10) :
    WithinTenPercent m (m * d) := by
  unfold WithinTenPercent
  rw [min_le_iff, le_max_iff]
  rcases le_total 0 m with hm | hm
  · exact ⟨Or.inl (mul_le_mul_of_nonneg_left h1 hm),
      Or.inr (mul_le_mul_of_nonneg_left (le_of_lt h2) hm)⟩
  · exact ⟨Or.inr (mul_le_mul_of_nonpos_left (le_of_lt h2) hm),
      Or.inl (mul_le_mul_of_nonpos_left h1 hm)⟩

theorem withinTenPercent_constrain (m x lo hi : K) (hlo : 0 ≤ lo) (hm : lo ≤ m) (hm' : m ≤ hi)
    (hx : WithinTenPercent m x) : WithinTenPercent m (constrain x lo hi) := by
  have hm0 : 0 ≤ m := le_trans hlo hm
  unfold WithinTenPercent at hx ⊢
  have hmin : min (m * (9 / 10)) (m * (11 / 10)) = m * (9 / 10) :=
    min_eq_left (by nlinarith)
  have hmax : max (m * (9 / 10)) (m * (11 / 10)) = m * (11 / 10) :=
    max_eq_right (by nlinarith)
  rw [hmin, hmax] at hx ⊢
  unfold constrain
  constructor
  · exact le_trans (le_min hx.1 (by nlinarith)) (le_max_left _ _)
  · exact max_le (le_trans (min_le_left _ _) hx.2) (by nlinarith)

theorem averageGenes_fold (heap : Heap K) (l : List Ref) (acc : Genes K) :
    l.foldl (fun avg b =>
      ({ separation := avg.separation + (heap b).genes.separation
         alignment := avg.alignment + (heap b).genes.alignment
         cohesion := avg.cohesion + (heap b).genes.cohesion
         maxSpeed := avg.maxSpeed + (heap b).genes.maxSpeed
         radius := avg.radius + (heap b).genes.radius } : Genes K)) acc =
      { separation := acc.separation + (l.map (fun b => (heap b).genes.separation)).sum
        alignment := acc.alignment + (l.map (fun b => (heap b).genes.alignment)).sum
        cohesion := acc.cohesion + (l.map (fun b => (heap b).genes.cohesion)).sum
        maxSpeed := acc.maxSpeed + (l.map (fun b => (heap b).genes.maxSpeed)).sum
        radius := acc.radius + (l.map (fun b => (heap b).genes.radius)).sum } := by
  induction l generalizing acc with
  | nil => simp
  | cons b t ih =>
    rw [List.foldl_cons, ih]
    simp [add_assoc]

theorem averageGenes_eq_geneMean (heap : Heap K) (l : List Ref) :
    averageGenes heap l l.length =
      { separation := geneMean heap l Genes.separation
        alignment := geneMean heap l Genes.alignment
        cohesion := geneMean heap l Genes.cohesion
        maxSpeed := geneMean heap l Genes.maxSpeed
        radius := geneMean heap l Genes.radius } := by
  unfold averageGenes geneMean
  simp only [averageGenes_fold, zero_add]

theorem replace_fold_spec (P : Boid K → Prop) (avgGenes : Genes K) (draws : Nat → Draws K)
    (hP : ∀ (b0 : Boid K) (i : Nat), P (offspring b0 avgGenes (draws i)))
    (l : List (Nat × Ref)) (heap : Heap K) (b : Ref) (hb : b ∈ l.map Prod.snd) :
    P ((l.foldl (fun (hp : Ref → Boid K) (ib : Nat × Ref) =>
      Function.update hp ib.2 (offspring (hp ib.2) avgGenes (draws ib.1))) heap) b) := by
  induction l using List.reverseRecOn with
  | nil => simp at hb
  | append_singleton l' x ih =>
    rw [List.foldl_append, List.foldl_cons, List.foldl_nil]
    by_cases hx : b = x.2
    · subst hx
      rw [Function.update_same]
      exact hP _ _
    · rw [Function.update_noteq hx]
      apply ih
      rw [List.map_append, List.mem_append] at hb
      rcases hb with hb | hb
      · exact hb
      · simp at hb
        exact absurd hb hx

end Selection

section SelectionTheorems

variable {K : Type} [LinearOrderedField K] [FloorRing K]

theorem floor_fifth (n : Nat) : Nat.floor ((n : K) * (1 / 5)) = n / 5 := by
  have h : (n : K) * (1 / 5) = (n : K) / ((5 : Nat) : K) := by
    rw [mul_one_div]; norm_num
  rw [h, Nat.floor_div_eq_div]

theorem updateEvolution_due (env : Env K) (s : Sim K) (now : K) (turns : Nat → Option (K × K))
    (draws : Nat → Draws K) (hdue : now - s.lastSelectionTime > s.evolutionInterval)
    (hn : s.boids.length > 10) :
    (updateEvolution env s now turns draws).boids = sortByFitness s.heap s.boids ∧
    (updateEvolution env s now turns draws).heap =
      replaceBottom s.heap (sortByFitness s.heap s.boids)
        (s.boids.length - s.boids.length / 5)
        (averageGenes s.heap ((sortByFitness s.heap s.boids).take (s.boids.length / 5))
          (s.boids.length / 5)) draws := by
  have hlen : (sortByFitness s.heap s.boids).length = s.boids.length :=
    List.length_insertionSort _ _
  unfold updateEvolution
  simp only [hdue, hn, and_self, if_true, selectionEvent, hlen, floor_fifth]

/-- C7, as amended. After a selection event on more than ten agents, with every noise
draw in `[0.9, 1.1)`, each of the last `floor(0.2 n)` agents in fitness-descending
order has fitness `50`; its separation, alignment and cohesion genes lie between `0.9`
and `1.1` times the mean of that gene over the first `floor(0.2 n)` agents (taken
before the replacement); its
`maxSpeed` and `radius` genes are such a value clamped to `[1, 10]` and `[20, 200]`,
and lie between `0.9` and `1.1` times the mean whenever the mean itself lies in
`[1, 10]`, respectively `[20, 200]`. -/
theorem selection_offspring_genes (env : Env K) (s : Sim K) (now : K)
    (turns : Nat → Option (K × K)) (draws : Nat → Draws K)
    (hdue : now - s.lastSelectionTime > s.evolutionInterval) (hn : s.boids.length > 10)
    (hdraws : ∀ i, NoiseDraws (draws i)) (b : Ref)
    (hb : b ∈ (updateEvolution env s now turns draws).boids.drop
      (s.boids.length - s.boids.length / 5)) :
    (updateEvolution env s now turns draws).boids = sortByFitness s.heap s.boids ∧
    ((updateEvolution env s now turns draws).heap b).fitness = 50 ∧
    WithinTenPercent
      (geneMean s.heap ((sortByFitness s.heap s.boids).take (s.boids.length / 5))
        Genes.separation)
      ((updateEvolution env s now turns draws).heap b).genes.separation ∧
    WithinTenPercent
      (geneMean s.heap ((sortByFitness s.heap s.boids).take (s.boids.length / 5))
        Genes.alignment)
      ((updateEvolution env s now turns draws).heap b).genes.alignment ∧
    WithinTenPercent
      (geneMean s.heap ((sortByFitness s.heap s.boids).take (s.boids.length / 5))
        Genes.cohesion)
      ((updateEvolution env s now turns draws).heap b).genes.cohesion ∧
    (∃ x, WithinTenPercent
        (geneMean s.heap ((sortByFitness s.heap s.boids).take (s.boids.length / 5))
          Genes.maxSpeed) x ∧
      ((updateEvolution env s now turns draws).heap b).genes.maxSpeed = constrain x 1 10 ∧
      (1 ≤ geneMean s.heap ((sortByFitness s.heap s.boids).take (s.boids.length / 5))
          Genes.maxSpeed →
        geneMean s.heap ((sortByFitness s.heap s.boids).take (s.boids.length / 5))
          Genes.maxSpeed ≤ 10 →
        WithinTenPercent
          (geneMean s.heap ((sortByFitness s.heap s.boids).take (s.boids.length / 5))
            Genes.maxSpeed)
          ((updateEvolution env s now turns draws).heap b).genes.maxSpeed)) ∧
    (∃ x, WithinTenPercent
        (geneMean s.heap ((sortByFitness s.heap s.boids).take (s.boids.length / 5))
          Genes.radius) x ∧
      ((updateEvolution env s now turns draws).heap b).genes.radius = constrain x 20 200 ∧
      (20 ≤ geneMean s.heap ((sortByFitness s.heap s.boids).take (s.boids.length / 5))
          Genes.radius →
        geneMean s.heap ((sortByFitness s.heap s.boids).take (s.boids.length / 5))
          Genes.radius ≤ 200 →
        WithinTenPercent
          (geneMean s.heap ((sortByFitness s.heap s.boids).take (s.boids.length / 5))
            Genes.radius)
          ((updateEvolution env s now turns draws).heap b).genes.radius)) := by
  obtain ⟨hboids, hheap⟩ := updateEvolution_due env s now turns draws hdue hn
  have hlen : (sortByFitness s.heap s.boids).length = s.boids.length :=
    List.length_insertionSort _ _
  have htop : ((sortByFitness s.heap s.boids).take (s.boids.length / 5)).length =
      s.boids.length / 5 := by
    rw [List.length_take, hlen]
    exact min_eq_left (Nat.div_le_self _ _)
  have havg := averageGenes_eq_geneMean s.heap
    ((sortByFitness s.heap s.boids).take (s.boids.length / 5))
  rw [htop] at havg
  rw [hboids] at hb
  refine ⟨hboids, ?_⟩
  rw [hheap, havg]
  unfold replaceBottom
  generalize geneMean s.heap ((sortByFitness s.heap s.boids).take (s.boids.length / 5))
    Genes.separation = mS
  generalize geneMean s.heap ((sortByFitness s.heap s.boids).take (s.boids.length / 5))
    Genes.alignment = mA
  generalize geneMean s.heap ((sortByFitness s.heap s.boids).take (s.boids.length / 5))
    Genes.cohesion = mC
  generalize geneMean s.heap ((sortByFitness s.heap s.boids).take (s.boids.length / 5))
    Genes.maxSpeed = mM
  generalize geneMean s.heap ((sortByFitness s.heap s.boids).take (s.boids.length / 5))
    Genes.radius = mR
  refine replace_fold_spec (fun bd => bd.fitness = 50 ∧
    WithinTenPercent mS bd.genes.separation ∧ WithinTenPercent mA bd.genes.alignment ∧
    WithinTenPercent mC bd.genes.cohesion ∧
    (∃ x, WithinTenPercent mM x ∧ bd.genes.maxSpeed = constrain x 1 10 ∧
      (1 ≤ mM → mM ≤ 10 → WithinTenPercent mM bd.genes.maxSpeed)) ∧
    (∃ x, WithinTenPercent mR x ∧ bd.genes.radius = constrain x 20 200 ∧
      (20 ≤ mR → mR ≤ 200 → WithinTenPercent mR bd.genes.radius)))
    ⟨mS, mA, mC, mM, mR⟩ draws ?_ _ s.heap b ?_
  · intro b0 i
    obtain ⟨h1, h2, h3, h4, h5⟩ := hdraws i
    refine ⟨rfl, withinTenPercent_mul _ _ h1.1 h1.2, withinTenPercent_mul _ _ h2.1 h2.2,
      withinTenPercent_mul _ _ h3.1 h3.2,
      ⟨_, withinTenPercent_mul _ _ h4.1 h4.2, rfl, fun hlo hhi => ?_⟩,
      ⟨_, withinTenPercent_mul _ _ h5.1 h5.2, rfl, fun hlo hhi => ?_⟩⟩
    · exact withinTenPercent_constrain _ _ _ _ (by norm_num) hlo hhi
        (withinTenPercent_mul _ _ h4.1 h4.2)
    · exact withinTenPercent_constrain _ _ _ _ (by norm_num) hlo hhi
        (withinTenPercent_mul _ _ h5.1 h5.2)
  · rw [List.enumFrom_map_snd]
    exact hb

/-- C7, as amended, on eleven agents of fitness `50 + r`: the sorted order is
`10, 9, …, 0`, the last two agents `1` and `0` are replaced, and agent `0` gets fitness
`50` and genes within ten percent of the means over the agents `10` and `9`. -/
theorem selection_offspring_genes_witness :
    ((20000 : ℚ) - evolutionSim.lastSelectionTime > evolutionSim.evolutionInterval ∧
      evolutionSim.boids.length > 10 ∧
      0 ∈ (updateEvolution ratEnv evolutionSim 20000 (fun _ => none)
        (fun _ => unitDraws)).boids.drop
          (evolutionSim.boids.length - evolutionSim.boids.length / 5)) ∧
    (updateEvolution ratEnv evolutionSim 20000 (fun _ => none) (fun _ => unitDraws)).boids =
      sortByFitness evolutionSim.heap evolutionSim.boids ∧
    ((updateEvolution ratEnv evolutionSim 20000 (fun _ => none)
      (fun _ => unitDraws)).heap 0).fitness = 50 ∧
    WithinTenPercent
      (geneMean evolutionSim.heap
        ((sortByFitness evolutionSim.heap evolutionSim.boids).take
          (evolutionSim.boids.length / 5)) Genes.separation)
      ((updateEvolution ratEnv evolutionSim 20000 (fun _ => none)
        (fun _ => unitDraws)).heap 0).genes.separation :=
  have hunit : NoiseDraws unitDraws := by unfold NoiseDraws; decide!
  have h := selection_offspring_genes ratEnv evolutionSim 20000 (fun _ => none)
    (fun _ => unitDraws) (by decide!) (by decide!) (fun _ => hunit) 0 (by decide!)
  ⟨by decide!, h.1, h.2.1, h.2.2.1⟩

/-- C7 as stated fails for the `maxSpeed` gene when the top mean is outside `[1, 10]`:
with eleven agents whose `maxSpeed` gene is `0.5` and every noise factor equal to `1`,
the replaced agent `10` gets `maxSpeed = constrain(0.5, 1, 10) = 1`, which is not
between `0.45` and `0.55`. -/
theorem selection_maxSpeed_clamped :
    slowEvolutionSim.boids.length = 11 ∧
    (20000 : ℚ) - slowEvolutionSim.lastSelectionTime > slowEvolutionSim.evolutionInterval ∧
    NoiseDraws unitDraws ∧
    10 ∈ (updateEvolution ratEnv slowEvolutionSim 20000 (fun _ => none)
      (fun _ => unitDraws)).boids.drop (11 - 11 / 5) ∧
    geneMean slowEvolutionSim.heap
      ((updateEvolution ratEnv slowEvolutionSim 20000 (fun _ => none)
        (fun _ => unitDraws)).boids.take (11 / 5)) Genes.maxSpeed = 1 / 2 ∧
    ((updateEvolution ratEnv slowEvolutionSim 20000 (fun _ => none)
      (fun _ => unitDraws)).heap 10).genes.maxSpeed = 1 ∧
    ¬ WithinTenPercent
      (geneMean slowEvolutionSim.heap
        ((updateEvolution ratEnv slowEvolutionSim 20000 (fun _ => none)
          (fun _ => unitDraws)).boids.take (11 / 5)) Genes.maxSpeed)
      ((updateEvolution ratEnv slowEvolutionSim 20000 (fun _ => none)
        (fun _ => unitDraws)).heap 10).genes.maxSpeed := by
  unfold NoiseDraws WithinTenPercent
  decide!

end SelectionTheorems

/-! ## The minimum-image delta -/

section WrapTheorems

variable {K : Type} [LinearOrderedField K]

/-- C8. For two positions inside the world `[0, W] × [0, H]`, the deltas that
`getNeighborsWrapped` squares for its distance test are the minimum-image deltas on
both axes. -/
theorem wrapDelta_minimum_image (g : SpatialGrid K) (p q : Vec K)
    (hpx : 0 ≤ p.x ∧ p.x ≤ g.width) (hpy : 0 ≤ p.y ∧ p.y ≤ g.height)
    (hqx : 0 ≤ q.x ∧ q.x ≤ g.width) (hqy : 0 ≤ q.y ∧ q.y ≤ g.height) :
    MinimumImage g.width (p.x - q.x) (wrapDelta g.width (p.x - q.x)) ∧
    MinimumImage g.height (p.y - q.y) (wrapDelta g.height (p.y - q.y)) := by
  have axis : ∀ (W x x' : K), 0 ≤ x → x ≤ W → 0 ≤ x' → x' ≤ W →
      MinimumImage W (x - x') (wrapDelta W (x - x')) := by
    intro W x x' h0 h1 h2 h3
    unfold MinimumImage
    by_cases hbig : |x - x'| > W / 2
    · by_cases hpos : x - x' > 0
      · have hval : wrapDelta W (x - x') = x - x' - W := by
          unfold wrapDelta; rw [if_pos hbig, if_pos hpos]
        have hab : |x - x'| = x - x' := abs_of_pos hpos
        rw [hval]
        refine ⟨Or.inl rfl, fun _ => ⟨fun _ => rfl, fun hle => absurd hpos (not_lt.mpr hle)⟩,
          fun hle => absurd hbig (not_lt.mpr hle), ?_⟩
        rw [hab] at hbig
        rw [abs_le]; constructor <;> linarith
      · have hval : wrapDelta W (x - x') = x - x' + W := by
          unfold wrapDelta; rw [if_pos hbig, if_neg hpos]
        have hle : x - x' ≤ 0 := not_lt.mp hpos
        have hab : |x - x'| = -(x - x') := abs_of_nonpos hle
        rw [hval]
        refine ⟨Or.inr (Or.inr rfl), fun _ => ⟨fun h => absurd h hpos, fun _ => rfl⟩,
          fun hle' => absurd hbig (not_lt.mpr hle'), ?_⟩
        rw [hab] at hbig
        rw [abs_le]; constructor <;> linarith
    · have hval : wrapDelta W (x - x') = x - x' := by
        unfold wrapDelta; rw [if_neg hbig]
      have hsmall : |x - x'| ≤ W / 2 := not_lt.mp hbig
      rw [hval]
      exact ⟨Or.inr (Or.inl rfl), fun h => absurd h hbig, fun _ => rfl, hsmall⟩
  exact ⟨axis _ _ _ hpx.1 hpx.2 hqx.1 hqx.2, axis _ _ _ hpy.1 hpy.2 hqy.1 hqy.2⟩

/-- C8 at the corner scenario: positions `(1, 1)` and `(798, 598)` in the `800 × 600` world. -/
theorem wrapDelta_minimum_image_witness :
    ((0 : ℚ) ≤ 1 ∧ (1 : ℚ) ≤ 800) ∧ ((0 : ℚ) ≤ 798 ∧ (798 : ℚ) ≤ 800) ∧
    wrapDelta (800 : ℚ) (1 - 798) = 3 ∧
    MinimumImage (800 : ℚ) (1 - 798) (wrapDelta (800 : ℚ) (1 - 798)) ∧
    MinimumImage (600 : ℚ) (1 - 598) (wrapDelta (600 : ℚ) (1 - 598)) :=
  ⟨by decide!, by decide!, by decide!,
    wrapDelta_minimum_image (⟨80, 800, 600, [], 0, 0⟩ : SpatialGrid ℚ) ⟨1, 1⟩ ⟨798, 598⟩
      (by decide!) (by decide!) (by decide!) (by decide!)⟩

end WrapTheorems

/-! ## The grid query against the brute-force scan -/

section GridTheorems

variable {K : Type} [LinearOrderedField K] [FloorRing K]

/-- C1. After `clear()` and `insert()` of every agent of the population, with cell
size at least the radius `R = neighborRadius > 0`, `getNeighbors(a, R)` returns, as a
set, exactly what `getBruteForceNeighbors` returns for `a`: the other agents of the
population whose squared distance to `a` is strictly below `R * R`. -/
theorem getNeighbors_eq_bruteForce (s : Sim K) (g : SpatialGrid K) (a b : Ref)
    (hR : 0 < s.neighborRadius) (hRc : s.neighborRadius ≤ g.cellSize) :
    (b ∈ (getNeighbors s.heap (s.boids.foldl (insert s.heap) (clear g)) a s.neighborRadius).1 ↔
      b ∈ getBruteForceNeighbors s a) ∧
    (b ∈ getBruteForceNeighbors s a ↔
      b ∈ s.boids ∧ b ≠ a ∧
        ((s.heap b).position.x - (s.heap a).position.x) *
            ((s.heap b).position.x - (s.heap a).position.x) +
          ((s.heap b).position.y - (s.heap a).position.y) *
            ((s.heap b).position.y - (s.heap a).position.y) <
          s.neighborRadius * s.neighborRadius) := by
  have hc : 0 < g.cellSize := lt_of_lt_of_le hR hRc
  have hbf := mem_getBruteForceNeighbors s a b
  simp only [Vec.magSq, Vec.sub] at hbf
  refine ⟨?_, hbf⟩
  rw [hbf, mem_getNeighbors_rebuilt]
  constructor
  · rintro ⟨dx, _, dy, _, ⟨hb, _⟩, hin⟩
    simp only [inRange, Bool.and_eq_true, decide_eq_true_eq] at hin
    refine ⟨hb, hin.1, ?_⟩
    have := hin.2
    nlinarith [this]
  · rintro ⟨hb, hne, hd⟩
    have hd' : ((s.heap a).position.x - (s.heap b).position.x) *
          ((s.heap a).position.x - (s.heap b).position.x) +
        ((s.heap a).position.y - (s.heap b).position.y) *
          ((s.heap a).position.y - (s.heap b).position.y) <
        s.neighborRadius * s.neighborRadius := by nlinarith [hd]
    have hx : |(s.heap a).position.x - (s.heap b).position.x| < g.cellSize :=
      lt_of_lt_of_le (abs_lt_of_sumsq_lt _ _ _ hR hd') hRc
    have hy : |(s.heap a).position.y - (s.heap b).position.y| < g.cellSize := by
      refine lt_of_lt_of_le (abs_lt_of_sumsq_lt _
        ((s.heap a).position.x - (s.heap b).position.x) _ hR ?_) hRc
      rw [add_comm]; exact hd'
    refine ⟨_, floor_div_diff g.cellSize _ _ hc hx, _, floor_div_diff g.cellSize _ _ hc hy,
      ⟨hb, ?_⟩, ?_⟩
    · simp [getCell]
    · simp only [inRange, Bool.and_eq_true, decide_eq_true_eq]
      exact ⟨hne, hd'⟩

/-- C1, a concrete instance: agents `0` and `1` are `50` apart in different cells. -/
theorem getNeighbors_eq_bruteForce_witness :
    (0 < (fixtureSim [0, 1, 2] trioHeap).neighborRadius ∧
      (fixtureSim [0, 1, 2] trioHeap).neighborRadius ≤
        (fixtureSim [0, 1, 2] trioHeap).spatialGrid.cellSize) ∧
    (getNeighbors trioHeap ([0, 1, 2].foldl (insert trioHeap)
      (clear (fixtureSim [0, 1, 2] trioHeap).spatialGrid)) 0 80).1 = [1] ∧
    ((1 ∈ (getNeighbors (fixtureSim [0, 1, 2] trioHeap).heap
        ((fixtureSim [0, 1, 2] trioHeap).boids.foldl (insert (fixtureSim [0, 1, 2] trioHeap).heap)
          (clear (fixtureSim [0, 1, 2] trioHeap).spatialGrid)) 0
        (fixtureSim [0, 1, 2] trioHeap).neighborRadius).1 ↔
      1 ∈ getBruteForceNeighbors (fixtureSim [0, 1, 2] trioHeap) 0) ∧
    (1 ∈ getBruteForceNeighbors (fixtureSim [0, 1, 2] trioHeap) 0 ↔
      1 ∈ (fixtureSim [0, 1, 2] trioHeap).boids ∧ (1 : Ref) ≠ 0 ∧
        (((fixtureSim [0, 1, 2] trioHeap).heap 1).position.x -
              ((fixtureSim [0, 1, 2] trioHeap).heap 0).position.x) *
            (((fixtureSim [0, 1, 2] trioHeap).heap 1).position.x -
              ((fixtureSim [0, 1, 2] trioHeap).heap 0).position.x) +
          (((fixtureSim [0, 1, 2] trioHeap).heap 1).position.y -
              ((fixtureSim [0, 1, 2] trioHeap).heap 0).position.y) *
            (((fixtureSim [0, 1, 2] trioHeap).heap 1).position.y -
              ((fixtureSim [0, 1, 2] trioHeap).heap 0).position.y) <
          (fixtureSim [0, 1, 2] trioHeap).neighborRadius *
            (fixtureSim [0, 1, 2] trioHeap).neighborRadius)) :=
  ⟨by decide!, by decide!,
    getNeighbors_eq_bruteForce (fixtureSim [0, 1, 2] trioHeap)
      (fixtureSim [0, 1, 2] trioHeap).spatialGrid 0 1 (by decide!) (by decide!)⟩

/-- C2, evaluated on the scenario of the specification (world `800 × 600`, cell size
`80`, agents at `(1, 1)` and `(798, 598)`, radius `50`): the two agents are in cells
`(0, 0)` and `(9, 7)`, their minimum-image squared distance is `18 < 2500`, and
`getNeighborsWrapped` returns the empty array for each of them, because the cell
column `-1` is wrapped to `maxCellX = floor(800 / 80) = 10` instead of `9`. -/
theorem getNeighborsWrapped_corner_scenario :
    cornerGrid.grid = [((0, 0), [0]), ((9, 7), [1])] ∧
    wrapDelta (800 : ℚ) (1 - 798) * wrapDelta (800 : ℚ) (1 - 798) +
      wrapDelta (600 : ℚ) (1 - 598) * wrapDelta (600 : ℚ) (1 - 598) = 18 ∧
    wrapCell (Int.floor ((800 : ℚ) / 80)) (0 + -1) = 10 ∧
    (getNeighborsWrapped cornerHeap cornerGrid 0 50).1 = [] ∧
    (getNeighborsWrapped cornerHeap cornerGrid 1 50).1 = [] := by
  decide!

/-- C9. For grids of the same geometry, whatever their buckets and counters were,
`clear()` followed by `insert()` of the same agents in the same order over the same
heap (no agent moved) yields the same grid, hence `getNeighbors` and
`getNeighborsWrapped` return the same array, element for element. -/
theorem rebuild_queries_repeat (h : Heap K) (g g' : SpatialGrid K) (boids : List Ref)
    (a : Ref) (R : K)
    (hc : g'.cellSize = g.cellSize) (hw : g'.width = g.width) (hh : g'.height = g.height) :
    (getNeighbors h (boids.foldl (insert h) (clear g')) a R).1 =
      (getNeighbors h (boids.foldl (insert h) (clear g)) a R).1 ∧
    (getNeighborsWrapped h (boids.foldl (insert h) (clear g')) a R).1 =
      (getNeighborsWrapped h (boids.foldl (insert h) (clear g)) a R).1 := by
  have hclear : clear g' = clear g := by
    cases g; cases g'
    simp only [clear] at *
    simp_all
  rw [hclear]
  exact ⟨rfl, rfl⟩

/-- C9 on the three-agent configuration: the second rebuild starts from the grid left
behind by a query on the first rebuild. -/
theorem rebuild_queries_repeat_witness :
    (getNeighbors trioHeap ([0, 1, 2].foldl (insert trioHeap)
        (clear (getNeighbors trioHeap ([0, 1, 2].foldl (insert trioHeap)
          (clear ⟨80, 800, 600, [], 0, 0⟩)) 0 80).2)) 0 80).1 =
      (getNeighbors trioHeap ([0, 1, 2].foldl (insert trioHeap)
        (clear ⟨80, 800, 600, [], 0, 0⟩)) 0 80).1 ∧
    (getNeighborsWrapped trioHeap ([0, 1, 2].foldl (insert trioHeap)
        (clear (getNeighbors trioHeap ([0, 1, 2].foldl (insert trioHeap)
          (clear ⟨80, 800, 600, [], 0, 0⟩)) 0 80).2)) 0 80).1 =
      (getNeighborsWrapped trioHeap ([0, 1, 2].foldl (insert trioHeap)
        (clear ⟨80, 800, 600, [], 0, 0⟩)) 0 80).1 :=
  rebuild_queries_repeat trioHeap ⟨80, 800, 600, [], 0, 0⟩
    (getNeighbors trioHeap ([0, 1, 2].foldl (insert trioHeap)
      (clear ⟨80, 800, 600, [], 0, 0⟩)) 0 80).2 [0, 1, 2] 0 80 (by decide!) (by decide!)
    (by decide!)

/-- C10. `resize` sets `cellSize`, `width` and `height` to its arguments and leaves the
bucket map and both counters as they were; an agent inserted before the resize is
still found under the key computed with the old cell size. -/
theorem resize_frame (g : SpatialGrid K) (cellSize width height : K) :
    (resize g cellSize width height).cellSize = cellSize ∧
    (resize g cellSize width height).width = width ∧
    (resize g cellSize width height).height = height ∧
    (resize g cellSize width height).grid = g.grid ∧
    (resize g cellSize width height).queryCount = g.queryCount ∧
    (resize g cellSize width height).candidateCount = g.candidateCount ∧
    ∀ (h : Heap K) (r : Ref),
      r ∈ bucketOf (resize (insert h g r) cellSize width height).grid
        (getCell g (h r).position.x (h r).position.y) := by
  refine ⟨rfl, rfl, rfl, rfl, rfl, rfl, ?_⟩
  intro h r
  have : (resize (insert h g r) cellSize width height).grid = (insert h g r).grid := rfl
  rw [this, bucketOf_insert]
  simp

end GridTheorems


/-! ## Separation at the threshold distance -/

section SeparationThreshold

variable {K : Type} [LinearOrderedField K]

/-- C11. When every neighbour of the list lies at distance exactly
`0.4 * neighborRadius` from the agent, no neighbour passes the test
`d < desiredSep`, so `separate` returns the zero vector, whatever the velocity of the
agent and the directions of the neighbours. -/
theorem separate_at_threshold (env : Env K) (s : Sim K) (this : Ref) (neighbors : List Ref)
    (hd : ∀ o ∈ neighbors,
      Vec.dist env.sqrt (s.heap this).position (s.heap o).position =
        s.neighborRadius * (2 / 5)) :
    separate env s this neighbors = ⟨0, 0⟩ := by
  have hloop : separateLoop env s this neighbors = ((Vec.zero : Vec K), 0) := by
    unfold separateLoop
    simp only []
    generalize ((Vec.zero : Vec K), 0) = acc
    induction neighbors generalizing acc with
    | nil => rfl
    | cons o t ih =>
      rw [List.foldl_cons]
      have ho := hd o (List.mem_cons_self _ _)
      have hnot : ¬ (Vec.dist env.sqrt (s.heap this).position (s.heap o).position > 0 ∧
          Vec.dist env.sqrt (s.heap this).position (s.heap o).position <
            s.neighborRadius * (2 / 5)) := by
        rw [ho]
        exact fun h => lt_irrefl _ h.2
      rw [if_neg hnot]
      exact ih (fun o' ho' => hd o' (List.mem_cons_of_mem _ ho')) acc
  unfold separate
  simp only [hloop]
  rfl

/-- C11 on a ring of three neighbours at distance `32` around an agent with velocity
`(1, 2)` and `neighborRadius = 80`. -/
theorem separate_at_threshold_witness :
    (∀ o ∈ [1, 2, 3],
      Vec.dist ratEnv.sqrt ((fixtureSim [0, 1, 2, 3] ringHeap).heap 0).position
          ((fixtureSim [0, 1, 2, 3] ringHeap).heap o).position =
        (fixtureSim [0, 1, 2, 3] ringHeap).neighborRadius * (2 / 5)) ∧
    separate ratEnv (fixtureSim [0, 1, 2, 3] ringHeap) 0 [1, 2, 3] = ⟨0, 0⟩ :=
  have h : ∀ o ∈ [1, 2, 3],
      Vec.dist ratEnv.sqrt ((fixtureSim [0, 1, 2, 3] ringHeap).heap 0).position
          ((fixtureSim [0, 1, 2, 3] ringHeap).heap o).position =
        (fixtureSim [0, 1, 2, 3] ringHeap).neighborRadius * (2 / 5) := by decide!
  ⟨h, separate_at_threshold ratEnv (fixtureSim [0, 1, 2, 3] ringHeap) 0 [1, 2, 3] h⟩

end SeparationThreshold

/-! ## Population control -/

theorem push_fold {K : Type} {ι : Type} (step : Sim K → ι → Sim K)
    (hstep : ∀ s i, (step s i).boids = s.boids ++ [s.nextRef] ∧
      (step s i).nextRef = s.nextRef + 1 ∧ (step s i).selectedBoid = s.selectedBoid)
    (l : List ι) (s : Sim K) :
    (l.foldl step s).boids = s.boids ++ List.range' s.nextRef l.length ∧
    (l.foldl step s).nextRef = s.nextRef + l.length ∧
    (l.foldl step s).selectedBoid = s.selectedBoid := by
  induction l generalizing s with
  | nil => simp
  | cons i t ih =>
    obtain ⟨h1, h2, h3⟩ := hstep s i
    obtain ⟨g1, g2, g3⟩ := ih (step s i)
    rw [List.foldl_cons, g1, g2, g3, h1, h2, h3]
    refine ⟨?_, ?_, rfl⟩
    · rw [List.length_cons, List.range'_succ, List.append_assoc]
      rfl
    · rw [List.length_cons]
      show s.nextRef + 1 + t.length = s.nextRef + (t.length + 1)
      rw [Nat.add_assoc, Nat.add_comm 1]

theorem map_some_cancel {α β γ : Type} (f : α → γ) (g : β → γ) (l1 : List α) (l2 : List β)
    (h : l1.map (fun a => some (f a)) = l2.map (fun b => some (g b))) :
    l1.map f = l2.map g := by
  have h1 : l1.map (fun a => some (f a)) = (l1.map f).map some := by
    rw [List.map_map]; rfl
  have h2 : l2.map (fun b => some (g b)) = (l2.map g).map some := by
    rw [List.map_map]; rfl
  rw [h1, h2] at h
  exact List.map_injective_iff.mpr (Option.some_injective γ) h

section PopulationLemmas

variable {K : Type} [LinearOrderedField K]

theorem splice_to_end {α : Type} (l : List α) (t : Nat) (ht : t ≤ l.length) :
    splice l t (l.length - t) = l.take t := by
  unfold splice
  have : l.drop (t + (l.length - t)) = [] := by
    apply List.drop_eq_nil_of_le
    omega
  rw [this, List.append_nil]

theorem adjustBoidCount_grow (s : Sim K) (draws : Nat → SpawnDraw K)
    (h : s.boids.length < s.targetBoidCount) :
    (adjustBoidCount s draws).boids =
      s.boids ++ List.range' s.nextRef (s.targetBoidCount - s.boids.length) ∧
    (adjustBoidCount s draws).selectedBoid = s.selectedBoid := by
  unfold adjustBoidCount
  have hpos : (s.targetBoidCount : Int) - (s.boids.length : Int) > 0 := by omega
  simp only [hpos, if_true]
  have hn : ((s.targetBoidCount : Int) - (s.boids.length : Int)).toNat =
      s.targetBoidCount - s.boids.length := by omega
  rw [hn]
  have := push_fold (fun (s : Sim K) (i : Nat) =>
      pushNewBoid s (draws i).x (draws i).y
        (if s.twoSpeciesEnabled = true ∧ (draws i).coin > 1 / 2 then Species.red
          else Species.blue) (draws i).velocity)
    (fun s i => ⟨rfl, rfl, rfl⟩) (List.range (s.targetBoidCount - s.boids.length)) s
  rw [List.length_range] at this
  exact ⟨this.1, this.2.2⟩

theorem adjustBoidCount_shrink (s : Sim K) (draws : Nat → SpawnDraw K)
    (h : s.targetBoidCount < s.boids.length) :
    (adjustBoidCount s draws).boids = s.boids.take s.targetBoidCount ∧
    (adjustBoidCount s draws).selectedBoid =
      (match s.selectedBoid with
        | some r => if (s.boids.take s.targetBoidCount).contains r then some r else none
        | none => none) := by
  unfold adjustBoidCount
  have hnpos : ¬ (s.targetBoidCount : Int) - (s.boids.length : Int) > 0 := by omega
  have hneg : (s.targetBoidCount : Int) - (s.boids.length : Int) < 0 := by omega
  simp only [hnpos, hneg, if_true, if_false]
  have h1 : ((s.boids.length : Int) + ((s.targetBoidCount : Int) - (s.boids.length : Int))).toNat =
      s.targetBoidCount := by omega
  have h2 : (-((s.targetBoidCount : Int) - (s.boids.length : Int))).toNat =
      s.boids.length - s.targetBoidCount := by omega
  rw [h1, h2, splice_to_end _ _ (le_of_lt h)]
  exact ⟨rfl, rfl⟩

theorem adjustBoidCount_same (s : Sim K) (draws : Nat → SpawnDraw K)
    (h : s.targetBoidCount = s.boids.length) : adjustBoidCount s draws = s := by
  unfold adjustBoidCount
  have hnpos : ¬ (s.targetBoidCount : Int) - (s.boids.length : Int) > 0 := by omega
  have hnneg : ¬ (s.targetBoidCount : Int) - (s.boids.length : Int) < 0 := by omega
  simp only [hnpos, hnneg, if_false]

theorem respawn_fold (now : K) (draws : Nat → SpawnDraw K) (idxs : List Nat)
    (acc : Sim K × List Nat) :
    (idxs.foldl (respawnStep now draws) acc).1.deadBoids = acc.1.deadBoids ∧
    (idxs.foldl (respawnStep now draws) acc).2 =
      acc.2 ++ idxs.filter (dueAt acc.1.deadBoids now) ∧
    (idxs.foldl (respawnStep now draws) acc).1.boids =
      acc.1.boids ++
        List.range' acc.1.nextRef (idxs.filter (dueAt acc.1.deadBoids now)).length ∧
    (idxs.foldl (respawnStep now draws) acc).1.nextRef =
      acc.1.nextRef + (idxs.filter (dueAt acc.1.deadBoids now)).length ∧
    (idxs.foldl (respawnStep now draws) acc).1.selectedBoid = acc.1.selectedBoid ∧
    (∀ r, r < acc.1.nextRef →
      (idxs.foldl (respawnStep now draws) acc).1.heap r = acc.1.heap r) ∧
    (List.range' acc.1.nextRef (idxs.filter (dueAt acc.1.deadBoids now)).length).map
        (fun r => some ((idxs.foldl (respawnStep now draws) acc).1.heap r).species) =
      (idxs.filter (dueAt acc.1.deadBoids now)).map
        (fun i => (acc.1.deadBoids.get? i).map DeadBoid.species) := by
  induction idxs generalizing acc with
  | nil => simp
  | cons i t ih =>
    rw [List.foldl_cons]
    obtain ⟨h1, h2, h3, h4, h5, h6, h7⟩ := ih (respawnStep now draws acc i)
    cases hget : acc.1.deadBoids.get? i with
    | none =>
      have hstep : respawnStep now draws acc i = acc := by
        unfold respawnStep; rw [hget]
      have hdue : dueAt acc.1.deadBoids now i = false := by
        unfold dueAt; rw [hget]
      rw [hstep] at h1 h2 h3 h4 h5 h6 h7 ⊢
      simp only [List.filter_cons, hdue]
      exact ⟨h1, h2, h3, h4, h5, h6, h7⟩
    | some d =>
      by_cases hd : now ≥ d.respawnTime
      · have hstep : respawnStep now draws acc i =
            (pushNewBoid acc.1 (draws i).x (draws i).y d.species (draws i).velocity,
              acc.2 ++ [i]) := by
          unfold respawnStep; rw [hget]; simp only [hd, if_true]
        have hdue : dueAt acc.1.deadBoids now i = true := by
          unfold dueAt; rw [hget]; simp only [hd, decide_True]
        rw [hstep] at h1 h2 h3 h4 h5 h6 h7 ⊢
        have hdead : (pushNewBoid acc.1 (draws i).x (draws i).y d.species
            (draws i).velocity).deadBoids = acc.1.deadBoids := rfl
        have hnext : (pushNewBoid acc.1 (draws i).x (draws i).y d.species
            (draws i).velocity).nextRef = acc.1.nextRef + 1 := rfl
        have hboids : (pushNewBoid acc.1 (draws i).x (draws i).y d.species
            (draws i).velocity).boids = acc.1.boids ++ [acc.1.nextRef] := rfl
        simp only [hdead, hnext, hboids] at h1 h2 h3 h4 h5 h6 h7
        simp only [List.filter_cons, hdue, if_true, List.length_cons]
        have hnew : (List.foldl (respawnStep now draws)
            (pushNewBoid acc.1 (draws i).x (draws i).y d.species (draws i).velocity,
              acc.2 ++ [i]) t).1.heap acc.1.nextRef =
            newBoid acc.1 (draws i).x (draws i).y d.species (draws i).velocity := by
          rw [h6 acc.1.nextRef (Nat.lt_succ_self _)]
          exact Function.update_same _ _ _
        refine ⟨h1, ?_, ?_, ?_, h5, ?_, ?_⟩
        · rw [h2, List.append_assoc]; rfl
        · rw [h3, List.range'_succ, List.append_assoc]; rfl
        · rw [h4, Nat.add_assoc, Nat.add_comm 1]
        · intro r hr
          rw [h6 r (Nat.lt_succ_of_lt hr)]
          exact Function.update_noteq (Nat.ne_of_lt hr) _ _
        · rw [List.range'_succ, List.map_cons, List.map_cons, h7, hnew, hget]
          rfl
      · have hstep : respawnStep now draws acc i = acc := by
          unfold respawnStep; rw [hget]; simp only [hd, if_false]
        have hdue : dueAt acc.1.deadBoids now i = false := by
          unfold dueAt; rw [hget]; simp only [hd, decide_False]
        rw [hstep] at h1 h2 h3 h4 h5 h6 h7 ⊢
        simp only [List.filter_cons, hdue]
        exact ⟨h1, h2, h3, h4, h5, h6, h7⟩

theorem splice_one_append {α : Type} (l : List α) (x : α) (j : Nat) (hj : j < l.length) :
    splice (l ++ [x]) j 1 = splice l j 1 ++ [x] := by
  unfold splice
  rw [List.take_append_of_le_length (le_of_lt hj),
    List.drop_append_of_le_length (Nat.succ_le_of_lt hj), List.append_assoc]

theorem splice_one_length {α : Type} (l : List α) (j : Nat) (hj : j < l.length) :
    (splice l j 1).length = l.length - 1 := by
  unfold splice
  rw [List.length_append, List.length_take, List.length_drop]
  omega

theorem splice_fold_append {α : Type} (x : α) (idxs : List Nat) (l : List α)
    (hsorted : idxs.Pairwise (fun a b => b < a)) (hlt : ∀ i ∈ idxs, i < l.length) :
    idxs.foldl (fun dead idx => splice dead idx 1) (l ++ [x]) =
      idxs.foldl (fun dead idx => splice dead idx 1) l ++ [x] := by
  induction idxs generalizing l with
  | nil => rfl
  | cons j t ih =>
    rw [List.pairwise_cons] at hsorted
    have hj : j < l.length := hlt j (List.mem_cons_self _ _)
    rw [List.foldl_cons, List.foldl_cons, splice_one_append l x j hj]
    apply ih _ hsorted.2
    intro i hi
    have h1 := hsorted.1 i hi
    rw [splice_one_length l j hj]
    omega

theorem dueAt_append_left (D : List (DeadBoid K)) (x : DeadBoid K) (now : K) (i : Nat)
    (hi : i < D.length) : dueAt (D ++ [x]) now i = dueAt D now i := by
  unfold dueAt
  rw [List.get?_eq_getElem?, List.get?_eq_getElem?, List.getElem?_append_left hi]

theorem dueAt_append_last (D : List (DeadBoid K)) (x : DeadBoid K) (now : K) :
    dueAt (D ++ [x]) now D.length = decide (now ≥ x.respawnTime) := by
  unfold dueAt
  rw [List.get?_eq_getElem?, List.getElem?_append_right (le_refl _)]
  simp

theorem dueIndices_append (D : List (DeadBoid K)) (x : DeadBoid K) (now : K) :
    (List.range (D ++ [x]).length).reverse.filter (dueAt (D ++ [x]) now) =
      (if decide (now ≥ x.respawnTime) = true then [D.length] else []) ++
        (List.range D.length).reverse.filter (dueAt D now) := by
  rw [List.length_append, List.length_singleton, List.range_succ, List.reverse_append,
    List.reverse_singleton, List.singleton_append, List.filter_cons, dueAt_append_last]
  have hcongr : (List.range D.length).reverse.filter (dueAt (D ++ [x]) now) =
      (List.range D.length).reverse.filter (dueAt D now) := by
    apply List.filter_congr
    intro i hi
    rw [List.mem_reverse, List.mem_range] at hi
    exact dueAt_append_left D x now i hi
  rw [hcongr]
  split_ifs <;> rfl

theorem dueIndices_sorted (D : List (DeadBoid K)) (now : K) :
    ((List.range D.length).reverse.filter (dueAt D now)).Pairwise (fun a b => b < a) ∧
    ∀ i ∈ (List.range D.length).reverse.filter (dueAt D now), i < D.length := by
  constructor
  · apply List.Pairwise.filter
    rw [List.pairwise_reverse]
    exact List.pairwise_lt_range D.length
  · intro i hi
    have := (List.mem_filter.mp hi).1
    rw [List.mem_reverse, List.mem_range] at this
    exact this

theorem splice_dueIndices (D : List (DeadBoid K)) (now : K) :
    ((List.range D.length).reverse.filter (dueAt D now)).foldl
        (fun dead idx => splice dead idx 1) D =
      D.filter (fun d => decide (now < d.respawnTime)) := by
  induction D using List.reverseRecOn with
  | nil => rfl
  | append_singleton D x ih =>
    rw [dueIndices_append]
    by_cases hx : now ≥ x.respawnTime
    · have hnot : ¬ now < x.respawnTime := not_lt.mpr hx
      simp only [hx, decide_True, if_true, List.singleton_append, List.foldl_cons]
      have hsp : splice (D ++ [x]) D.length 1 = D := by
        unfold splice
        rw [List.take_left' rfl, List.drop_eq_nil_of_le (by simp), List.append_nil]
      rw [hsp, ih, List.filter_append]
      simp [hnot]
    · have hlt : now < x.respawnTime := not_le.mp hx
      simp only [hx, decide_False, Bool.false_eq_true, if_false, List.nil_append]
      obtain ⟨hs, hl⟩ := dueIndices_sorted D now
      rw [splice_fold_append x _ D hs hl, ih, List.filter_append]
      simp [hlt]

theorem species_dueIndices (D : List (DeadBoid K)) (now : K) :
    ((List.range D.length).reverse.filter (dueAt D now)).map
        (fun i => (D.get? i).map DeadBoid.species) =
      (D.reverse.filter (fun d => decide (now ≥ d.respawnTime))).map
        (fun d => some d.species) := by
  induction D using List.reverseRecOn with
  | nil => rfl
  | append_singleton D x ih =>
    rw [dueIndices_append, List.reverse_append, List.reverse_singleton, List.singleton_append,
      List.filter_cons, List.map_append]
    have hleft : ((List.range D.length).reverse.filter (dueAt D now)).map
        (fun i => ((D ++ [x]).get? i).map DeadBoid.species) =
        ((List.range D.length).reverse.filter (dueAt D now)).map
          (fun i => (D.get? i).map DeadBoid.species) := by
      apply List.map_congr_left
      intro i hi
      have hi' := (dueIndices_sorted D now).2 i hi
      rw [List.get?_eq_getElem?, List.get?_eq_getElem?, List.getElem?_append_left hi']
    rw [hleft, ih]
    by_cases hx : now ≥ x.respawnTime
    · simp only [hx, decide_True, if_true, List.map_cons, List.map_nil, List.singleton_append]
      rw [List.get?_eq_getElem?, List.getElem?_append_right (le_refl _)]
      simp
    · simp only [hx, decide_False, Bool.false_eq_true, if_false, List.map_nil,
        List.nil_append]

end PopulationLemmas

section PopulationTheorems

variable {K : Type} [LinearOrderedField K]

/-- C12. After `adjustBoidCount()` the population has exactly `targetBoidCount`
agents; when the target is below the previous count the result is the list of the
first `targetBoidCount` agents of the previous population, and when it is above it
the previous population is a prefix of the result (the new agents are appended). -/
theorem adjustBoidCount_population (s : Sim K) (draws : Nat → SpawnDraw K) :
    (adjustBoidCount s draws).boids.length = s.targetBoidCount ∧
    (if s.targetBoidCount < s.boids.length then
      (adjustBoidCount s draws).boids = s.boids.take s.targetBoidCount
    else
      (adjustBoidCount s draws).boids =
        s.boids ++ List.range' s.nextRef (s.targetBoidCount - s.boids.length)) ∧
    ((adjustBoidCount s draws).boids.take s.boids.length =
      s.boids.take s.targetBoidCount) := by
  rcases Nat.lt_trichotomy s.targetBoidCount s.boids.length with h | h | h
  · obtain ⟨hb, _⟩ := adjustBoidCount_shrink s draws h
    rw [hb, if_pos h]
    refine ⟨?_, rfl, ?_⟩
    · rw [List.length_take]; omega
    · rw [List.take_take]
      congr 1
      omega
  · have hs := adjustBoidCount_same s draws h
    have hnot : ¬ s.targetBoidCount < s.boids.length := by omega
    rw [hs, if_neg hnot]
    refine ⟨h.symm, ?_, ?_⟩
    · rw [h, Nat.sub_self]; simp
    · rw [h]
  · obtain ⟨hb, _⟩ := adjustBoidCount_grow s draws h
    have hnot : ¬ s.targetBoidCount < s.boids.length := by omega
    rw [hb, if_neg hnot]
    refine ⟨?_, rfl, ?_⟩
    · rw [List.length_append, List.length_range']; omega
    · rw [List.take_left' rfl, List.take_of_length_le (le_of_lt h)]

/-- C15. After `processDeadBoids(now)` the respawn queue holds exactly the previous
entries with `respawnTime > now`, in their previous order; the population is the
previous population followed by one newly created agent for each previous entry
with `respawnTime <= now` (taken from the last entry to the first), and each new
agent carries the species of its entry. -/
theorem processDeadBoids_effect (s : Sim K) (now : K) (draws : Nat → SpawnDraw K) :
    (processDeadBoids s now draws).deadBoids =
      s.deadBoids.filter (fun d => decide (now < d.respawnTime)) ∧
    (processDeadBoids s now draws).boids =
      s.boids ++ List.range' s.nextRef
        (s.deadBoids.reverse.filter (fun d => decide (now ≥ d.respawnTime))).length ∧
    (List.range' s.nextRef
        (s.deadBoids.reverse.filter (fun d => decide (now ≥ d.respawnTime))).length).map
        (fun r => ((processDeadBoids s now draws).heap r).species) =
      (s.deadBoids.reverse.filter (fun d => decide (now ≥ d.respawnTime))).map
        DeadBoid.species := by
  obtain ⟨h1, h2, h3, _, _, _, h7⟩ :=
    respawn_fold now draws (List.range s.deadBoids.length).reverse (s, [])
  have hsp := species_dueIndices s.deadBoids now
  have hlen : ((List.range s.deadBoids.length).reverse.filter (dueAt s.deadBoids now)).length =
      (s.deadBoids.reverse.filter (fun d => decide (now ≥ d.respawnTime))).length := by
    have := congrArg List.length hsp
    simpa using this
  simp only [] at h1 h2 h3 h7
  rw [hlen] at h3 h7
  have hdead : (processDeadBoids s now draws).deadBoids =
      (respawnLoop s now draws).2.foldl (fun dead idx => splice dead idx 1)
        (respawnLoop s now draws).1.deadBoids := rfl
  have hboids : (processDeadBoids s now draws).boids = (respawnLoop s now draws).1.boids := rfl
  have hheap : (processDeadBoids s now draws).heap = (respawnLoop s now draws).1.heap := rfl
  refine ⟨?_, ?_, ?_⟩
  · rw [hdead]
    unfold respawnLoop
    rw [h1, h2, List.nil_append]
    exact splice_dueIndices s.deadBoids now
  · rw [hboids]
    unfold respawnLoop
    exact h3
  · rw [hheap]
    unfold respawnLoop
    rw [hsp] at h7
    exact map_some_cancel _ _ _ _ h7

end PopulationTheorems

/-! ## The selected agent -/

theorem setupEvolutionPredators_frame {K : Type} (s : Sim K) (predators : Nat → EvoPredator K) :
    (setupEvolutionPredators s predators).boids = s.boids ∧
    (setupEvolutionPredators s predators).selectedBoid = s.selectedBoid ∧
    (setupEvolutionPredators s predators).heap = s.heap ∧
    (setupEvolutionPredators s predators).evolutionPredators =
      [predators 0, predators 1, predators 2] :=
  ⟨rfl, rfl, rfl, rfl⟩

section SelectedLemmas

variable {K : Type} [LinearOrderedField K]

theorem SelectedValid.sv_adjustBoidCount (s : Sim K) (draws : Nat → SpawnDraw K)
    (hv : SelectedValid s) : SelectedValid (adjustBoidCount s draws) := by
  rcases Nat.lt_trichotomy s.targetBoidCount s.boids.length with h | h | h
  · obtain ⟨hb, hsel⟩ := adjustBoidCount_shrink s draws h
    intro r hr
    rw [hsel] at hr
    rw [hb]
    cases hs : s.selectedBoid with
    | none => rw [hs] at hr; exact absurd hr (by simp)
    | some r0 =>
      rw [hs] at hr
      by_cases hc : (s.boids.take s.targetBoidCount).contains r0 = true
      · simp only [hc, if_true, Option.some.injEq] at hr
        subst hr
        exact List.elem_iff.mp hc
      · simp only [hc] at hr
        exact absurd hr (by simp)
  · rw [adjustBoidCount_same s draws h]; exact hv
  · obtain ⟨hb, hsel⟩ := adjustBoidCount_grow s draws h
    intro r hr
    rw [hsel] at hr
    rw [hb]
    exact List.mem_append_left _ (hv r hr)

theorem SelectedValid.sv_die (env : Env K) (s : Sim K) (this : Ref) (hv : SelectedValid s) :
    SelectedValid (die env s this) := by
  intro r hr
  rw [die_boids]
  unfold Boids.die at hr
  by_cases hidx : s.boids.indexOf this = s.boids.length
  · simp only [hidx, if_true] at hr
    have hnot : this ∉ s.boids := List.indexOf_eq_length.mp hidx
    rw [List.erase_of_not_mem hnot]
    exact hv r hr
  · simp only [hidx, if_false] at hr
    by_cases hsel : s.selectedBoid = some this
    · simp only [hsel, if_true] at hr
      exact absurd hr (by simp)
    · simp only [hsel, if_false] at hr
      have hne : r ≠ this := by
        intro h; subst h; exact hsel hr
      exact (List.mem_erase_of_ne hne).mpr (hv r hr)

theorem SelectedValid.sv_processDeadBoids (s : Sim K) (now : K) (draws : Nat → SpawnDraw K)
    (hv : SelectedValid s) : SelectedValid (processDeadBoids s now draws) := by
  obtain ⟨_, _, h3, _, h5, _, _⟩ :=
    respawn_fold now draws (List.range s.deadBoids.length).reverse (s, [])
  intro r hr
  have hsel : (Boids.processDeadBoids s now draws).selectedBoid = s.selectedBoid := h5
  have hboids : (Boids.processDeadBoids s now draws).boids = _ := h3
  rw [hsel] at hr
  rw [hboids]
  exact List.mem_append_left _ (hv r hr)

theorem spawnBoids_frame (s : Sim K) (count : Nat) (draws : Nat → SpawnDraw K) :
    (spawnBoids s count draws).boids = s.boids ++ List.range' s.nextRef count ∧
    (spawnBoids s count draws).selectedBoid = s.selectedBoid := by
  unfold spawnBoids
  have := push_fold (fun (s : Sim K) (i : Nat) =>
      pushNewBoid s (draws i).x (draws i).y
        (if s.twoSpeciesEnabled = true ∧ (i : K) ≥ (count : K) / 2 then Species.red
          else Species.blue) (draws i).velocity)
    (fun s i => ⟨rfl, rfl, rfl⟩) (List.range count) s
  rw [List.length_range] at this
  exact ⟨this.1, this.2.2⟩

theorem resetSimulation_selectedBoid (s : Sim K) (draws : Nat → SpawnDraw K)
    (predators : Nat → EvoPredator K) :
    (resetSimulation s draws predators).selectedBoid = none := by
  unfold resetSimulation
  simp only []
  split_ifs
  · rw [(setupEvolutionPredators_frame _ _).2.1, (spawnBoids_frame _ _ _).2]
  · rw [(spawnBoids_frame _ _ _).2]

end SelectedLemmas

section SelectedTheorems

variable {K : Type} [LinearOrderedField K] [FloorRing K]

/-- C13. Starting from a state whose `selectedBoid` is `null` or an agent of the
population, after any sequence of `adjustBoidCount` (with any target), `Boid.die`
(of any agent), `processDeadBoids`, selection events of `updateEvolution` and
`resetSimulation`, `selectedBoid` is again `null` or an agent of the population. -/
theorem selectedBoid_never_dangling (env : Env K) (s s' : Sim K) (hv : SelectedValid s)
    (hreach : Relation.ReflTransGen (PopulationStep env) s s') : SelectedValid s' := by
  induction hreach with
  | refl => exact hv
  | tail _ hstep ih =>
    cases hstep with
    | adjust target draws =>
      exact SelectedValid.sv_adjustBoidCount _ draws (fun r hr => ih r hr)
    | die this => exact SelectedValid.sv_die env _ this ih
    | respawn now draws => exact SelectedValid.sv_processDeadBoids _ now draws ih
    | select now draws =>
      intro r hr
      exact (List.perm_insertionSort _ _).symm.subset (ih r hr)
    | reset draws predators =>
      intro r hr
      rw [resetSimulation_selectedBoid] at hr
      exact absurd hr (by simp)

/-- C13 on three agents with agent `2` selected: lowering the target to `1` removes
the selected agent and clears the reference. -/
theorem selectedBoid_never_dangling_witness :
    SelectedValid selectedSim ∧
    Relation.ReflTransGen (PopulationStep ratEnv) selectedSim
      (adjustBoidCount { selectedSim with targetBoidCount := 1 } (fun _ => fixedSpawn)) ∧
    (adjustBoidCount { selectedSim with targetBoidCount := 1 } (fun _ => fixedSpawn)).boids =
      [0] ∧
    (adjustBoidCount { selectedSim with targetBoidCount := 1 }
      (fun _ => fixedSpawn)).selectedBoid = none ∧
    SelectedValid
      (adjustBoidCount { selectedSim with targetBoidCount := 1 } (fun _ => fixedSpawn)) :=
  have hv : SelectedValid selectedSim := by
    intro r hr
    have h2 : r = 2 := by
      have : selectedSim.selectedBoid = some 2 := rfl
      rw [this] at hr
      exact (Option.some.inj hr).symm
    subst h2
    decide!
  have hreach : Relation.ReflTransGen (PopulationStep ratEnv) selectedSim
      (adjustBoidCount { selectedSim with targetBoidCount := 1 } (fun _ => fixedSpawn)) :=
    Relation.ReflTransGen.single (PopulationStep.adjust selectedSim 1 (fun _ => fixedSpawn))
  ⟨hv, hreach, by decide!, by decide!,
    selectedBoid_never_dangling ratEnv selectedSim _ hv hreach⟩

end SelectedTheorems

/-! ## Mode switching -/

theorem update_fold_spec {K : Type} (P : Boid K → Prop) (g : Boid K → Boid K) (hP : ∀ x, P (g x))
    (l : List Ref) (heap : Heap K) (b : Ref) (hb : b ∈ l) :
    P ((l.foldl (fun (hp : Ref → Boid K) (r : Ref) => Function.update hp r (g (hp r)))
      heap) b) := by
  induction l using List.reverseRecOn with
  | nil => simp at hb
  | append_singleton l' x ih =>
    rw [List.foldl_append, List.foldl_cons, List.foldl_nil]
    by_cases hx : b = x
    · subst hx
      rw [Function.update_same]
      exact hP _
    · rw [Function.update_noteq hx]
      apply ih
      rcases List.mem_append.mp hb with hb | hb
      · exact hb
      · simp at hb
        exact absurd hb hx

section ModeSwitch

variable {K : Type} [LinearOrderedField K]

/-- C14. After `switchMode(m)` the active mode is `m`, the fear-point history is
empty and the predator display position is `null`; for `m = 'evolution'` the
generation counter is `0`, every agent of the population has fitness `50` and genes
equal to the global separation, alignment and cohesion weights, max speed and
neighbour radius, and there are exactly three evolution predators; for any other
mode the list of evolution predators is empty. -/
theorem switchMode_effects (s : Sim K) (mode : Mode) (predators : Nat → EvoPredator K) :
    (switchMode s mode predators).currentMode = mode ∧
    (switchMode s mode predators).fearPoints = [] ∧
    (switchMode s mode predators).predatorDisplayPos = none ∧
    (if mode = Mode.evolution then
      (switchMode s mode predators).generation = 0 ∧
      (∀ r ∈ (switchMode s mode predators).boids,
        ((switchMode s mode predators).heap r).fitness = 50 ∧
        ((switchMode s mode predators).heap r).genes =
          { separation := (switchMode s mode predators).separationWeight
            alignment := (switchMode s mode predators).alignmentWeight
            cohesion := (switchMode s mode predators).cohesionWeight
            maxSpeed := (switchMode s mode predators).maxSpeed
            radius := (switchMode s mode predators).neighborRadius }) ∧
      (switchMode s mode predators).evolutionPredators.length = 3
    else (switchMode s mode predators).evolutionPredators = []) := by
  cases mode with
  | evolution =>
    refine ⟨rfl, rfl, rfl, ?_⟩
    rw [if_pos rfl]
    refine ⟨rfl, ?_, rfl⟩
    intro r hr
    have hr' : r ∈ s.boids := hr
    exact update_fold_spec
      (fun bd => bd.fitness = 50 ∧ bd.genes =
        { separation := s.separationWeight, alignment := s.alignmentWeight,
          cohesion := s.cohesionWeight, maxSpeed := s.maxSpeed, radius := s.neighborRadius })
      (fun bd => { bd with
        fitness := 50
        genes :=
          { separation := s.separationWeight, alignment := s.alignmentWeight,
            cohesion := s.cohesionWeight, maxSpeed := s.maxSpeed,
            radius := s.neighborRadius } })
      (fun x => ⟨rfl, rfl⟩) s.boids s.heap r hr'
  | normal => exact ⟨rfl, rfl, rfl, rfl⟩
  | predator => exact ⟨rfl, rfl, rfl, rfl⟩
  | painter => exact ⟨rfl, rfl, rfl, rfl⟩
  | sound => exact ⟨rfl, rfl, rfl, rfl⟩

end ModeSwitch

/-! ## The agent loop of a tick -/

section LoopLemmas

variable {K : Type}

theorem NoGrowth.ng_refl (s : Sim K) : NoGrowth s s := Nat.le_refl _

theorem NoGrowth.ng_trans {a b c : Sim K} (h1 : NoGrowth a b) (h2 : NoGrowth b c) :
    NoGrowth a c := Nat.le_trans h2 h1

theorem NoGrowth.ng_ite {a b c : Sim K} (p : Prop) [Decidable p] (h1 : NoGrowth a b)
    (h2 : NoGrowth a c) : NoGrowth a (if p then b else c) := by
  split_ifs
  · exact h1
  · exact h2

theorem NoGrowth.ng_setBoid {a b : Sim K} (h : NoGrowth a b) (r : Ref) (v : Boid K) :
    NoGrowth a (setBoid b r v) := h

theorem NoGrowth.ng_applyForce [LinearOrderedField K] {a b : Sim K} (h : NoGrowth a b) (r : Ref)
    (f : Vec K) : NoGrowth a (applyForce b r f) := h

theorem NoGrowth.ng_die [LinearOrderedField K] {a b : Sim K} (h : NoGrowth a b) (env : Env K)
    (r : Ref) : NoGrowth a (die env b r) := by
  refine NoGrowth.ng_trans h ?_
  unfold NoGrowth
  rw [die_boids]
  exact (List.erase_sublist r b.boids).length_le

theorem NoGrowth.ng_fleeFromPredator [LinearOrderedField K] {a b : Sim K} (h : NoGrowth a b)
    (env : Env K) (r : Ref) (predPos : Vec K) (radius : K) :
    NoGrowth a (fleeFromPredator env b r predPos radius) := by
  unfold Boids.fleeFromPredator
  simp only []
  split_ifs
  · exact NoGrowth.ng_die (NoGrowth.ng_applyForce h _ _) _ _
  · exact NoGrowth.ng_applyForce h _ _
  · exact h

theorem NoGrowth.ng_foldl {α : Type} (f : Sim K → α → Sim K)
    (hf : ∀ (x : Sim K) (y : α), NoGrowth x (f x y)) (l : List α) {a b : Sim K}
    (h : NoGrowth a b) : NoGrowth a (l.foldl f b) := by
  induction l generalizing b with
  | nil => exact h
  | cons y t ih => exact ih (NoGrowth.ng_trans h (hf b y))

theorem NoGrowth.ng_avoidFearTrail [LinearOrderedField K] {a b : Sim K} (h : NoGrowth a b)
    (env : Env K) (r : Ref) : NoGrowth a (avoidFearTrail env b r) := by
  unfold Boids.avoidFearTrail
  refine NoGrowth.ng_foldl _ ?_ _ h
  intro x y
  simp only []
  split_ifs
  · exact NoGrowth.ng_refl x
  · exact NoGrowth.ng_applyForce (NoGrowth.ng_refl x) _ _
  · exact NoGrowth.ng_refl x

theorem NoGrowth.ng_fleeEvolutionPredators [LinearOrderedField K] {a b : Sim K}
    (h : NoGrowth a b) (env : Env K) (r : Ref) :
    NoGrowth a (fleeEvolutionPredators env b r) := by
  unfold Boids.fleeEvolutionPredators
  refine NoGrowth.ng_foldl _ ?_ _ h
  intro x y
  simp only []
  split_ifs
  · exact NoGrowth.ng_setBoid (NoGrowth.ng_fleeFromPredator (NoGrowth.ng_refl x) _ _ _ _) _ _
  · exact NoGrowth.ng_fleeFromPredator (NoGrowth.ng_refl x) _ _ _ _

theorem NoGrowth.ng_predatorStep [LinearOrderedField K] {a b : Sim K} (h : NoGrowth a b)
    (env : Env K) (r : Ref) : NoGrowth a (predatorStep env b r) := by
  unfold Boids.predatorStep
  split
  · exact NoGrowth.ng_ite _ (NoGrowth.ng_fleeFromPredator h _ _ _ _) h
  · exact h

theorem NoGrowth.ng_acquireNeighbors [LinearOrderedField K] [FloorRing K] (s : Sim K) (r : Ref) :
    NoGrowth s (acquireNeighbors s r).2 := by
  unfold Boids.acquireNeighbors
  split_ifs
  · exact Nat.le_refl _
  · exact Nat.le_refl _
  · exact NoGrowth.ng_refl s

theorem NoGrowth.ng_flock [LinearOrderedField K] [FloorRing K] (env : Env K) (s : Sim K)
    (r : Ref) : NoGrowth s (flock env s r) := by
  unfold Boids.flock
  lift_lets
  intro res nb s1 nb2 same other src s2 sep ali coh sw aw cw s3 s4 s5 s6 s7 s8 s9 s10
  have h1 : NoGrowth s s1 := NoGrowth.ng_acquireNeighbors s r
  have h2 : NoGrowth s s2 := NoGrowth.ng_setBoid h1 _ _
  have h5 : NoGrowth s s5 :=
    NoGrowth.ng_applyForce (NoGrowth.ng_applyForce (NoGrowth.ng_applyForce h2 _ _) _ _) _ _
  have h6 : NoGrowth s s6 := NoGrowth.ng_ite _ (NoGrowth.ng_applyForce h5 _ _) h5
  have h7 : NoGrowth s s7 := NoGrowth.ng_ite _ (NoGrowth.ng_applyForce h6 _ _) h6
  have h8 : NoGrowth s s8 := NoGrowth.ng_predatorStep h7 _ _
  have h9 : NoGrowth s s9 := NoGrowth.ng_ite _ (NoGrowth.ng_avoidFearTrail h8 _ _) h8
  have h10 : NoGrowth s s10 := NoGrowth.ng_ite _ (NoGrowth.ng_fleeEvolutionPredators h9 _ _) h9
  intros
  exact NoGrowth.ng_ite _ (NoGrowth.ng_setBoid h10 _ _) h10

theorem NoGrowth.ng_edges [LinearOrderedField K] (s : Sim K) (r : Ref) :
    NoGrowth s (edges s r) := by
  unfold Boids.edges
  split
  · exact NoGrowth.ng_refl s
  · exact NoGrowth.ng_refl s

theorem NoGrowth.ng_agentStep [LinearOrderedField K] [FloorRing K] (env : Env K) (s : Sim K)
    (r : Ref) : NoGrowth s (agentStep env s r) :=
  NoGrowth.ng_trans (NoGrowth.ng_flock env s r)
    (NoGrowth.ng_trans (NoGrowth.ng_refl _) (NoGrowth.ng_edges _ r))

/-- With enough iterations the agent loop reaches the end of the array, and further
iterations change nothing. -/
theorem agentLoopStats_enough [LinearOrderedField K] [FloorRing K] (env : Env K) (n : Nat)
    (st : LoopState K) (hn : st.sim.boids.length ≤ st.index + n) :
    (agentLoopStats env n st).sim.boids.length ≤ (agentLoopStats env n st).index ∧
    ∀ k, agentLoopStats env (n + k) st = agentLoopStats env n st := by
  induction n generalizing st with
  | zero =>
    refine ⟨hn, ?_⟩
    intro k
    cases k with
    | zero => rfl
    | succ k =>
      have hnone : st.sim.boids.get? st.index = none :=
        List.get?_eq_none.mpr hn
      rw [Nat.zero_add]
      show agentLoopStats env (k + 1) st = st
      unfold agentLoopStats
      rw [hnone]
  | succ n ih =>
    cases hget : st.sim.boids.get? st.index with
    | none =>
      have h0 : agentLoopStats env (n + 1) st = st := by
        unfold agentLoopStats; rw [hget]
      rw [h0]
      refine ⟨List.get?_eq_none.mp hget, ?_⟩
      intro k
      have : n + 1 + k = (n + k) + 1 := by omega
      rw [this]
      unfold agentLoopStats
      rw [hget]
    | some this =>
      have hstep := NoGrowth.ng_agentStep env st.sim this
      unfold NoGrowth at hstep
      have hn' : (agentStep env st.sim this).boids.length ≤ st.index + 1 + n := by omega
      obtain ⟨h1, h2⟩ := ih
        { sim := agentStep env st.sim this
          index := st.index + 1
          totalSpeed := st.totalSpeed +
            Vec.mag env.sqrt ((agentStep env st.sim this).heap this).velocity
          totalNeighbors := st.totalNeighbors + ((agentStep env st.sim this).heap this).neighborCount
          stepped := st.stepped ++ [this] } hn'
      have h0 : ∀ m, agentLoopStats env (m + 1) st = agentLoopStats env m
          { sim := agentStep env st.sim this
            index := st.index + 1
            totalSpeed := st.totalSpeed +
              Vec.mag env.sqrt ((agentStep env st.sim this).heap this).velocity
            totalNeighbors := st.totalNeighbors +
              ((agentStep env st.sim this).heap this).neighborCount
            stepped := st.stepped ++ [this] } := by
        intro m
        conv_lhs => unfold agentLoopStats
        rw [hget]
      rw [h0 n]
      refine ⟨h1, ?_⟩
      intro k
      have : n + 1 + k = (n + k) + 1 := by omega
      rw [this, h0 (n + k)]
      exact h2 k

/-- The agent loop as run by `runAgentLoop` ends with the iterator past the end of
the array, and no larger number of iterations gives another result. -/
theorem runAgentLoop_complete [LinearOrderedField K] [FloorRing K] (env : Env K) (s : Sim K) :
    (runAgentLoop env s).sim.boids.get? (runAgentLoop env s).index = none ∧
    ∀ k, agentLoopStats env (s.boids.length + k)
        { sim := s, index := 0, totalSpeed := 0, totalNeighbors := 0, stepped := [] } =
      runAgentLoop env s := by
  obtain ⟨h1, h2⟩ := agentLoopStats_enough env s.boids.length
    { sim := s, index := 0, totalSpeed := 0, totalNeighbors := 0, stepped := [] }
    (by simp)
  exact ⟨List.get?_eq_none.mpr h1, h2⟩

/-- The loop with running sums goes through the same states as `agentLoop`. -/
theorem agentLoopStats_sim [LinearOrderedField K] [FloorRing K] (env : Env K) (n : Nat)
    (st : LoopState K) : (agentLoopStats env n st).sim = agentLoop env n st.sim st.index := by
  induction n generalizing st with
  | zero => rfl
  | succ n ih =>
    unfold agentLoopStats agentLoop
    cases hget : st.sim.boids.get? st.index with
    | none => rfl
    | some this => exact ih _

end LoopLemmas

section TickTheorems

/-- C16, evaluated on a tick with a kill.  In predator mode with agents `0, 1, 2`,
the predator within kill distance of agent `0` only: the loop runs `flock`, `update`,
`edges` for agent `0`, whose `die()` splices it out of `boids`, and then continues at
array index `1`, which now holds agent `2`.  Agent `1` is in the population before
and after the loop and is not killed, yet its step is never run: it keeps its
position `(400, 300)` although its velocity is `(1, 0)`; agent `2` moves to
`(601, 500)`. -/
theorem agent_after_killed_agent_is_skipped :
    (drawRebuild preySim).boids = [0, 1, 2] ∧
    (runAgentLoop ratEnv (drawRebuild preySim)).stepped = [0, 2] ∧
    (runAgentLoop ratEnv (drawRebuild preySim)).sim.boids = [1, 2] ∧
    (runAgentLoop ratEnv (drawRebuild preySim)).sim.boids.get?
      (runAgentLoop ratEnv (drawRebuild preySim)).index = none ∧
    ((drawRebuild preySim).heap 1).velocity = ⟨1, 0⟩ ∧
    ((drawRebuild preySim).heap 1).position = ⟨400, 300⟩ ∧
    ((runAgentLoop ratEnv (drawRebuild preySim)).sim.heap 1).position = ⟨400, 300⟩ ∧
    ((drawRebuild preySim).heap 2).position = ⟨600, 500⟩ ∧
    ((runAgentLoop ratEnv (drawRebuild preySim)).sim.heap 2).position = ⟨601, 500⟩ := by
  decide!

/-- C17, evaluated on a tick with a respawn.  One agent with velocity `(0, 3)` and one
due entry in the respawn queue: the loop adds the speed `3` to `totalSpeed`, then
`processDeadBoids` appends a new agent (velocity `(0, 2)`), and `avgSpeed` becomes
`3 / boids.length = 3 / 2`, while the mean speed of the two agents of the population
is `5 / 2`. -/
theorem avgSpeed_not_mean_after_respawn :
    (drawUpdateBoids ratEnv (drawRebuild respawnSim) (fun _ => fixedSpawn)).boids = [0, 1] ∧
    (drawUpdateBoids ratEnv (drawRebuild respawnSim) (fun _ => fixedSpawn)).avgSpeed = 3 / 2 ∧
    meanSpeed ratEnv
      (drawUpdateBoids ratEnv (drawRebuild respawnSim) (fun _ => fixedSpawn)) = 5 / 2 := by
  decide!

/-- C18, evaluated with the analyzer active and muted.  `getModulatedParams` returns
its argument `{baseSeparation, baseAlignment, baseCohesion}`, which has none of the
properties `separationWeight`, `alignmentWeight`, `cohesionWeight` that `draw` reads:
the three weights are assigned `undefined`.  With the same analyzer not muted they
are the base weights plus level times sensitivity. -/
theorem muted_modulation_is_undefined :
    (soundSim true).currentMode = Mode.sound ∧
    (soundSim true).audioAnalyzer.active = true ∧
    (soundSim true).audioAnalyzer.muted = true ∧
    (soundModulated (soundSim true) (List.replicate 256 128) 0).2.separationWeight = none ∧
    (soundModulated (soundSim true) (List.replicate 256 128) 0).2.alignmentWeight = none ∧
    (soundModulated (soundSim true) (List.replicate 256 128) 0).2.cohesionWeight = none ∧
    (drawSoundModulation (soundSim true) (List.replicate 256 128) 0).isSome = false ∧
    (soundModulated (soundSim false) (List.replicate 256 128) 0).2.separationWeight =
      some ((soundSim false).baseSeparation +
        (soundModulated (soundSim false) (List.replicate 256 128) 0).1.smoothTreble *
          (soundSim false).audioAnalyzer.trebleSensitivity) := by
  decide!

end TickTheorems

/-! ## Bounds on the steering forces -/

section SteeringBounds

variable {K : Type} [LinearOrderedField K]

theorem sqrt_zero_of_exact (sqrt : K → K) (hsqrt : ExactSqrt sqrt) : sqrt 0 = 0 := by
  obtain ⟨_, h1⟩ := hsqrt 0 (le_refl 0)
  exact mul_self_eq_zero.mp h1

theorem sqrt_pos_of_exact (sqrt : K → K) (hsqrt : ExactSqrt sqrt) (x : K) (hx : 0 < x) :
    0 < sqrt x := by
  obtain ⟨h0, h1⟩ := hsqrt x (le_of_lt hx)
  rcases eq_or_lt_of_le h0 with h | h
  · rw [← h] at h1
    simp at h1
    exact absurd h1.symm (ne_of_gt hx)
  · exact h

theorem Vec.mag_zero_le (sqrt : K → K) (hsqrt : ExactSqrt sqrt) :
    Vec.mag sqrt (Vec.zero : Vec K) ≤ MAX_FORCE := by
  have h : Vec.magSq (Vec.zero : Vec K) = 0 := by simp [Vec.magSq, Vec.zero]
  unfold Vec.mag
  rw [h, sqrt_zero_of_exact sqrt hsqrt]
  unfold MAX_FORCE
  norm_num

theorem MAX_FORCE_nonneg : (0 : K) ≤ MAX_FORCE := by
  unfold MAX_FORCE
  norm_num

theorem separateLoop_count_zero (env : Env K) (s : Sim K) (this : Ref) (neighbors : List Ref)
    (h : (separateLoop env s this neighbors).2 = 0) :
    (separateLoop env s this neighbors).1 = Vec.zero := by
  unfold separateLoop at h ⊢
  simp only [] at h ⊢
  have key : ∀ (l : List Ref) (acc : Vec K × Nat), (acc.2 = 0 → acc.1 = Vec.zero) →
      (l.foldl (fun (acc : Vec K × Nat) other =>
        if Vec.dist env.sqrt (s.heap this).position (s.heap other).position > 0 ∧
            Vec.dist env.sqrt (s.heap this).position (s.heap other).position <
              s.neighborRadius * (2 / 5) then
          (Vec.add acc.1 (Vec.div (Vec.normalize env.sqrt
            (Vec.sub (s.heap this).position (s.heap other).position))
            (Vec.dist env.sqrt (s.heap this).position (s.heap other).position)), acc.2 + 1)
        else acc) acc).2 = 0 →
      (l.foldl (fun (acc : Vec K × Nat) other =>
        if Vec.dist env.sqrt (s.heap this).position (s.heap other).position > 0 ∧
            Vec.dist env.sqrt (s.heap this).position (s.heap other).position <
              s.neighborRadius * (2 / 5) then
          (Vec.add acc.1 (Vec.div (Vec.normalize env.sqrt
            (Vec.sub (s.heap this).position (s.heap other).position))
            (Vec.dist env.sqrt (s.heap this).position (s.heap other).position)), acc.2 + 1)
        else acc) acc).1 = Vec.zero := by
    intro l
    induction l with
    | nil => intro acc hacc h0; exact hacc h0
    | cons o t ih =>
      intro acc hacc
      rw [List.foldl_cons]
      apply ih
      split_ifs
      · intro h1
        exact absurd h1 (Nat.succ_ne_zero _)
      · exact hacc
  exact key neighbors (Vec.zero, 0) (fun _ => rfl) h

/-- C21. With an exact square root, each of the vectors returned by `separate`,
`align`, `cohesion` and `seek` has magnitude at most `MAX_FORCE = 0.2`, for every
state of the agents, every neighbour array, every target and every `maxSpeed`. -/
theorem steering_forces_bounded (env : Env K) (s : Sim K) (this : Ref) (neighbors : List Ref)
    (target : Vec K) (hsqrt : ExactSqrt env.sqrt) :
    (MAX_FORCE : K) = 1 / 5 ∧
    Vec.mag env.sqrt (separate env s this neighbors) ≤ MAX_FORCE ∧
    Vec.mag env.sqrt (align env s this neighbors) ≤ MAX_FORCE ∧
    Vec.mag env.sqrt (cohesion env s this neighbors) ≤ MAX_FORCE ∧
    Vec.mag env.sqrt (seek env s this target) ≤ MAX_FORCE := by
  have hseek : ∀ t : Vec K, Vec.mag env.sqrt (seek env s this t) ≤ MAX_FORCE := by
    intro t
    unfold seek
    exact Vec.mag_limit_le env.sqrt hsqrt _ _ MAX_FORCE_nonneg
  refine ⟨rfl, ?_, ?_, ?_, hseek target⟩
  · unfold separate
    by_cases hc : (separateLoop env s this neighbors).2 > 0
    · simp only [hc, if_true]
      exact Vec.mag_limit_le env.sqrt hsqrt _ _ MAX_FORCE_nonneg
    · simp only [hc, if_false]
      rw [separateLoop_count_zero env s this neighbors (by omega)]
      exact Vec.mag_zero_le env.sqrt hsqrt
  · unfold align
    by_cases hl : neighbors.length = 0
    · simp only [hl, if_true]
      exact Vec.mag_zero_le env.sqrt hsqrt
    · simp only [hl, if_false]
      exact Vec.mag_limit_le env.sqrt hsqrt _ _ MAX_FORCE_nonneg
  · unfold cohesion
    by_cases hl : neighbors.length = 0
    · simp only [hl, if_true]
      exact Vec.mag_zero_le env.sqrt hsqrt
    · simp only [hl, if_false]
      exact hseek _

/-- C21 over the reals with `Real.sqrt`: the panicking agent `0` with velocity
`(3, 4)` and the neighbour array `[1]`. -/
theorem steering_forces_bounded_witness :
    ExactSqrt Real.sqrt ∧
    Vec.mag Real.sqrt (separate ⟨Real.sqrt, fun _ _ => 0, 1⟩
      (fixtureSim [0, 1] (hurriedHeap : Heap ℝ)) 0 [1]) ≤ MAX_FORCE ∧
    Vec.mag Real.sqrt (align ⟨Real.sqrt, fun _ _ => 0, 1⟩
      (fixtureSim [0, 1] (hurriedHeap : Heap ℝ)) 0 [1]) ≤ MAX_FORCE :=
  have hs : ExactSqrt Real.sqrt := fun x hx => ⟨Real.sqrt_nonneg x, Real.mul_self_sqrt hx⟩
  have h := steering_forces_bounded ⟨Real.sqrt, fun _ _ => 0, 1⟩
    (fixtureSim [0, 1] (hurriedHeap : Heap ℝ)) 0 [1] ⟨100, 100⟩ hs
  ⟨hs, h.2.1, h.2.2.1⟩

end SteeringBounds

/-! ## No division by zero in the steering rules -/

section NoZeroDivision

variable {K : Type} [LinearOrderedField K]

theorem Vec.normalizeDivisors_pos (sqrt : K → K) (hsqrt : ExactSqrt sqrt) (v : Vec K) :
    ∀ x ∈ Vec.normalizeDivisors sqrt v, 0 < x := by
  intro x hx
  unfold Vec.normalizeDivisors at hx
  simp only [] at hx
  split_ifs at hx with h
  · rw [List.mem_singleton] at hx
    subst hx
    exact lt_of_le_of_ne (hsqrt _ (Vec.magSq_nonneg v)).1 (Ne.symm h)
  · simp at hx

theorem Vec.limitDivisors_pos (sqrt : K → K) (hsqrt : ExactSqrt sqrt) (v : Vec K) (m : K) :
    ∀ x ∈ Vec.limitDivisors sqrt v m, 0 < x := by
  intro x hx
  unfold Vec.limitDivisors at hx
  simp only [] at hx
  split_ifs at hx with h
  · rw [List.mem_singleton] at hx
    subst hx
    exact sqrt_pos_of_exact sqrt hsqrt _ (lt_of_le_of_lt (mul_self_nonneg m) h)
  · simp at hx

theorem forall_mem_foldl_append {α β : Type} (P : β → Prop) (f : α → List β) (c : α → Prop)
    [DecidablePred c] (hf : ∀ a, c a → ∀ x ∈ f a, P x) (l : List α) (acc : List β)
    (hacc : ∀ x ∈ acc, P x) :
    ∀ x ∈ l.foldl (fun (acc : List β) a => if c a then acc ++ f a else acc) acc, P x := by
  induction l generalizing acc with
  | nil => exact hacc
  | cons a t ih =>
    rw [List.foldl_cons]
    apply ih
    split_ifs with h
    · intro x hx
      rcases List.mem_append.mp hx with hx | hx
      · exact hacc x hx
      · exact hf a h x hx
    · exact hacc

theorem separateDivisors_pos (env : Env K) (s : Sim K) (this : Ref) (neighbors : List Ref)
    (hsqrt : ExactSqrt env.sqrt) : ∀ x ∈ separateDivisors env s this neighbors, 0 < x := by
  have hloop : ∀ x ∈ neighbors.foldl (fun (acc : List K) other =>
      if Vec.dist env.sqrt (s.heap this).position (s.heap other).position > 0 ∧
          Vec.dist env.sqrt (s.heap this).position (s.heap other).position <
            s.neighborRadius * (2 / 5) then
        acc ++ (Vec.normalizeDivisors env.sqrt
          (Vec.sub (s.heap this).position (s.heap other).position) ++
          [Vec.dist env.sqrt (s.heap this).position (s.heap other).position])
      else acc) [], 0 < x := by
    apply forall_mem_foldl_append
    · intro a ha x hx
      rcases List.mem_append.mp hx with hx | hx
      · exact Vec.normalizeDivisors_pos env.sqrt hsqrt _ x hx
      · rw [List.mem_singleton] at hx
        subst hx
        exact ha.1
    · intro x hx
      simp at hx
  intro x hx
  unfold separateDivisors at hx
  simp only [List.append_assoc] at hx hloop
  split_ifs at hx with hc
  · rcases List.mem_append.mp hx with hx | hx
    · exact hloop x hx
    · rcases List.mem_append.mp hx with hx | hx
      · rw [List.mem_singleton] at hx
        subst hx
        exact Nat.cast_pos.mpr hc
      · rcases List.mem_append.mp hx with hx | hx
        · exact Vec.normalizeDivisors_pos env.sqrt hsqrt _ x hx
        · exact Vec.limitDivisors_pos env.sqrt hsqrt _ _ x hx
  · exact hloop x hx

theorem seekDivisors_pos (env : Env K) (s : Sim K) (this : Ref) (target : Vec K)
    (hsqrt : ExactSqrt env.sqrt) : ∀ x ∈ seekDivisors env s this target, 0 < x := by
  intro x hx
  unfold seekDivisors at hx
  simp only [] at hx
  rcases List.mem_append.mp hx with hx | hx
  · exact Vec.normalizeDivisors_pos env.sqrt hsqrt _ x hx
  · exact Vec.limitDivisors_pos env.sqrt hsqrt _ _ x hx

theorem alignDivisors_pos (env : Env K) (s : Sim K) (this : Ref) (neighbors : List Ref)
    (hsqrt : ExactSqrt env.sqrt) : ∀ x ∈ alignDivisors env s this neighbors, 0 < x := by
  intro x hx
  unfold alignDivisors at hx
  split_ifs at hx with hl
  · simp at hx
  · simp only [List.append_assoc] at hx
    rcases List.mem_append.mp hx with hx | hx
    · rw [List.mem_singleton] at hx
      subst hx
      exact Nat.cast_pos.mpr (Nat.pos_of_ne_zero hl)
    · rcases List.mem_append.mp hx with hx | hx
      · exact Vec.normalizeDivisors_pos env.sqrt hsqrt _ x hx
      · exact Vec.limitDivisors_pos env.sqrt hsqrt _ _ x hx

theorem cohesionDivisors_pos (env : Env K) (s : Sim K) (this : Ref) (neighbors : List Ref)
    (hsqrt : ExactSqrt env.sqrt) : ∀ x ∈ cohesionDivisors env s this neighbors, 0 < x := by
  intro x hx
  unfold cohesionDivisors at hx
  split_ifs at hx with hl
  · simp at hx
  · simp only [] at hx
    rcases List.mem_append.mp hx with hx | hx
    · rw [List.mem_singleton] at hx
      subst hx
      exact Nat.cast_pos.mpr (Nat.pos_of_ne_zero hl)
    · exact seekDivisors_pos env s this _ hsqrt x hx

theorem separateLoop_filter (env : Env K) (s : Sim K) (this : Ref) (neighbors : List Ref) :
    separateLoop env s this (neighbors.filter (fun o =>
      decide (Vec.dist env.sqrt (s.heap this).position (s.heap o).position ≠ 0))) =
    separateLoop env s this neighbors := by
  unfold separateLoop
  simp only []
  generalize ((Vec.zero : Vec K), 0) = acc
  induction neighbors generalizing acc with
  | nil => rfl
  | cons o t ih =>
    by_cases h0 : Vec.dist env.sqrt (s.heap this).position (s.heap o).position = 0
    · have hf : List.filter (fun o => decide
          (Vec.dist env.sqrt (s.heap this).position (s.heap o).position ≠ 0)) (o :: t) =
          List.filter (fun o => decide
          (Vec.dist env.sqrt (s.heap this).position (s.heap o).position ≠ 0)) t := by
        simp [List.filter_cons, h0]
      rw [hf, List.foldl_cons, ih]
      simp [h0]
    · have hf : List.filter (fun o => decide
          (Vec.dist env.sqrt (s.heap this).position (s.heap o).position ≠ 0)) (o :: t) =
          o :: List.filter (fun o => decide
          (Vec.dist env.sqrt (s.heap this).position (s.heap o).position ≠ 0)) t := by
        simp [List.filter_cons, h0]
      rw [hf, List.foldl_cons, List.foldl_cons, ih]

theorem dist_self_of_exact (sqrt : K → K) (hsqrt : ExactSqrt sqrt) (p q : Vec K) (h : q = p) :
    Vec.dist sqrt p q = 0 := by
  subst h
  unfold Vec.dist Vec.mag
  have : Vec.magSq (Vec.sub q q) = 0 := by simp [Vec.magSq, Vec.sub]
  rw [this, sqrt_zero_of_exact sqrt hsqrt]

/-- C22. With an exact square root, every divisor of a division executed by
`separate`, `align` and `cohesion` (the distances, the neighbour counts, and the
lengths inside `normalize`, `setMag` and `limit`) is strictly positive, on every
neighbour array; the neighbours at distance exactly `0` contribute nothing to
`separate`; and an array made only of agents at the position of this agent yields
the zero separation vector. -/
theorem steering_never_divides_by_zero (env : Env K) (s : Sim K) (this : Ref)
    (neighbors : List Ref) (hsqrt : ExactSqrt env.sqrt) :
    (∀ x ∈ separateDivisors env s this neighbors ++ alignDivisors env s this neighbors ++
      cohesionDivisors env s this neighbors, 0 < x) ∧
    separate env s this neighbors =
      separate env s this (neighbors.filter (fun o =>
        decide (Vec.dist env.sqrt (s.heap this).position (s.heap o).position ≠ 0))) ∧
    ((∀ o ∈ neighbors, (s.heap o).position = (s.heap this).position) →
      separate env s this neighbors = ⟨0, 0⟩) := by
  refine ⟨?_, ?_, ?_⟩
  · intro x hx
    rcases List.mem_append.mp hx with hx | hx
    · rcases List.mem_append.mp hx with hx | hx
      · exact separateDivisors_pos env s this neighbors hsqrt x hx
      · exact alignDivisors_pos env s this neighbors hsqrt x hx
    · exact cohesionDivisors_pos env s this neighbors hsqrt x hx
  · unfold separate
    rw [separateLoop_filter]
  · intro hco
    have hnil : neighbors.filter (fun o =>
        decide (Vec.dist env.sqrt (s.heap this).position (s.heap o).position ≠ 0)) = [] := by
      rw [List.filter_eq_nil_iff]
      intro o ho
      simp [dist_self_of_exact env.sqrt hsqrt _ _ (hco o ho)]
    have hloop := separateLoop_filter env s this neighbors
    rw [hnil] at hloop
    unfold separate
    rw [← hloop]
    simp [separateLoop, Vec.zero]

/-- C22 over the reals with `Real.sqrt`: agent `0` and the neighbour array `[1, 1]` of
an agent at the same position. -/
theorem steering_never_divides_by_zero_witness :
    ExactSqrt Real.sqrt ∧
    (∀ x ∈ separateDivisors ⟨Real.sqrt, fun _ _ => 0, 1⟩
        (fixtureSim [0, 1] (hurriedHeap : Heap ℝ)) 0 [1, 1] ++
      alignDivisors ⟨Real.sqrt, fun _ _ => 0, 1⟩
        (fixtureSim [0, 1] (hurriedHeap : Heap ℝ)) 0 [1, 1] ++
      cohesionDivisors ⟨Real.sqrt, fun _ _ => 0, 1⟩
        (fixtureSim [0, 1] (hurriedHeap : Heap ℝ)) 0 [1, 1], 0 < x) ∧
    separate ⟨Real.sqrt, fun _ _ => 0, 1⟩
      (fixtureSim [0, 1] (hurriedHeap : Heap ℝ)) 0 [1, 1] = ⟨0, 0⟩ :=
  have hs : ExactSqrt Real.sqrt := fun x hx => ⟨Real.sqrt_nonneg x, Real.mul_self_sqrt hx⟩
  have h := steering_never_divides_by_zero ⟨Real.sqrt, fun _ _ => 0, 1⟩
    (fixtureSim [0, 1] (hurriedHeap : Heap ℝ)) 0 [1, 1] hs
  ⟨hs, h.1, h.2.2 (fun _ _ => rfl)⟩

end NoZeroDivision

/-! ## Integration and the boundary policy -/

section Integration

variable {K : Type} [LinearOrderedField K]

theorem Vec.mag_le_iff (sqrt : K → K) (hsqrt : ExactSqrt sqrt) (v : Vec K) (e : K)
    (he : 0 ≤ e) : Vec.mag sqrt v ≤ e ↔ ¬ Vec.magSq v > e * e := by
  obtain ⟨h0, h1⟩ := hsqrt (Vec.magSq v) (Vec.magSq_nonneg v)
  constructor
  · intro h hgt
    have : sqrt (Vec.magSq v) * sqrt (Vec.magSq v) ≤ e * e :=
      mul_le_mul h h h0 he
    rw [h1] at this
    exact absurd hgt (not_lt.mpr this)
  · intro h
    exact sqrt_le_of_le_mul_self sqrt hsqrt _ _ (Vec.magSq_nonneg v) he (not_lt.mp h)

theorem Vec.limit_eq (sqrt : K → K) (hsqrt : ExactSqrt sqrt) (v : Vec K) (e : K)
    (he : 0 ≤ e) :
    Vec.limit sqrt v e =
      (if Vec.mag sqrt v ≤ e then v else Vec.mult v (e / Vec.mag sqrt v)) ∧
    (¬ Vec.mag sqrt v ≤ e → 0 ≤ e / Vec.mag sqrt v ∧ Vec.mag sqrt (Vec.limit sqrt v e) = e) := by
  have hiff := Vec.mag_le_iff sqrt hsqrt v e he
  by_cases hle : Vec.mag sqrt v ≤ e
  · have hn := hiff.mp hle
    refine ⟨?_, fun h => absurd hle h⟩
    unfold Vec.limit
    simp only [hn, hle, if_true, if_false]
  · have hgt : Vec.magSq v > e * e := by
      by_contra hc
      exact hle (hiff.mpr hc)
    have hpos : 0 < Vec.mag sqrt v := lt_of_le_of_lt he (not_le.mp hle)
    have hne : sqrt (Vec.magSq v) ≠ 0 := ne_of_gt hpos
    have heq : Vec.limit sqrt v e = Vec.mult v (e / Vec.mag sqrt v) := by
      unfold Vec.limit Vec.mag
      simp only [hgt, if_true, Vec.div, hne, if_false, Vec.mult]
      congr 1 <;> field_simp
    refine ⟨?_, fun _ => ⟨div_nonneg he (le_of_lt hpos), ?_⟩⟩
    · rw [heq]
      simp only [hle, if_false]
    · apply le_antisymm (Vec.mag_limit_le sqrt hsqrt v e he)
      obtain ⟨h0, h1⟩ := hsqrt (Vec.magSq v) (Vec.magSq_nonneg v)
      have hsq : Vec.magSq (Vec.limit sqrt v e) = e * e := by
        rw [heq]
        have hxy : v.x * v.x + v.y * v.y = Vec.mag sqrt v * Vec.mag sqrt v := h1.symm
        have hne' : Vec.mag sqrt v ≠ 0 := hne
        generalize Vec.mag sqrt v = r at hxy hne'
        simp only [Vec.mult, Vec.magSq]
        have hrr : r * r ≠ 0 := mul_ne_zero hne' hne'
        have hexp : v.x * (e / r) * (v.x * (e / r)) + v.y * (e / r) * (v.y * (e / r)) =
            (v.x * v.x + v.y * v.y) / (r * r) * (e * e) := by
          field_simp
          ring
        rw [hexp, hxy, div_self hrr, one_mul]
      obtain ⟨g0, g1⟩ := hsqrt (Vec.magSq (Vec.limit sqrt v e)) (Vec.magSq_nonneg _)
      unfold Vec.mag
      by_contra hlt
      have hlt' : sqrt (Vec.magSq (Vec.limit sqrt v e)) < e := not_le.mp hlt
      have : sqrt (Vec.magSq (Vec.limit sqrt v e)) * sqrt (Vec.magSq (Vec.limit sqrt v e)) <
          e * e := by nlinarith
      rw [g1, hsq] at this
      exact lt_irrefl _ this

/-- C23. With an exact square root, trails disabled and an effective max speed
`e >= 0`: `update()` sets the velocity to `w = v + a` when `|w| <= e` and to
`w * (e / |w|)` otherwise, a non-negative multiple of `w` of magnitude exactly `e`;
it sets the position to `p` plus the new velocity and the acceleration to the zero
vector.  The other fields of the agent, and all other agents, are unchanged. -/
theorem update_integrates (env : Env K) (s : Sim K) (this : Ref) (hsqrt : ExactSqrt env.sqrt)
    (htrail : s.trailsEnabled = false) (he : 0 ≤ effectiveSpeed s this) :
    ((update env s this).heap this).velocity =
      (if Vec.mag env.sqrt (Vec.add (s.heap this).velocity (s.heap this).acceleration) ≤
          effectiveSpeed s this
        then Vec.add (s.heap this).velocity (s.heap this).acceleration
        else Vec.mult (Vec.add (s.heap this).velocity (s.heap this).acceleration)
          (effectiveSpeed s this /
            Vec.mag env.sqrt (Vec.add (s.heap this).velocity (s.heap this).acceleration))) ∧
    (¬ Vec.mag env.sqrt (Vec.add (s.heap this).velocity (s.heap this).acceleration) ≤
        effectiveSpeed s this →
      0 ≤ effectiveSpeed s this /
        Vec.mag env.sqrt (Vec.add (s.heap this).velocity (s.heap this).acceleration) ∧
      Vec.mag env.sqrt ((update env s this).heap this).velocity = effectiveSpeed s this) ∧
    ((update env s this).heap this).position =
      Vec.add (s.heap this).position ((update env s this).heap this).velocity ∧
    ((update env s this).heap this).acceleration = ⟨0, 0⟩ ∧
    (update env s this).heap this =
      { s.heap this with
        velocity := ((update env s this).heap this).velocity
        position := ((update env s this).heap this).position
        acceleration := ((update env s this).heap this).acceleration } ∧
    ∀ r, r ≠ this → (update env s this).heap r = s.heap r := by
  obtain ⟨h1, h2⟩ := Vec.limit_eq env.sqrt hsqrt
    (Vec.add (s.heap this).velocity (s.heap this).acceleration) (effectiveSpeed s this) he
  have hv := update_velocity env s this
  refine ⟨by rw [hv]; exact h1, fun h => by rw [hv]; exact h2 h, ?_, ?_, ?_, ?_⟩
  · unfold update setBoid
    simp only [htrail, Function.update_same]
    rfl
  · unfold update setBoid
    simp only [htrail, Function.update_same]
    simp [Vec.mult]
  · unfold update setBoid
    simp only [htrail, Function.update_same]
    rfl
  · intro r hr
    unfold update setBoid
    simp only [Function.update_noteq hr]

/-- C23 over the reals with `Real.sqrt`: the panicking agent with velocity `(3, 4)`
and acceleration `(3, 4)` under `maxSpeed = 4`, whose effective max speed is `6`. -/
theorem update_integrates_witness :
    ExactSqrt Real.sqrt ∧
    (fixtureSim [0] (hurriedHeap : Heap ℝ)).trailsEnabled = false ∧
    (0 : ℝ) ≤ effectiveSpeed (fixtureSim [0] hurriedHeap) 0 ∧
    ((update ⟨Real.sqrt, fun _ _ => 0, 1⟩ (fixtureSim [0] (hurriedHeap : Heap ℝ)) 0).heap
      0).position =
      Vec.add ((fixtureSim [0] (hurriedHeap : Heap ℝ)).heap 0).position
        ((update ⟨Real.sqrt, fun _ _ => 0, 1⟩ (fixtureSim [0] (hurriedHeap : Heap ℝ)) 0).heap
          0).velocity ∧
    ((update ⟨Real.sqrt, fun _ _ => 0, 1⟩ (fixtureSim [0] (hurriedHeap : Heap ℝ)) 0).heap
      0).acceleration = ⟨0, 0⟩ :=
  have hs : ExactSqrt Real.sqrt := fun x hx => ⟨Real.sqrt_nonneg x, Real.mul_self_sqrt hx⟩
  have he : (0 : ℝ) ≤ effectiveSpeed (fixtureSim [0] hurriedHeap) 0 := by
    simp [effectiveSpeed, baseSpeed, fixtureSim, hurriedHeap]
    norm_num
  have h := update_integrates ⟨Real.sqrt, fun _ _ => 0, 1⟩
    (fixtureSim [0] (hurriedHeap : Heap ℝ)) 0 hs rfl he
  ⟨hs, rfl, he, h.2.2.1, h.2.2.2.1⟩

end Integration

section Boundary

variable {K : Type} [LinearOrderedField K]

/-- C24. In a world with `width >= 10` and `height >= 10`: after `edges()` in wrap
mode a coordinate above the extent has become `0`, one below `0` has become the
extent, any other is unchanged, so the position lies in `[0, width] × [0, height]`,
and the velocity is unchanged; after `edges()` in bounce mode each coordinate is
clamped to `[5, extent - 5]` and a velocity component is negated exactly when its
coordinate was outside that range. -/
theorem edges_boundary (s : Sim K) (this : Ref) (hw : 10 ≤ s.width) (hh : 10 ≤ s.height) :
    (s.boundaryMode = BoundaryMode.wrap →
      ((edges s this).heap this).position.x =
        (if (s.heap this).position.x > s.width then 0
          else if (s.heap this).position.x < 0 then s.width else (s.heap this).position.x) ∧
      ((edges s this).heap this).position.y =
        (if (s.heap this).position.y > s.height then 0
          else if (s.heap this).position.y < 0 then s.height else (s.heap this).position.y) ∧
      0 ≤ ((edges s this).heap this).position.x ∧
      ((edges s this).heap this).position.x ≤ s.width ∧
      0 ≤ ((edges s this).heap this).position.y ∧
      ((edges s this).heap this).position.y ≤ s.height ∧
      ((edges s this).heap this).velocity = (s.heap this).velocity) ∧
    (s.boundaryMode = BoundaryMode.bounce →
      ((edges s this).heap this).position.x =
        (if (s.heap this).position.x < 5 then 5
          else if (s.heap this).position.x > s.width - 5 then s.width - 5
          else (s.heap this).position.x) ∧
      ((edges s this).heap this).position.y =
        (if (s.heap this).position.y < 5 then 5
          else if (s.heap this).position.y > s.height - 5 then s.height - 5
          else (s.heap this).position.y) ∧
      5 ≤ ((edges s this).heap this).position.x ∧
      ((edges s this).heap this).position.x ≤ s.width - 5 ∧
      5 ≤ ((edges s this).heap this).position.y ∧
      ((edges s this).heap this).position.y ≤ s.height - 5 ∧
      ((edges s this).heap this).velocity.x =
        (if (s.heap this).position.x < 5 ∨ (s.heap this).position.x > s.width - 5
          then -(s.heap this).velocity.x else (s.heap this).velocity.x) ∧
      ((edges s this).heap this).velocity.y =
        (if (s.heap this).position.y < 5 ∨ (s.heap this).position.y > s.height - 5
          then -(s.heap this).velocity.y else (s.heap this).velocity.y)) := by
  constructor
  · intro hmode
    unfold edges setBoid
    simp only [hmode, Function.update_same]
    refine ⟨?_, ?_, ?_, ?_, ?_, ?_, ?_⟩
    · split_ifs <;> first | rfl | (exfalso; linarith)
    · split_ifs <;> first | rfl | (exfalso; linarith)
    · split_ifs <;> linarith
    · split_ifs <;> linarith
    · split_ifs <;> linarith
    · split_ifs <;> linarith
    · trivial
  · intro hmode
    have h5w : ¬ (5 : K) > s.width - 5 := by linarith
    have h5h : ¬ (5 : K) > s.height - 5 := by linarith
    unfold edges setBoid
    simp only [hmode, Function.update_same]
    by_cases hx1 : (s.heap this).position.x < 5
    · by_cases hy1 : (s.heap this).position.y < 5
      · simp only [hx1, hy1, h5w, h5h, if_true, if_false, true_or]
        refine ⟨trivial, trivial, le_refl _, by linarith, le_refl _, by linarith, by ring,
          by ring⟩
      · by_cases hy2 : (s.heap this).position.y > s.height - 5
        · simp only [hx1, hy1, hy2, h5w, if_true, if_false, true_or, or_true]
          refine ⟨trivial, trivial, le_refl _, by linarith, by linarith, le_refl _, by ring,
            by ring⟩
        · simp only [hx1, hy1, hy2, h5w, if_true, if_false, true_or, or_self]
          refine ⟨trivial, trivial, le_refl _, by linarith, by linarith, by linarith, by ring,
            trivial⟩
    · by_cases hx2 : (s.heap this).position.x > s.width - 5
      · by_cases hy1 : (s.heap this).position.y < 5
        · simp only [hx1, hx2, hy1, h5h, if_true, if_false, true_or, or_true]
          refine ⟨trivial, trivial, by linarith, le_refl _, le_refl _, by linarith, by ring,
            by ring⟩
        · by_cases hy2 : (s.heap this).position.y > s.height - 5
          · simp only [hx1, hx2, hy1, hy2, if_true, if_false, or_true]
            refine ⟨trivial, trivial, by linarith, le_refl _, by linarith, le_refl _, by ring,
              by ring⟩
          · simp only [hx1, hx2, hy1, hy2, if_true, if_false, or_true, or_self]
            refine ⟨trivial, trivial, by linarith, le_refl _, by linarith, by linarith,
              by ring, trivial⟩
      · by_cases hy1 : (s.heap this).position.y < 5
        · simp only [hx1, hx2, hy1, h5h, if_true, if_false, true_or, or_self]
          refine ⟨trivial, trivial, by linarith, by linarith, le_refl _, by linarith, trivial,
            by ring⟩
        · by_cases hy2 : (s.heap this).position.y > s.height - 5
          · simp only [hx1, hx2, hy1, hy2, if_true, if_false, or_true, or_self]
            refine ⟨trivial, trivial, by linarith, by linarith, by linarith, le_refl _, trivial,
              by ring⟩
          · simp only [hx1, hx2, hy1, hy2, if_false, or_self]
            refine ⟨trivial, trivial, by linarith, by linarith, by linarith, by linarith,
              trivial, trivial⟩

/-- C24 on an agent at `(900, -3)` with velocity `(1, 2)` in the `800 × 600` world:
wrap mode moves it to `(0, 600)` and keeps the velocity, bounce mode moves it to
`(795, 5)` and negates both velocity components. -/
theorem edges_boundary_witness :
    ((10 : ℚ) ≤ (fixtureSim [0] strayHeap).width ∧ (10 : ℚ) ≤ (fixtureSim [0] strayHeap).height) ∧
    ((edges (fixtureSim [0] strayHeap) 0).heap 0).position = ⟨0, 600⟩ ∧
    ((edges bounceSim 0).heap 0).position = ⟨795, 5⟩ ∧
    ((edges bounceSim 0).heap 0).velocity = ⟨-1, -2⟩ ∧
    ((edges (fixtureSim [0] strayHeap) 0).heap 0).velocity =
      ((fixtureSim [0] strayHeap).heap 0).velocity ∧
    5 ≤ ((edges bounceSim 0).heap 0).position.x ∧
    ((edges bounceSim 0).heap 0).position.x ≤ bounceSim.width - 5 :=
  have hw : (10 : ℚ) ≤ (fixtureSim [0] strayHeap).width := by decide!
  have hh : (10 : ℚ) ≤ (fixtureSim [0] strayHeap).height := by decide!
  have hwrap := (edges_boundary (fixtureSim [0] strayHeap) 0 hw hh).1 rfl
  have hbounce := (edges_boundary bounceSim 0 hw hh).2 rfl
  ⟨⟨hw, hh⟩, by decide!, by decide!, by decide!, hwrap.2.2.2.2.2.2, hbounce.2.2.1,
    hbounce.2.2.2.1⟩

end Boundary

/-! ## The trail -/

section TrailTheorems

variable {K : Type} [LinearOrderedField K]

theorem expireLoop_isSome (clock : Nat → K) (trail : List (TrailPoint K)) :
    ∀ (fuel c : Nat), trail.length < fuel → (expireLoop clock fuel c trail).isSome = true := by
  induction trail with
  | nil =>
    intro fuel c h
    cases fuel with
    | zero => exact absurd h (Nat.not_lt_zero _)
    | succ f => rfl
  | cons tp rest ih =>
    intro fuel c h
    cases fuel with
    | zero => exact absurd h (Nat.not_lt_zero _)
    | succ f =>
      unfold expireLoop
      split_ifs
      · exact ih f (c + 1) (Nat.lt_of_succ_lt_succ h)
      · rfl

theorem expireLoop_spec (clock : Nat → K) (trail : List (TrailPoint K)) :
    ∀ (fuel c : Nat) (r : List (TrailPoint K)) (c1 : Nat),
      expireLoop clock fuel c trail = some (r, c1) →
      (∃ k, r = trail.drop k) ∧ c ≤ c1 ∧
      ∀ tp ∈ r.head?, c < c1 ∧ clock (c1 - 1) - tp.time ≤ TRAIL_LIFETIME := by
  induction trail with
  | nil =>
    intro fuel c r c1 h
    cases fuel with
    | zero => simp [expireLoop] at h
    | succ f =>
      simp only [expireLoop, Option.some.injEq, Prod.mk.injEq] at h
      obtain ⟨hr, hc⟩ := h
      subst hr hc
      exact ⟨⟨0, rfl⟩, le_refl _, fun tp htp => by simp at htp⟩
  | cons tp rest ih =>
    intro fuel c r c1 h
    cases fuel with
    | zero => simp [expireLoop] at h
    | succ f =>
      unfold expireLoop at h
      split_ifs at h with hexp
      · obtain ⟨⟨k, hk⟩, hc, hhead⟩ := ih f (c + 1) r c1 h
        exact ⟨⟨k + 1, hk⟩, Nat.le_of_succ_le hc,
          fun x hx => ⟨Nat.lt_of_succ_lt (hhead x hx).1, (hhead x hx).2⟩⟩
      · simp only [Option.some.injEq, Prod.mk.injEq] at h
        obtain ⟨hr, hc⟩ := h
        subst hr hc
        refine ⟨⟨0, rfl⟩, Nat.le_succ _, fun x hx => ?_⟩
        simp only [List.head?_cons, Option.mem_def, Option.some.injEq] at hx
        subst hx
        exact ⟨Nat.lt_succ_self _, by simpa using not_lt.mp hexp⟩

theorem expireLoop_still (m : K) (trail : List (TrailPoint K)) :
    ∀ (fuel c : Nat), trail.length < fuel →
      (expireLoop (fun _ => m) fuel c trail).map Prod.fst =
        some (trail.dropWhile (fun tp => decide (m - tp.time > TRAIL_LIFETIME))) := by
  induction trail with
  | nil =>
    intro fuel c h
    cases fuel with
    | zero => exact absurd h (Nat.not_lt_zero _)
    | succ f => rfl
  | cons tp rest ih =>
    intro fuel c h
    cases fuel with
    | zero => exact absurd h (Nat.not_lt_zero _)
    | succ f =>
      unfold expireLoop
      by_cases hexp : m - tp.time > TRAIL_LIFETIME
      · simp only [hexp, if_true, List.dropWhile_cons, decide_True]
        exact ih f (c + 1) (Nat.lt_of_succ_lt_succ h)
      · simp only [hexp, if_false, List.dropWhile_cons, decide_False, Option.map_some',
          Bool.false_eq_true]

/-- When the clock stands still during the update, the bookkeeping read call by call
is `recordTrail`, the one that `update` uses. -/
theorem recordTrailClocked_still (s : Sim K) (b : Boid K) (fuel c : Nat)
    (hfuel : b.trails.length + 1 < fuel) :
    (recordTrailClocked (fun _ => s.millis) fuel c b).map Prod.fst = some (recordTrail s b) := by
  have hlen : (recordSample s.millis b).trails.length < fuel := by
    unfold recordSample
    split_ifs
    · show (b.trails ++ [_]).length < fuel
      rw [List.length_append, List.length_singleton]
      exact hfuel
    · exact Nat.lt_of_succ_lt hfuel
  have h := expireLoop_still s.millis (recordSample s.millis b).trails fuel (c + 1) hlen
  unfold recordTrailClocked
  cases hl : expireLoop (fun _ => s.millis) fuel (c + 1) (recordSample s.millis b).trails with
  | none => rw [hl] at h; simp at h
  | some res =>
    rw [hl] at h
    simp only [Option.map_some', Option.some.injEq] at h
    simp only [Option.map_some', Option.some.injEq]
    rw [h]
    rfl

theorem TrailInv.ti_mono (clock : Nat → K) (c c1 : Nat) (b : Boid K) (h : TrailInv clock c b)
    (hc : c ≤ c1) : TrailInv clock c1 b := by
  obtain ⟨h1, h2, h3⟩ := h
  refine ⟨h1, h2, fun hne => ?_⟩
  obtain ⟨j, hj, hl⟩ := h3 hne
  exact ⟨j, lt_of_lt_of_le hj hc, hl⟩

theorem TrailInv.ti_step (clock : Nat → K) (c c1 fuel : Nat) (b b1 : Boid K)
    (h : TrailInv clock c b) (hu : recordTrailClocked clock fuel c b = some (b1, c1)) :
    c < c1 ∧ TrailInv clock c1 b1 ∧
    ∀ tp ∈ b1.trails.head?, clock (c1 - 1) - tp.time ≤ TRAIL_LIFETIME := by
  unfold recordTrailClocked at hu
  -- the state after the recording step
  have hpush : TrailInv clock (c + 1) (recordSample (clock c) b) := by
    unfold recordSample
    split_ifs with hrec
    · obtain ⟨h1, h2, _⟩ := h
      refine ⟨?_, ?_, fun _ => ⟨c, Nat.lt_succ_self _, rfl⟩⟩
      · show (b.trails ++ [(⟨b.position.x, b.position.y, clock c⟩ : TrailPoint K)]).Pairwise _
        rw [List.pairwise_append]
        refine ⟨h1, List.pairwise_singleton _ _, fun p hp q hq => ?_⟩
        rw [List.mem_singleton] at hq
        subst hq
        have := h2 p hp
        show p.time + TRAIL_RECORD_INTERVAL < clock c
        linarith
      · intro tp htp
        show tp.time ≤ clock c
        have htp' : tp ∈ b.trails ++ [(⟨b.position.x, b.position.y, clock c⟩ : TrailPoint K)] :=
          htp
        rcases List.mem_append.mp htp' with hp | hp
        · have := h2 tp hp
          have h50 : (0 : K) < TRAIL_RECORD_INTERVAL := by unfold TRAIL_RECORD_INTERVAL; norm_num
          linarith
        · rw [List.mem_singleton] at hp
          subst hp
          exact le_refl _
    · exact TrailInv.ti_mono clock c (c + 1) b h (Nat.le_succ _)
  generalize recordSample (clock c) b = b0 at hu hpush
  cases hloop : expireLoop clock fuel (c + 1) b0.trails with
  | none => rw [hloop] at hu; simp at hu
  | some res =>
    obtain ⟨r, c2⟩ := res
    rw [hloop] at hu
    simp only [Option.some.injEq, Prod.mk.injEq] at hu
    obtain ⟨hb1, hc1⟩ := hu
    subst hb1 hc1
    obtain ⟨⟨k, hk⟩, hc, hhead⟩ := expireLoop_spec clock b0.trails fuel (c + 1) r c2 hloop
    obtain ⟨g1, g2, g3⟩ := hpush
    refine ⟨hc, ⟨?_, ?_, ?_⟩, fun tp htp => (hhead tp htp).2⟩
    · show r.Pairwise _
      rw [hk]
      exact List.Pairwise.sublist (List.drop_sublist k _) g1
    · intro tp htp
      have htp' : tp ∈ r := htp
      rw [hk] at htp'
      exact g2 tp (List.mem_of_mem_drop htp')
    · intro hne
      have hne' : r ≠ [] := hne
      have : b0.trails ≠ [] := by
        intro h0
        rw [hk, h0] at hne'
        simp at hne'
      obtain ⟨j, hj, hl⟩ := g3 this
      exact ⟨j, lt_of_lt_of_le hj hc, hl⟩

theorem TrailRun.tr_inv (clock : Nat → K) (c : Nat) (b : Boid K) (h : TrailRun clock c b) :
    TrailInv clock c b := by
  induction h with
  | created c b h0 =>
    refine ⟨?_, ?_, ?_⟩
    · rw [h0]; exact List.Pairwise.nil
    · rw [h0]; intro tp htp; simp at htp
    · intro hne; exact absurd h0 hne
  | elapsed c c1 b _ hc ih => exact TrailInv.ti_mono clock c c1 b ih hc
  | touched c b b1 _ ht hl ih =>
    obtain ⟨h1, h2, h3⟩ := ih
    unfold TrailInv
    rw [ht, hl]
    exact ⟨h1, h2, h3⟩
  | cleared c b _ ih =>
    refine ⟨List.Pairwise.nil, ?_, ?_⟩
    · intro tp htp
      simp at htp
    · intro hne
      exact absurd rfl hne
  | updated c c1 fuel b b1 _ hu ih => exact (TrailInv.ti_step clock c c1 fuel b b1 ih hu).2.1

theorem pairwise_span (a : TrailPoint K) (l : List (TrailPoint K)) (U : K)
    (hp : (a :: l).Pairwise (fun p q => p.time + TRAIL_RECORD_INTERVAL < q.time))
    (hU : ∀ tp ∈ a :: l, tp.time ≤ U) :
    (∀ tp ∈ l, a.time < tp.time) ∧ (l = [] ∨ a.time + 50 * (l.length : K) < U) := by
  have h50 : (TRAIL_RECORD_INTERVAL : K) = 50 := rfl
  constructor
  · intro tp htp
    have := (List.pairwise_cons.mp hp).1 tp htp
    rw [h50] at this
    linarith
  · induction l generalizing a with
    | nil => exact Or.inl rfl
    | cons b t ih =>
      right
      obtain ⟨hab, hrest⟩ := List.pairwise_cons.mp hp
      have hb := hab b (List.mem_cons_self _ _)
      rw [h50] at hb
      rcases ih b hrest (fun tp htp => hU tp (List.mem_cons_of_mem _ htp)) with h | h
      · subst h
        have := hU b (List.mem_cons_of_mem _ (List.mem_cons_self _ _))
        simp only [List.length_singleton, Nat.cast_one, mul_one]
        linarith
      · simp only [List.length_cons, Nat.cast_add, Nat.cast_one]
        linarith

/-- C25. With a non-decreasing clock, for an agent created with an empty trail,
whatever happened to it since: an `update()` with trail recording enabled returns
(its expiry loop ends within its trail length plus one evaluations of the condition,
as it does on every trail), and afterwards any two stored samples are more than
`TRAIL_RECORD_INTERVAL = 50` apart in array order, so the timestamps are strictly
increasing; every stored sample is at most `TRAIL_LIFETIME = 1000` older than the last
reading of the clock; and the trail holds at most `20` samples. -/
theorem trail_bounded (clock : Nat → K) (hmono : Monotone clock) (c : Nat) (b : Boid K)
    (hrun : TrailRun clock c b) (fuel : Nat) (hfuel : b.trails.length + 1 < fuel) :
    (∀ (trail : List (TrailPoint K)) (fuel0 c0 : Nat), trail.length < fuel0 →
      (expireLoop clock fuel0 c0 trail).isSome = true) ∧
    ∃ b1 c1, recordTrailClocked clock fuel c b = some (b1, c1) ∧ c < c1 ∧
      b1.trails.Pairwise (fun p q => p.time + TRAIL_RECORD_INTERVAL < q.time) ∧
      b1.trails.Pairwise (fun p q => p.time < q.time) ∧
      (∀ tp ∈ b1.trails, clock (c1 - 1) - tp.time ≤ TRAIL_LIFETIME) ∧
      b1.trails.length ≤ 20 := by
  refine ⟨fun trail fuel0 c0 h => expireLoop_isSome clock trail fuel0 c0 h, ?_⟩
  have hinv := TrailRun.tr_inv clock c b hrun
  -- the update returns
  have hsome : ∃ b1 c1, recordTrailClocked clock fuel c b = some (b1, c1) := by
    unfold recordTrailClocked
    have hlen : (recordSample (clock c) b).trails.length < fuel := by
      unfold recordSample
      split_ifs
      · show (b.trails ++ [_]).length < fuel
        rw [List.length_append, List.length_singleton]
        exact hfuel
      · exact Nat.lt_of_succ_lt hfuel
    have := expireLoop_isSome clock (recordSample (clock c) b).trails fuel (c + 1) hlen
    cases hl : expireLoop clock fuel (c + 1) (recordSample (clock c) b).trails with
    | none => rw [hl] at this; simp at this
    | some res => exact ⟨_, _, rfl⟩
  obtain ⟨b1, c1, hu⟩ := hsome
  obtain ⟨hc, ⟨h1, h2, h3⟩, hhead⟩ := TrailInv.ti_step clock c c1 fuel b b1 hinv hu
  refine ⟨b1, c1, hu, hc, h1, ?_, ?_, ?_⟩
  · refine List.Pairwise.imp ?_ h1
    intro p q hpq
    have h50 : (0 : K) < TRAIL_RECORD_INTERVAL := by unfold TRAIL_RECORD_INTERVAL; norm_num
    linarith
  · intro tp htp
    cases htr : b1.trails with
    | nil => rw [htr] at htp; simp at htp
    | cons a l =>
      rw [htr] at htp h1 hhead
      have ha := hhead a (by simp)
      rcases List.mem_cons.mp htp with h | h
      · rw [h]; exact ha
      · have := (pairwise_span a l b1.lastTrailTime h1
          (fun x hx => h2 x (by rw [htr]; exact hx))).1 tp h
        linarith
  · cases htr : b1.trails with
    | nil => simp
    | cons a l =>
      rw [htr] at h1 hhead
      have ha := hhead a (by simp)
      have hne : b1.trails ≠ [] := by rw [htr]; simp
      obtain ⟨j, hj, hl⟩ := h3 hne
      have hjm : clock j ≤ clock (c1 - 1) := hmono (Nat.le_sub_one_of_lt hj)
      rcases (pairwise_span a l b1.lastTrailTime h1
          (fun x hx => h2 x (by rw [htr]; exact hx))).2 with h | h
      · subst h; simp
      · have hlife : (TRAIL_LIFETIME : K) = 1000 := rfl
        rw [hlife] at ha
        rw [hl] at h
        have hlt : (l.length : K) < 20 := by linarith
        have : l.length < 20 := by exact_mod_cast hlt
        simp only [List.length_cons]
        omega

/-- C25 with a clock that advances by `60` per call, on a newly created agent whose
first update with trail recording reads the clock at its second call: the update
returns and stores one sample. -/
theorem trail_bounded_witness :
    Monotone steadyClock ∧ TrailRun steadyClock 1 (fixtureBoid 0 0 : Boid ℚ) ∧
    ((recordTrailClocked steadyClock 2 1 (fixtureBoid 0 0 : Boid ℚ)).map
      (fun r => (r.1.trails, r.2))) = some ([⟨0, 0, 60⟩], 3) ∧
    ∃ b1 c1, recordTrailClocked steadyClock 2 1 (fixtureBoid 0 0 : Boid ℚ) = some (b1, c1) ∧
      1 < c1 ∧
      b1.trails.Pairwise (fun p q => p.time + TRAIL_RECORD_INTERVAL < q.time) ∧
      b1.trails.Pairwise (fun p q => p.time < q.time) ∧
      (∀ tp ∈ b1.trails, steadyClock (c1 - 1) - tp.time ≤ TRAIL_LIFETIME) ∧
      b1.trails.length ≤ 20 :=
  have hm : Monotone steadyClock := by
    intro a b h
    unfold steadyClock
    have : (a : ℚ) ≤ b := by exact_mod_cast h
    linarith
  have hr : TrailRun steadyClock 1 (fixtureBoid 0 0 : Boid ℚ) := TrailRun.created 1 _ rfl
  ⟨hm, hr, by decide!,
    (trail_bounded steadyClock hm 1 (fixtureBoid 0 0) hr 2 (by decide)).2⟩

end TrailTheorems

/-! ## The forces of `flock` by species -/

theorem SameKinematics.sk_setBoid {K : Type} (s s1 : Sim K) (h : SameKinematics s s1) (r : Ref)
    (b : Boid K) (hp : b.position = (s1.heap r).position)
    (hv : b.velocity = (s1.heap r).velocity) : SameKinematics s (setBoid s1 r b) := by
  obtain ⟨h1, h2, h3, h4⟩ := h
  refine ⟨fun x => ?_, fun x => ?_, h3, h4⟩
  · unfold setBoid
    by_cases hx : x = r
    · subst hx; simp only [Function.update_same]; rw [hp]; exact h1 x
    · simp only [Function.update_noteq hx]; exact h1 x
  · unfold setBoid
    by_cases hx : x = r
    · subst hx; simp only [Function.update_same]; rw [hv]; exact h2 x
    · simp only [Function.update_noteq hx]; exact h2 x

section FlockLemmas

variable {K : Type} [LinearOrderedField K]

theorem acquireNeighbors_snd [FloorRing K] (s : Sim K) (this : Ref) :
    ∃ g, (acquireNeighbors s this).2 = { s with spatialGrid := g } := by
  unfold acquireNeighbors
  split_ifs
  · exact ⟨_, rfl⟩
  · exact ⟨_, rfl⟩
  · exact ⟨s.spatialGrid, rfl⟩

theorem separate_congr (env : Env K) (s s1 : Sim K) (this : Ref) (l : List Ref)
    (h : SameKinematics s s1) : separate env s1 this l = separate env s this l := by
  obtain ⟨hp, hv, hr, hm⟩ := h
  unfold separate separateLoop
  simp only [hp, hv, hr, hm]

theorem align_congr (env : Env K) (s s1 : Sim K) (this : Ref) (l : List Ref)
    (h : SameKinematics s s1) : align env s1 this l = align env s this l := by
  obtain ⟨hp, hv, hr, hm⟩ := h
  unfold align
  simp only [hp, hv, hr, hm]

theorem cohesion_congr (env : Env K) (s s1 : Sim K) (this : Ref) (l : List Ref)
    (h : SameKinematics s s1) : cohesion env s1 this l = cohesion env s this l := by
  obtain ⟨hp, hv, hr, hm⟩ := h
  unfold cohesion seek
  simp only [hp, hv, hr, hm]

theorem SameKinematics.sk_applyForce (s s1 : Sim K) (h : SameKinematics s s1) (r : Ref)
    (f : Vec K) : SameKinematics s (applyForce s1 r f) :=
  SameKinematics.sk_setBoid s s1 h r _ rfl rfl

theorem applyForce_acceleration (s : Sim K) (this : Ref) (f : Vec K) :
    ((applyForce s this f).heap this).acceleration = Vec.add (s.heap this).acceleration f := by
  unfold applyForce setBoid
  simp only [Function.update_same]

end FlockLemmas

section FlockSteps

variable {K : Type} [LinearOrderedField K]

theorem predatorStep_none (env : Env K) (s : Sim K) (this : Ref)
    (h : s.predatorDisplayPos = none) : predatorStep env s this = s := by
  unfold predatorStep
  rw [h]

theorem avoidFearTrail_nil (env : Env K) (s : Sim K) (this : Ref) (h : s.fearPoints = []) :
    avoidFearTrail env s this = s := by
  unfold avoidFearTrail
  rw [h]
  rfl

theorem fleeEvolutionPredators_nil (env : Env K) (s : Sim K) (this : Ref)
    (h : s.evolutionPredators = []) : fleeEvolutionPredators env s this = s := by
  unfold fleeEvolutionPredators
  rw [h]
  rfl

end FlockSteps

section FlockTheorems

variable {K : Type} [LinearOrderedField K] [FloorRing K]

/-- C26. Without obstacles, predator, fear points and automatic predators: the
same-species and other-species arrays that `flock` builds in two-species mode
partition the neighbour array `N`, and the acceleration of the agent after `flock` is
its previous acceleration plus `sw * separate(same) + aw * align(same) +
cw * cohesion(same)`, plus `2 * sw * separate(other)` when `other` is not empty; with
two-species mode off it is the previous acceleration plus `sw * separate(N) +
aw * align(N) + cw * cohesion(N)`.  Here `sw`, `aw`, `cw` are the genes of the agent in
evolution mode and the global weights otherwise. -/
theorem flock_forces_by_species (env : Env K) (s : Sim K) (this : Ref)
    (N same other : List Ref) (sw aw cw : K)
    (hobs : s.obstacles = []) (hpred : s.predatorDisplayPos = none)
    (hfear : s.fearPoints = []) (hevo : s.evolutionPredators = [])
    (hN : N = perceivedNeighbors env s this)
    (hsame : same = N.filter (fun b => decide ((s.heap b).species = (s.heap this).species)))
    (hother : other = N.filter (fun b => decide ((s.heap b).species ≠ (s.heap this).species)))
    (hsw : sw = if s.currentMode = Mode.evolution then (s.heap this).genes.separation
      else s.separationWeight)
    (haw : aw = if s.currentMode = Mode.evolution then (s.heap this).genes.alignment
      else s.alignmentWeight)
    (hcw : cw = if s.currentMode = Mode.evolution then (s.heap this).genes.cohesion
      else s.cohesionWeight) :
    (same ++ other).Perm N ∧ (∀ b ∈ same, b ∉ other) ∧
    ((flock env s this).heap this).acceleration =
      (if s.twoSpeciesEnabled = true then
        (if other.length > 0 then
          Vec.add (Vec.add (Vec.add (Vec.add (s.heap this).acceleration
            (Vec.mult (separate env s this same) sw)) (Vec.mult (align env s this same) aw))
            (Vec.mult (cohesion env s this same) cw))
            (Vec.mult (separate env s this other) (sw * 2))
        else
          Vec.add (Vec.add (Vec.add (s.heap this).acceleration
            (Vec.mult (separate env s this same) sw)) (Vec.mult (align env s this same) aw))
            (Vec.mult (cohesion env s this same) cw))
      else
        Vec.add (Vec.add (Vec.add (s.heap this).acceleration
          (Vec.mult (separate env s this N) sw)) (Vec.mult (align env s this N) aw))
          (Vec.mult (cohesion env s this N) cw)) := by
  refine ⟨?_, ?_, ?_⟩
  · rw [hsame, hother]
    have := List.filter_append_perm
      (fun b => decide ((s.heap b).species = (s.heap this).species)) N
    simpa using this
  · intro b hb hb2
    rw [hsame] at hb
    rw [hother] at hb2
    have h1 := (List.mem_filter.mp hb).2
    have h2 := (List.mem_filter.mp hb2).2
    simp only [decide_eq_true_eq] at h1 h2
    exact h2 h1
  · obtain ⟨g, hg⟩ := acquireNeighbors_snd s this
    unfold Boids.flock
    lift_lets
    intro res nb s1 nb2 same0 other0 src s2 sep ali coh sw0 aw0 cw0 s3 s4 s5 s6 s7 s8 s9 s10
    intro src2
    have hs1 : s1 = { s with spatialGrid := g } := hg
    have hheap : s1.heap = s.heap := by rw [hs1]
    have hnb2 : nb2 = N := by
      rw [hN]
      show (if s1.visionMode = VisionMode.cone then _ else _) = _
      unfold perceivedNeighbors
      rw [hs1]
    have hsame0 : same0 = if s.twoSpeciesEnabled = true then same else N := by
      show (if s1.twoSpeciesEnabled = true then _ else nb2) = _
      rw [hnb2, hsame, hs1]
    have hother0 : other0 = if s.twoSpeciesEnabled = true then other else [] := by
      show (if s1.twoSpeciesEnabled = true then _ else []) = _
      rw [hnb2, hother, hs1]
    have hk1 : SameKinematics s s1 := by
      rw [hs1]
      exact ⟨fun _ => rfl, fun _ => rfl, rfl, rfl⟩
    have hk2 : SameKinematics s s2 := SameKinematics.sk_setBoid s s1 hk1 this _ rfl rfl
    have hk5 : SameKinematics s s5 :=
      SameKinematics.sk_applyForce s _ (SameKinematics.sk_applyForce s _
        (SameKinematics.sk_applyForce s _ hk2 this _) this _) this _
    have hsep : sep = separate env s this same0 := separate_congr env s s2 this same0 hk2
    have hali : ali = align env s this same0 := align_congr env s s2 this same0 hk2
    have hcoh : coh = cohesion env s this same0 := cohesion_congr env s s2 this same0 hk2
    have hsw0 : sw0 = sw := by
      rw [hsw]
      show (if s1.currentMode = Mode.evolution then (s2.heap this).genes.separation
        else s1.separationWeight) = _
      have : (s2.heap this).genes = (s.heap this).genes := by
        show ((setBoid s1 this _).heap this).genes = _
        unfold setBoid
        simp only [Function.update_same]
        show (s1.heap this).genes = _
        rw [hheap]
      rw [this, hs1]
    have haw0 : aw0 = aw := by
      rw [haw]
      show (if s1.currentMode = Mode.evolution then (s2.heap this).genes.alignment
        else s1.alignmentWeight) = _
      have : (s2.heap this).genes = (s.heap this).genes := by
        show ((setBoid s1 this _).heap this).genes = _
        unfold setBoid
        simp only [Function.update_same]
        show (s1.heap this).genes = _
        rw [hheap]
      rw [this, hs1]
    have hcw0 : cw0 = cw := by
      rw [hcw]
      show (if s1.currentMode = Mode.evolution then (s2.heap this).genes.cohesion
        else s1.cohesionWeight) = _
      have : (s2.heap this).genes = (s.heap this).genes := by
        show ((setBoid s1 this _).heap this).genes = _
        unfold setBoid
        simp only [Function.update_same]
        show (s1.heap this).genes = _
        rw [hheap]
      rw [this, hs1]
    have ha2 : (s2.heap this).acceleration = (s.heap this).acceleration := by
      show ((setBoid s1 this _).heap this).acceleration = _
      unfold setBoid
      simp only [Function.update_same]
      show (s1.heap this).acceleration = _
      rw [hheap]
    have ha5 : (s5.heap this).acceleration =
        Vec.add (Vec.add (Vec.add (s.heap this).acceleration (Vec.mult sep sw0))
          (Vec.mult ali aw0)) (Vec.mult coh cw0) := by
      rw [← ha2]
      show ((applyForce s4 this _).heap this).acceleration = _
      rw [applyForce_acceleration]
      show Vec.add ((applyForce s3 this _).heap this).acceleration _ = _
      rw [applyForce_acceleration]
      show Vec.add (Vec.add ((applyForce s2 this _).heap this).acceleration _) _ = _
      rw [applyForce_acceleration]
    have ht5 : s5.twoSpeciesEnabled = s.twoSpeciesEnabled := by
      show s1.twoSpeciesEnabled = _
      rw [hs1]
    have ha6 : (s6.heap this).acceleration =
        if s.twoSpeciesEnabled = true ∧ other0.length > 0 then
          Vec.add (s5.heap this).acceleration (Vec.mult (separate env s this other0) (sw0 * 2))
        else (s5.heap this).acceleration := by
      show ((if s5.twoSpeciesEnabled = true ∧ other0.length > 0 then _ else s5).heap
        this).acceleration = _
      rw [ht5]
      split_ifs
      · rw [applyForce_acceleration, separate_congr env s s5 this other0 hk5]
      · rfl
    have ho6 : s6.obstacles = [] := by
      show (if s5.twoSpeciesEnabled = true ∧ other0.length > 0 then _ else s5).obstacles = _
      have h5 : s5.obstacles = [] := by
        show s1.obstacles = _
        rw [hs1]; exact hobs
      split_ifs
      · exact h5
      · exact h5
    have hs7 : s7 = s6 := by
      show (if s6.obstacles.length > 0 then _ else s6) = s6
      rw [ho6]
      simp
    have hf6 : s6.predatorDisplayPos = none ∧ s6.fearPoints = [] ∧
        s6.evolutionPredators = [] := by
      show (if s5.twoSpeciesEnabled = true ∧ other0.length > 0 then _ else s5).predatorDisplayPos
          = none ∧
        (if s5.twoSpeciesEnabled = true ∧ other0.length > 0 then _ else s5).fearPoints = [] ∧
        (if s5.twoSpeciesEnabled = true ∧ other0.length > 0 then _ else s5).evolutionPredators
          = []
      have h5 : s5.predatorDisplayPos = none ∧ s5.fearPoints = [] ∧
          s5.evolutionPredators = [] := by
        show s1.predatorDisplayPos = none ∧ s1.fearPoints = [] ∧ s1.evolutionPredators = []
        rw [hs1]
        exact ⟨hpred, hfear, hevo⟩
      split_ifs
      · exact h5
      · exact h5
    have hs8 : s8 = s6 := by
      show predatorStep env s7 this = s6
      rw [hs7]
      exact predatorStep_none env s6 this hf6.1
    have hs9 : s9 = s6 := by
      show (if s8.currentMode = Mode.predator ∧ s8.predatorFearTrail = true then
        avoidFearTrail env s8 this else s8) = s6
      rw [hs8]
      split_ifs
      · exact avoidFearTrail_nil env s6 this hf6.2.1
      · rfl
    have hs10 : s10 = s6 := by
      show (if s9.currentMode = Mode.evolution then fleeEvolutionPredators env s9 this
        else s9) = s6
      rw [hs9]
      split_ifs
      · exact fleeEvolutionPredators_nil env s6 this hf6.2.2
      · rfl
    have hfinal : ((if (s10.heap this).panicTimer > 0 then
        setBoid s10 this { src2 with panicTimer := (s10.heap this).panicTimer - s10.deltaTime }
        else s10).heap this).acceleration = (s6.heap this).acceleration := by
      split_ifs
      · unfold setBoid
        simp only [Function.update_same]
        show (s10.heap this).acceleration = _
        rw [hs10]
      · rw [hs10]
    rw [hfinal, ha6, ha5, hsep, hali, hcoh, hsw0, haw0, hcw0, hsame0, hother0]
    by_cases htwo : s.twoSpeciesEnabled = true
    · simp only [htwo, if_true, true_and]
    · simp only [htwo, if_false, false_and, Bool.false_eq_true]

/-- C26 on agent `0` of `mixedSim`, whose neighbours are the blue agents `1`, `3` and
the red agents `2`, `4`. -/
theorem flock_forces_by_species_witness :
    ([1, 2, 3, 4] = perceivedNeighbors ratEnv mixedSim 0 ∧
      [1, 3] = [1, 2, 3, 4].filter
        (fun b => decide ((mixedSim.heap b).species = (mixedSim.heap 0).species)) ∧
      [2, 4] = [1, 2, 3, 4].filter
        (fun b => decide ((mixedSim.heap b).species ≠ (mixedSim.heap 0).species))) ∧
    ([1, 3] ++ [2, 4]).Perm [1, 2, 3, 4] ∧
    ((flock ratEnv mixedSim 0).heap 0).acceleration =
      (if mixedSim.twoSpeciesEnabled = true then
        (if [2, 4].length > 0 then
          Vec.add (Vec.add (Vec.add (Vec.add (mixedSim.heap 0).acceleration
            (Vec.mult (separate ratEnv mixedSim 0 [1, 3]) (3 / 2)))
            (Vec.mult (align ratEnv mixedSim 0 [1, 3]) 1))
            (Vec.mult (cohesion ratEnv mixedSim 0 [1, 3]) 1))
            (Vec.mult (separate ratEnv mixedSim 0 [2, 4]) (3 / 2 * 2))
        else
          Vec.add (Vec.add (Vec.add (mixedSim.heap 0).acceleration
            (Vec.mult (separate ratEnv mixedSim 0 [1, 3]) (3 / 2)))
            (Vec.mult (align ratEnv mixedSim 0 [1, 3]) 1))
            (Vec.mult (cohesion ratEnv mixedSim 0 [1, 3]) 1))
      else
        Vec.add (Vec.add (Vec.add (mixedSim.heap 0).acceleration
          (Vec.mult (separate ratEnv mixedSim 0 [1, 2, 3, 4]) (3 / 2)))
          (Vec.mult (align ratEnv mixedSim 0 [1, 2, 3, 4]) 1))
          (Vec.mult (cohesion ratEnv mixedSim 0 [1, 2, 3, 4]) 1)) :=
  have hN : [1, 2, 3, 4] = perceivedNeighbors ratEnv mixedSim 0 := by decide!
  have hsame : [1, 3] = [1, 2, 3, 4].filter
      (fun b => decide ((mixedSim.heap b).species = (mixedSim.heap 0).species)) := by decide!
  have hother : [2, 4] = [1, 2, 3, 4].filter
      (fun b => decide ((mixedSim.heap b).species ≠ (mixedSim.heap 0).species)) := by decide!
  have h := flock_forces_by_species ratEnv mixedSim 0 [1, 2, 3, 4] [1, 3] [2, 4] (3 / 2) 1 1
    rfl rfl rfl rfl hN hsame hother (by decide!) (by decide!) (by decide!)
  ⟨⟨hN, hsame, hother⟩, h.1, h.2.2⟩

end FlockTheorems

/-! ## The frame of the selection event -/

section SelectionFrame

variable {K : Type} [LinearOrderedField K]

theorem replace_fold_frame (avgGenes : Genes K) (draws : Nat → Draws K)
    (l : List (Nat × Ref)) (heap : Heap K) (b : Ref) (hb : b ∉ l.map Prod.snd) :
    (l.foldl (fun (hp : Ref → Boid K) (ib : Nat × Ref) =>
      Function.update hp ib.2 (offspring (hp ib.2) avgGenes (draws ib.1))) heap) b = heap b := by
  induction l generalizing heap with
  | nil => rfl
  | cons x t ih =>
    rw [List.foldl_cons, ih]
    · have hx : b ≠ x.2 := by
        intro h
        apply hb
        rw [List.map_cons, h]
        exact List.mem_cons_self _ _
      exact Function.update_noteq hx _ _
    · intro h
      apply hb
      rw [List.map_cons]
      exact List.mem_cons_of_mem _ h

theorem sortByFitness_perm (heap : Heap K) (boids : List Ref) :
    (sortByFitness heap boids).Perm boids :=
  List.perm_insertionSort _ boids

theorem sortByFitness_sorted (heap : Heap K) (boids : List Ref) :
    (sortByFitness heap boids).Pairwise (fun a b => (heap b).fitness ≤ (heap a).fitness) := by
  haveI : IsTotal Ref (fun a b => (heap b).fitness ≤ (heap a).fitness) :=
    ⟨fun a b => le_total _ _⟩
  haveI : IsTrans Ref (fun a b => (heap b).fitness ≤ (heap a).fitness) :=
    ⟨fun a b c hab hbc => le_trans hbc hab⟩
  exact List.sorted_insertionSort (fun a b => (heap b).fitness ≤ (heap a).fitness) boids

end SelectionFrame

section SelectionFrameTheorems

variable {K : Type} [LinearOrderedField K] [FloorRing K]

/-- C27. For a population of `n > 10` distinct agents, a selection event of
`updateEvolution` leaves the population a permutation of the previous one, ordered by
non-increasing fitness (as it was before the event), increments `generation` by `1`,
and leaves every agent at an index below `n - floor(0.2 n)` unchanged in all its
fields; the first `floor(0.2 n)` agents, whose genes are averaged, are disjoint from
the last `floor(0.2 n)` agents, which are overwritten; and the divisor
`topCount = floor(0.2 n)` of the average is positive. -/
theorem selection_event_frame (env : Env K) (s : Sim K) (now : K)
    (turns : Nat → Option (K × K)) (draws : Nat → Draws K)
    (hdue : now - s.lastSelectionTime > s.evolutionInterval) (hn : s.boids.length > 10)
    (hnodup : s.boids.Nodup) :
    (updateEvolution env s now turns draws).boids.Perm s.boids ∧
    (updateEvolution env s now turns draws).boids.Pairwise
      (fun a b => (s.heap b).fitness ≤ (s.heap a).fitness) ∧
    (updateEvolution env s now turns draws).generation = s.generation + 1 ∧
    (∀ r ∈ (updateEvolution env s now turns draws).boids.take
        (s.boids.length - Nat.floor ((s.boids.length : K) * (1 / 5))),
      (updateEvolution env s now turns draws).heap r = s.heap r) ∧
    List.Disjoint
      ((updateEvolution env s now turns draws).boids.take
        (Nat.floor ((s.boids.length : K) * (1 / 5))))
      ((updateEvolution env s now turns draws).boids.drop
        (s.boids.length - Nat.floor ((s.boids.length : K) * (1 / 5)))) ∧
    0 < Nat.floor ((s.boids.length : K) * (1 / 5)) := by
  obtain ⟨hboids, hheap⟩ := updateEvolution_due env s now turns draws hdue hn
  have hperm := sortByFitness_perm s.heap s.boids
  have hnd : (sortByFitness s.heap s.boids).Nodup := hperm.nodup_iff.mpr hnodup
  have hgen : (updateEvolution env s now turns draws).generation = s.generation + 1 := by
    unfold updateEvolution
    simp only [hdue, hn, and_self, if_true, selectionEvent]
  rw [hboids, hheap, floor_fifth]
  refine ⟨hperm, sortByFitness_sorted s.heap s.boids, hgen, ?_, ?_, ?_⟩
  · intro r hr
    unfold replaceBottom
    apply replace_fold_frame
    rw [List.enumFrom_map_snd]
    exact List.disjoint_take_drop hnd (le_refl _) hr
  · exact List.disjoint_take_drop hnd (by omega)
  · omega

/-- C27 on the eleven agents of `evolutionSim`: the two fittest agents `10`, `9` are
averaged, the two least fit agents `1`, `0` are overwritten. -/
theorem selection_event_frame_witness :
    ((20000 : ℚ) - evolutionSim.lastSelectionTime > evolutionSim.evolutionInterval ∧
      evolutionSim.boids.length > 10 ∧ evolutionSim.boids.Nodup) ∧
    (updateEvolution ratEnv evolutionSim 20000 (fun _ => none) (fun _ => unitDraws)).boids =
      [10, 9, 8, 7, 6, 5, 4, 3, 2, 1, 0] ∧
    (updateEvolution ratEnv evolutionSim 20000 (fun _ => none)
      (fun _ => unitDraws)).boids.Perm evolutionSim.boids ∧
    (updateEvolution ratEnv evolutionSim 20000 (fun _ => none) (fun _ => unitDraws)).generation =
      evolutionSim.generation + 1 ∧
    0 < Nat.floor ((evolutionSim.boids.length : ℚ) * (1 / 5)) :=
  have hdue : (20000 : ℚ) - evolutionSim.lastSelectionTime > evolutionSim.evolutionInterval := by
    decide!
  have hn : evolutionSim.boids.length > 10 := by decide!
  have hnd : evolutionSim.boids.Nodup := by decide!
  have h := selection_event_frame ratEnv evolutionSim 20000 (fun _ => none) (fun _ => unitDraws)
    hdue hn hnd
  ⟨⟨hdue, hn, hnd⟩, by decide!, h.1, h.2.2.1, h.2.2.2.2.2⟩

end SelectionFrameTheorems

/-! ## Genes outside evolution mode -/

theorem withGenes_setBoid {K : Type} (G : Ref → Genes K) (s : Sim K) (r : Ref) (b : Boid K) :
    setBoid (withGenes G s) r { b with genes := G r } = withGenes G (setBoid s r b) := by
  unfold setBoid withGenes
  simp only []
  congr 1
  funext x
  by_cases hx : x = r
  · subst hx
    simp only [Function.update_same]
  · simp only [Function.update_noteq hx]

theorem withGenes_foldl {K : Type} {α : Type} (G : Ref → Genes K) (f : Sim K → α → Sim K)
    (hf : ∀ s a, f (withGenes G s) a = withGenes G (f s a)) (l : List α) (s : Sim K) :
    l.foldl f (withGenes G s) = withGenes G (l.foldl f s) := by
  induction l generalizing s with
  | nil => rfl
  | cons a t ih => rw [List.foldl_cons, List.foldl_cons, hf, ih]

section GenesLemmas

variable {K : Type} [LinearOrderedField K]

theorem withGenes_applyForce (G : Ref → Genes K) (s : Sim K) (r : Ref) (f : Vec K) :
    applyForce (withGenes G s) r f = withGenes G (applyForce s r f) :=
  withGenes_setBoid G s r { s.heap r with acceleration := Vec.add (s.heap r).acceleration f }

theorem withGenes_panic_fold (G : Ref → Genes K) (sqrt : K → K) (radius : K) (this : Ref)
    (l : List Ref) (hp : Heap K) :
    l.foldl (fun (hp : Heap K) other =>
      if other = this then hp
      else
        if Vec.dist sqrt (hp this).position (hp other).position < radius then
          Function.update hp other { hp other with panicTimer := 2000 }
        else hp) (fun r => { hp r with genes := G r }) =
    fun r => { (l.foldl (fun (hp : Heap K) other =>
      if other = this then hp
      else
        if Vec.dist sqrt (hp this).position (hp other).position < radius then
          Function.update hp other { hp other with panicTimer := 2000 }
        else hp) hp) r with genes := G r } := by
  induction l generalizing hp with
  | nil => rfl
  | cons o t ih =>
    rw [List.foldl_cons, List.foldl_cons]
    by_cases ho : o = this
    · simp only [ho, if_true]
      exact ih hp
    · simp only [ho, if_false]
      by_cases hd : Vec.dist sqrt (hp this).position (hp o).position < radius
      · simp only [hd, if_true]
        rw [← ih]
        congr 1
        funext x
        by_cases hx : x = o
        · subst hx
          simp only [Function.update_same]
        · simp only [Function.update_noteq hx]
      · simp only [hd, if_false]
        exact ih hp

theorem withGenes_die (G : Ref → Genes K) (env : Env K) (s : Sim K) (this : Ref) :
    die env (withGenes G s) this = withGenes G (die env s this) := by
  unfold die
  simp only []
  by_cases hidx : s.boids.indexOf this = s.boids.length
  · have hidx' : (withGenes G s).boids.indexOf this = (withGenes G s).boids.length := hidx
    simp only [hidx, hidx', if_true]
  · have hidx' : ¬ (withGenes G s).boids.indexOf this = (withGenes G s).boids.length := hidx
    simp only [hidx, hidx', if_false]
    have hfold := withGenes_panic_fold G env.sqrt s.neighborRadius this s.boids s.heap
    unfold withGenes
    simp only []
    rw [hfold]

theorem withGenes_fleeFromPredator (G : Ref → Genes K) (env : Env K) (s : Sim K) (this : Ref)
    (predPos : Vec K) (radius : K) :
    fleeFromPredator env (withGenes G s) this predPos radius =
      withGenes G (fleeFromPredator env s this predPos radius) := by
  unfold fleeFromPredator
  simp only []
  by_cases hd : Vec.dist env.sqrt (s.heap this).position predPos < radius
  · have hd' : Vec.dist env.sqrt ((withGenes G s).heap this).position predPos < radius := hd
    rw [if_pos hd, if_pos hd']
    by_cases hk : Vec.dist env.sqrt (s.heap this).position predPos < 10 ∧
        s.currentMode = Mode.predator
    · have hk' : Vec.dist env.sqrt ((withGenes G s).heap this).position predPos < 10 ∧
          (withGenes G s).currentMode = Mode.predator := hk
      rw [if_pos hk, if_pos hk']
      exact (congrArg (fun x => die env x this) (withGenes_applyForce G s this _)).trans
        (withGenes_die G env _ this)
    · have hk' : ¬ (Vec.dist env.sqrt ((withGenes G s).heap this).position predPos < 10 ∧
          (withGenes G s).currentMode = Mode.predator) := hk
      rw [if_neg hk, if_neg hk']
      exact withGenes_applyForce G s this _
  · have hd' : ¬ Vec.dist env.sqrt ((withGenes G s).heap this).position predPos < radius := hd
    rw [if_neg hd, if_neg hd']

theorem withGenes_acquireNeighbors [FloorRing K] (G : Ref → Genes K) (s : Sim K) (this : Ref) :
    acquireNeighbors (withGenes G s) this =
      ((acquireNeighbors s this).1, withGenes G (acquireNeighbors s this).2) := by
  unfold acquireNeighbors
  by_cases hg : s.spatialGridEnabled = true
  · have hg' : (withGenes G s).spatialGridEnabled = true := hg
    rw [if_pos hg, if_pos hg']
    by_cases hb : s.boundaryMode = BoundaryMode.wrap
    · have hb' : (withGenes G s).boundaryMode = BoundaryMode.wrap := hb
      simp only [if_pos hb, if_pos hb']
      rfl
    · have hb' : ¬ (withGenes G s).boundaryMode = BoundaryMode.wrap := hb
      simp only [if_neg hb, if_neg hb']
      rfl
  · have hg' : ¬ (withGenes G s).spatialGridEnabled = true := hg
    rw [if_neg hg, if_neg hg']
    rfl

theorem withGenes_avoidFearTrail (G : Ref → Genes K) (env : Env K) (s : Sim K) (this : Ref) :
    avoidFearTrail env (withGenes G s) this = withGenes G (avoidFearTrail env s this) := by
  unfold avoidFearTrail
  simp only []
  show List.foldl _ (withGenes G s) s.fearPoints = _
  apply withGenes_foldl
  intro x fp
  by_cases ht : s.millis - fp.time > 5000
  · have ht' : (withGenes G s).millis - fp.time > 5000 := ht
    simp only [if_pos ht']
  · have ht' : ¬ (withGenes G s).millis - fp.time > 5000 := ht
    simp only [if_neg ht']
    by_cases hd : Vec.dist env.sqrt (x.heap this).position ⟨fp.x, fp.y⟩ < 60
    · have hd' : Vec.dist env.sqrt ((withGenes G x).heap this).position ⟨fp.x, fp.y⟩ < 60 := hd
      rw [if_pos hd, if_pos hd']
      exact withGenes_applyForce G x this _
    · have hd' : ¬ Vec.dist env.sqrt ((withGenes G x).heap this).position ⟨fp.x, fp.y⟩ < 60 :=
        hd
      rw [if_neg hd, if_neg hd']

theorem withGenes_fleeEvolutionPredators (G : Ref → Genes K) (env : Env K) (s : Sim K)
    (this : Ref) :
    fleeEvolutionPredators env (withGenes G s) this =
      withGenes G (fleeEvolutionPredators env s this) := by
  unfold fleeEvolutionPredators
  show List.foldl _ (withGenes G s) s.evolutionPredators = _
  apply withGenes_foldl
  intro x pred
  simp only []
  rw [withGenes_fleeFromPredator]
  by_cases hd : Vec.dist env.sqrt
      ((fleeFromPredator env x this ⟨pred.x, pred.y⟩ 150).heap this).position
      ⟨pred.x, pred.y⟩ < 200
  · have hd' : Vec.dist env.sqrt
        ((withGenes G (fleeFromPredator env x this ⟨pred.x, pred.y⟩ 150)).heap this).position
        ⟨pred.x, pred.y⟩ < 200 := hd
    rw [if_pos hd, if_pos hd']
    exact withGenes_setBoid G _ this
      { (fleeFromPredator env x this ⟨pred.x, pred.y⟩ 150).heap this with
        fitness := ((fleeFromPredator env x this ⟨pred.x, pred.y⟩ 150).heap this).fitness +
          1 / 50 }
  · have hd' : ¬ Vec.dist env.sqrt
        ((withGenes G (fleeFromPredator env x this ⟨pred.x, pred.y⟩ 150)).heap this).position
        ⟨pred.x, pred.y⟩ < 200 := hd
    rw [if_neg hd, if_neg hd']

theorem withGenes_predatorStep (G : Ref → Genes K) (env : Env K) (s : Sim K) (this : Ref) :
    predatorStep env (withGenes G s) this = withGenes G (predatorStep env s this) := by
  unfold predatorStep
  show (match s.predatorDisplayPos with
    | some pos =>
      if s.currentMode = Mode.predator then
        fleeFromPredator env (withGenes G s) this pos s.predatorRadius
      else withGenes G s
    | none => withGenes G s) = _
  cases s.predatorDisplayPos with
  | none => rfl
  | some pos =>
    simp only []
    split_ifs
    · exact withGenes_fleeFromPredator G env s this pos s.predatorRadius
    · rfl

end GenesLemmas

theorem foldl_currentMode {K : Type} {α : Type} (f : Sim K → α → Sim K)
    (hf : ∀ s a, (f s a).currentMode = s.currentMode) (l : List α) (s : Sim K) :
    (l.foldl f s).currentMode = s.currentMode := by
  induction l generalizing s with
  | nil => rfl
  | cons a t ih => rw [List.foldl_cons, ih, hf]

theorem ite_currentMode {K : Type} (p : Prop) [Decidable p] (a b s : Sim K)
    (ha : a.currentMode = s.currentMode) (hb : b.currentMode = s.currentMode) :
    (if p then a else b).currentMode = s.currentMode := by
  split_ifs
  · exact ha
  · exact hb

theorem ite_withGenes {K : Type} (G : Ref → Genes K) (p q : Prop) [Decidable p] [Decidable q]
    (hpq : p ↔ q) (a b a1 b1 : Sim K) (ha : a = withGenes G a1) (hb : b = withGenes G b1) :
    (if p then a else b) = withGenes G (if q then a1 else b1) := by
  by_cases hp : p
  · rw [if_pos hp, if_pos (hpq.mp hp)]; exact ha
  · rw [if_neg hp, if_neg (fun h => hp (hpq.mpr h))]; exact hb

section ModeFrame

variable {K : Type} [LinearOrderedField K]

theorem die_currentMode (env : Env K) (s : Sim K) (this : Ref) :
    (die env s this).currentMode = s.currentMode := by
  unfold die
  simp only []
  split_ifs <;> rfl

theorem fleeFromPredator_currentMode (env : Env K) (s : Sim K) (this : Ref) (predPos : Vec K)
    (radius : K) : (fleeFromPredator env s this predPos radius).currentMode = s.currentMode := by
  unfold fleeFromPredator
  simp only []
  split_ifs
  · rw [die_currentMode]; rfl
  · rfl
  · rfl

theorem avoidFearTrail_currentMode (env : Env K) (s : Sim K) (this : Ref) :
    (avoidFearTrail env s this).currentMode = s.currentMode := by
  unfold avoidFearTrail
  apply foldl_currentMode
  intro x fp
  simp only []
  split_ifs <;> rfl

theorem fleeEvolutionPredators_currentMode (env : Env K) (s : Sim K) (this : Ref) :
    (fleeEvolutionPredators env s this).currentMode = s.currentMode := by
  unfold fleeEvolutionPredators
  apply foldl_currentMode
  intro x pred
  simp only []
  split_ifs
  · exact fleeFromPredator_currentMode env x this _ _
  · exact fleeFromPredator_currentMode env x this _ _

theorem predatorStep_currentMode (env : Env K) (s : Sim K) (this : Ref) :
    (predatorStep env s this).currentMode = s.currentMode := by
  unfold predatorStep
  cases s.predatorDisplayPos with
  | none => rfl
  | some pos =>
    simp only []
    split_ifs
    · exact fleeFromPredator_currentMode env s this pos _
    · rfl

theorem flock_currentMode [FloorRing K] (env : Env K) (s : Sim K) (this : Ref) :
    (flock env s this).currentMode = s.currentMode := by
  obtain ⟨g, hg⟩ := acquireNeighbors_snd s this
  unfold Boids.flock
  lift_lets
  intro res nb s1 nb2 same other src s2 sep ali coh sw aw cw s3 s4 s5 s6 s7 s8 s9 s10
  have h1 : s1.currentMode = s.currentMode := by
    show (acquireNeighbors s this).2.currentMode = _
    rw [hg]
  have h5 : s5.currentMode = s.currentMode := h1
  have h6 : s6.currentMode = s.currentMode := ite_currentMode _ _ _ _ h5 h5
  have h7 : s7.currentMode = s.currentMode := ite_currentMode _ _ _ _ h6 h6
  have h8 : s8.currentMode = s.currentMode := (predatorStep_currentMode env s7 this).trans h7
  have h9 : s9.currentMode = s.currentMode :=
    ite_currentMode _ _ _ _ ((avoidFearTrail_currentMode env s8 this).trans h8) h8
  have h10 : s10.currentMode = s.currentMode :=
    ite_currentMode _ _ _ _ ((fleeEvolutionPredators_currentMode env s9 this).trans h9) h9
  intros
  exact ite_currentMode _ _ _ _ h10 h10

theorem withGenes_speciesStep (G : Ref → Genes K) (env : Env K) (x : Sim K) (this : Ref)
    (other : List Ref) (sw : K) :
    (if (withGenes G x).twoSpeciesEnabled = true ∧ other.length > 0 then
      applyForce (withGenes G x) this
        (Vec.mult (separate env (withGenes G x) this other) (sw * 2))
      else withGenes G x) =
    withGenes G (if x.twoSpeciesEnabled = true ∧ other.length > 0 then
      applyForce x this (Vec.mult (separate env x this other) (sw * 2)) else x) :=
  ite_withGenes G _ _ Iff.rfl _ _ _ _ (withGenes_applyForce G x this _) rfl

theorem withGenes_obstacleStep (G : Ref → Genes K) (env : Env K) (x : Sim K) (this : Ref) :
    (if (withGenes G x).obstacles.length > 0 then
      applyForce (withGenes G x) this (avoidObstacles env (withGenes G x) this)
      else withGenes G x) =
    withGenes G (if x.obstacles.length > 0 then applyForce x this (avoidObstacles env x this)
      else x) :=
  ite_withGenes G _ _ Iff.rfl _ _ _ _ (withGenes_applyForce G x this _) rfl

theorem withGenes_fearStep (G : Ref → Genes K) (env : Env K) (x : Sim K) (this : Ref) :
    (if (withGenes G x).currentMode = Mode.predator ∧ (withGenes G x).predatorFearTrail = true
      then avoidFearTrail env (withGenes G x) this else withGenes G x) =
    withGenes G (if x.currentMode = Mode.predator ∧ x.predatorFearTrail = true then
      avoidFearTrail env x this else x) :=
  ite_withGenes G _ _ Iff.rfl _ _ _ _ (withGenes_avoidFearTrail G env x this) rfl

theorem withGenes_evolutionStep (G : Ref → Genes K) (env : Env K) (x : Sim K) (this : Ref) :
    (if (withGenes G x).currentMode = Mode.evolution then
      fleeEvolutionPredators env (withGenes G x) this else withGenes G x) =
    withGenes G (if x.currentMode = Mode.evolution then fleeEvolutionPredators env x this
      else x) :=
  ite_withGenes G _ _ Iff.rfl _ _ _ _ (withGenes_fleeEvolutionPredators G env x this) rfl

theorem withGenes_panicStep (G : Ref → Genes K) (x : Sim K) (this : Ref) :
    (if ((withGenes G x).heap this).panicTimer > 0 then
      setBoid (withGenes G x) this
        { (withGenes G x).heap this with
          panicTimer := ((withGenes G x).heap this).panicTimer - (withGenes G x).deltaTime }
      else withGenes G x) =
    withGenes G (if (x.heap this).panicTimer > 0 then
      setBoid x this { x.heap this with panicTimer := (x.heap this).panicTimer - x.deltaTime }
      else x) :=
  ite_withGenes G _ _ Iff.rfl _ _ _ _
    (withGenes_setBoid G x this
      { x.heap this with panicTimer := (x.heap this).panicTimer - x.deltaTime }) rfl

theorem withGenes_flock [FloorRing K] (G : Ref → Genes K) (env : Env K) (s : Sim K)
    (this : Ref) (hmode : s.currentMode ≠ Mode.evolution) :
    flock env (withGenes G s) this = withGenes G (flock env s this) := by
  obtain ⟨g, hg⟩ := acquireNeighbors_snd s this
  unfold Boids.flock
  lift_lets
  intro resL nbL s1L nb2L sameL otherL srcL s2L sepL aliL cohL swL awL cwL s3L s4L s5L s6L s7L
    s8L s9L s10L src2L
  intro resR nbR s1R nb2R sameR otherR srcR s2R sepR aliR cohR swR awR cwR s3R s4R s5R s6R s7R
    s8R s9R s10R src2R
  have e_res : resL = (resR.1, withGenes G resR.2) := withGenes_acquireNeighbors G s this
  have e_nb : nbL = nbR := by
    show resL.1 = resR.1
    rw [e_res]
  have e_s1 : s1L = withGenes G s1R := by
    show resL.2 = withGenes G resR.2
    rw [e_res]
  have hm1 : s1R.currentMode = s.currentMode := by
    show (acquireNeighbors s this).2.currentMode = _
    rw [hg]
  have e_nb2 : nb2L = nb2R := by
    show (if s1L.visionMode = VisionMode.cone then
      List.filter (fun other => decide (|env.angleBetween (s1L.heap this).velocity
        (Vec.sub (s1L.heap other).position (s1L.heap this).position)| < env.coneAngle)) nbL
      else nbL) = _
    rw [e_s1, e_nb]
    rfl
  have e_same : sameL = sameR := by
    show (if s1L.twoSpeciesEnabled = true then
      List.filter (fun b => decide ((s1L.heap b).species = (s1L.heap this).species)) nb2L
      else nb2L) = _
    rw [e_s1, e_nb2]
    rfl
  have e_other : otherL = otherR := by
    show (if s1L.twoSpeciesEnabled = true then
      List.filter (fun b => decide ((s1L.heap b).species ≠ (s1L.heap this).species)) nb2L
      else []) = _
    rw [e_s1, e_nb2]
    rfl
  have e_s2 : s2L = withGenes G s2R := by
    show setBoid s1L this { s1L.heap this with neighborCount := nb2L.length } = _
    rw [e_s1, e_nb2]
    show _ = withGenes G (setBoid s1R this { s1R.heap this with neighborCount := nb2R.length })
    rw [← withGenes_setBoid]
    rfl
  have hm2 : ¬ s2R.currentMode = Mode.evolution := by
    show ¬ s1R.currentMode = Mode.evolution
    rw [hm1]
    exact hmode
  have hm2' : ¬ (withGenes G s2R).currentMode = Mode.evolution := hm2
  have e_sep : sepL = sepR := by
    show separate env s2L this sameL = separate env s2R this sameR
    rw [e_s2, e_same]
    rfl
  have e_ali : aliL = aliR := by
    show align env s2L this sameL = align env s2R this sameR
    rw [e_s2, e_same]
    rfl
  have e_coh : cohL = cohR := by
    show cohesion env s2L this sameL = cohesion env s2R this sameR
    rw [e_s2, e_same]
    rfl
  have e_sw : swL = swR := by
    show (if s2L.currentMode = Mode.evolution then (s2L.heap this).genes.separation
      else s2L.separationWeight) =
      (if s2R.currentMode = Mode.evolution then (s2R.heap this).genes.separation
      else s2R.separationWeight)
    rw [e_s2, if_neg hm2, if_neg hm2']
    rfl
  have e_aw : awL = awR := by
    show (if s2L.currentMode = Mode.evolution then (s2L.heap this).genes.alignment
      else s2L.alignmentWeight) =
      (if s2R.currentMode = Mode.evolution then (s2R.heap this).genes.alignment
      else s2R.alignmentWeight)
    rw [e_s2, if_neg hm2, if_neg hm2']
    rfl
  have e_cw : cwL = cwR := by
    show (if s2L.currentMode = Mode.evolution then (s2L.heap this).genes.cohesion
      else s2L.cohesionWeight) =
      (if s2R.currentMode = Mode.evolution then (s2R.heap this).genes.cohesion
      else s2R.cohesionWeight)
    rw [e_s2, if_neg hm2, if_neg hm2']
    rfl
  have e_s3 : s3L = withGenes G s3R := by
    show applyForce s2L this (Vec.mult sepL swL) = _
    rw [e_s2, e_sep, e_sw]
    exact withGenes_applyForce G s2R this _
  have e_s4 : s4L = withGenes G s4R := by
    show applyForce s3L this (Vec.mult aliL awL) = _
    rw [e_s3, e_ali, e_aw]
    exact withGenes_applyForce G s3R this _
  have e_s5 : s5L = withGenes G s5R := by
    show applyForce s4L this (Vec.mult cohL cwL) = _
    rw [e_s4, e_coh, e_cw]
    exact withGenes_applyForce G s4R this _
  have e_s6 : s6L = withGenes G s6R := by
    show (if s5L.twoSpeciesEnabled = true ∧ otherL.length > 0 then
      applyForce s5L this (Vec.mult (separate env s5L this otherL) (swL * 2)) else s5L) = _
    rw [e_s5, e_other, e_sw]
    exact withGenes_speciesStep G env s5R this otherR swR
  have e_s7 : s7L = withGenes G s7R := by
    show (if s6L.obstacles.length > 0 then applyForce s6L this (avoidObstacles env s6L this)
      else s6L) = _
    rw [e_s6]
    exact withGenes_obstacleStep G env s6R this
  have e_s8 : s8L = withGenes G s8R := by
    show predatorStep env s7L this = _
    rw [e_s7]
    exact withGenes_predatorStep G env s7R this
  have e_s9 : s9L = withGenes G s9R := by
    show (if s8L.currentMode = Mode.predator ∧ s8L.predatorFearTrail = true then
      avoidFearTrail env s8L this else s8L) = _
    rw [e_s8]
    exact withGenes_fearStep G env s8R this
  have e_s10 : s10L = withGenes G s10R := by
    show (if s9L.currentMode = Mode.evolution then fleeEvolutionPredators env s9L this
      else s9L) = _
    rw [e_s9]
    exact withGenes_evolutionStep G env s9R this
  show (if (s10L.heap this).panicTimer > 0 then
      setBoid s10L this
        { s10L.heap this with panicTimer := (s10L.heap this).panicTimer - s10L.deltaTime }
      else s10L) = _
  rw [e_s10]
  exact withGenes_panicStep G s10R this

theorem withGenes_recordTrail (G : Ref → Genes K) (s : Sim K) (b : Boid K) (g : Genes K) :
    recordTrail (withGenes G s) { b with genes := g } = { recordTrail s b with genes := g } := by
  unfold recordTrail
  simp only []
  by_cases h : s.millis - b.lastTrailTime > TRAIL_RECORD_INTERVAL
  · have h' : (withGenes G s).millis - b.lastTrailTime > TRAIL_RECORD_INTERVAL := h
    rw [if_pos h, if_pos h']
    rfl
  · have h' : ¬ (withGenes G s).millis - b.lastTrailTime > TRAIL_RECORD_INTERVAL := h
    rw [if_neg h, if_neg h']
    rfl

theorem withGenes_update (G : Ref → Genes K) (env : Env K) (s : Sim K) (this : Ref)
    (hmode : s.currentMode ≠ Mode.evolution) :
    update env (withGenes G s) this = withGenes G (update env s this) := by
  have hbase : baseSpeed (withGenes G s) this = baseSpeed s this := by
    unfold baseSpeed
    have hm' : ¬ (withGenes G s).currentMode = Mode.evolution := hmode
    rw [if_neg hmode, if_neg hm']
    rfl
  have heff : effectiveSpeed (withGenes G s) this = effectiveSpeed s this := by
    unfold effectiveSpeed
    rw [hbase]
    rfl
  have key : ∀ B : Boid K,
      (if (withGenes G s).trailsEnabled = true then
        recordTrail (withGenes G s) { B with genes := G this } else { B with genes := G this }) =
      { (if s.trailsEnabled = true then recordTrail s B else B) with genes := G this } := by
    intro B
    by_cases ht : s.trailsEnabled = true
    · have ht' : (withGenes G s).trailsEnabled = true := ht
      rw [if_pos ht, if_pos ht']
      exact withGenes_recordTrail G s B (G this)
    · have ht' : ¬ (withGenes G s).trailsEnabled = true := ht
      rw [if_neg ht, if_neg ht']
  unfold update
  simp only []
  rw [heff, ← withGenes_setBoid]
  exact congrArg (setBoid (withGenes G s) this) (key
    { s.heap this with
      velocity := Vec.limit env.sqrt
        (Vec.add (s.heap this).velocity (s.heap this).acceleration) (effectiveSpeed s this)
      position := Vec.add (s.heap this).position (Vec.limit env.sqrt
        (Vec.add (s.heap this).velocity (s.heap this).acceleration) (effectiveSpeed s this))
      acceleration := Vec.mult (s.heap this).acceleration 0 })

theorem withGenes_edges (G : Ref → Genes K) (s : Sim K) (this : Ref) :
    edges (withGenes G s) this = withGenes G (edges s this) := by
  unfold edges
  show (match s.boundaryMode with
    | BoundaryMode.wrap => _
    | BoundaryMode.bounce => _) = _
  cases s.boundaryMode with
  | wrap =>
    simp only []
    rw [← withGenes_setBoid]
    rfl
  | bounce =>
    simp only []
    rw [← withGenes_setBoid]
    rfl

theorem withGenes_agentStep [FloorRing K] (G : Ref → Genes K) (env : Env K) (s : Sim K)
    (this : Ref) (hmode : s.currentMode ≠ Mode.evolution) :
    agentStep env (withGenes G s) this = withGenes G (agentStep env s this) := by
  unfold agentStep
  rw [withGenes_flock G env s this hmode,
    withGenes_update G env _ this (by rw [flock_currentMode]; exact hmode), withGenes_edges]

end ModeFrame

section GenesTheorems

variable {K : Type} [LinearOrderedField K] [FloorRing K]

/-- C28. For two states that differ only in the genes of their agents (`s1` is `s`
with the genes of `s1`) and whose mode is not `'evolution'`, one agent step (`flock`,
`update`, `edges`) yields states that again differ only in the genes: the populations
and the respawn queues are equal, and every agent has the same position, velocity,
acceleration, panic timer, fitness and neighbour count in both. -/
theorem genes_unused_outside_evolution (env : Env K) (s s1 : Sim K) (this : Ref)
    (hdiff : s1 = withGenes (fun r => (s1.heap r).genes) s)
    (hmode : s.currentMode ≠ Mode.evolution) :
    agentStep env s1 this = withGenes (fun r => (s1.heap r).genes) (agentStep env s this) ∧
    (agentStep env s1 this).boids = (agentStep env s this).boids ∧
    (agentStep env s1 this).deadBoids = (agentStep env s this).deadBoids ∧
    ∀ r, ((agentStep env s1 this).heap r).position = ((agentStep env s this).heap r).position ∧
      ((agentStep env s1 this).heap r).velocity = ((agentStep env s this).heap r).velocity ∧
      ((agentStep env s1 this).heap r).acceleration =
        ((agentStep env s this).heap r).acceleration ∧
      ((agentStep env s1 this).heap r).panicTimer = ((agentStep env s this).heap r).panicTimer ∧
      ((agentStep env s1 this).heap r).fitness = ((agentStep env s this).heap r).fitness ∧
      ((agentStep env s1 this).heap r).neighborCount =
        ((agentStep env s this).heap r).neighborCount := by
  have h := withGenes_agentStep (fun r => (s1.heap r).genes) env s this hmode
  rw [← hdiff] at h
  refine ⟨h, ?_, ?_, ?_⟩
  · rw [h]; rfl
  · rw [h]; rfl
  · intro r
    rw [h]
    exact ⟨rfl, rfl, rfl, rfl, rfl, rfl⟩

/-- C28 on the default state with the two agents of `moverHeap` and on the same state
with every gene set to `9`: after the step of agent `0` both have it at `(81, 100)`. -/
theorem genes_unused_outside_evolution_witness :
    (mutantSim = withGenes (fun r => (mutantSim.heap r).genes) (fixtureSim [0, 1] moverHeap) ∧
      (fixtureSim [0, 1] moverHeap).currentMode ≠ Mode.evolution) ∧
    (mutantSim.heap 0).genes ≠ ((fixtureSim [0, 1] moverHeap).heap 0).genes ∧
    ((agentStep ratEnv mutantSim 0).heap 0).position = ⟨81, 100⟩ ∧
    ∀ r, ((agentStep ratEnv mutantSim 0).heap r).position =
        ((agentStep ratEnv (fixtureSim [0, 1] moverHeap) 0).heap r).position ∧
      ((agentStep ratEnv mutantSim 0).heap r).velocity =
        ((agentStep ratEnv (fixtureSim [0, 1] moverHeap) 0).heap r).velocity :=
  have hd : mutantSim =
      withGenes (fun r => (mutantSim.heap r).genes) (fixtureSim [0, 1] moverHeap) := rfl
  have hm : (fixtureSim [0, 1] moverHeap).currentMode ≠ Mode.evolution := by decide
  have h := genes_unused_outside_evolution ratEnv (fixtureSim [0, 1] moverHeap) mutantSim 0 hd hm
  ⟨⟨hd, hm⟩, by decide!, by decide!, fun r => ⟨(h.2.2.2 r).1, (h.2.2.2 r).2.1⟩⟩

end GenesTheorems

/-! ## Repeated neighbours in the wrapped query -/

/-- C29 fails on the code.  In a `150 × 150` world with cell size `80` the wrapped
columns of the offsets `-1` and `+1` coincide (`maxCellX = 1`), so the bucket of agent
`1` is scanned twice and `getNeighborsWrapped(a, 80)` returns agent `1` twice, while
`getNeighbors` on the same grid returns it once.  The same happens in the `800 × 600`
world for an agent at `x = 900`, left outside by a shrinking window: the columns
`11` and `12` both wrap to `0`.  The agent itself is in neither result. -/
theorem getNeighborsWrapped_repeats_neighbour :
    occurrences narrowGrid.grid 0 = [(0, 0)] ∧ occurrences narrowGrid.grid 1 = [(1, 0)] ∧
    (getNeighborsWrapped narrowHeap narrowGrid 0 80).1 = [1, 1] ∧
    (getNeighbors narrowHeap narrowGrid 0 80).1 = [1] ∧
    ¬ (getNeighborsWrapped narrowHeap narrowGrid 0 80).1.Nodup ∧
    occurrences shrunkGrid.grid 0 = [(11, 3)] ∧ occurrences shrunkGrid.grid 1 = [(0, 3)] ∧
    (getNeighborsWrapped shrunkHeap shrunkGrid 0 80).1 = [1, 1] := by
  decide!

/-! ## Conservation of agents -/

section Conservation

variable {K : Type} [LinearOrderedField K]

theorem filter_due_length (D : List (DeadBoid K)) (now : K) :
    (D.filter (fun d => decide (now < d.respawnTime))).length +
      (D.reverse.filter (fun d => decide (now ≥ d.respawnTime))).length = D.length := by
  rw [List.filter_reverse, List.length_reverse]
  induction D with
  | nil => rfl
  | cons d t ih =>
    by_cases h : now < d.respawnTime
    · have h' : ¬ now ≥ d.respawnTime := not_le.mpr h
      simp only [List.filter_cons, h, h', decide_True, decide_False, if_true, List.length_cons,
        Bool.false_eq_true, if_false]
      omega
    · have h' : now ≥ d.respawnTime := not_lt.mp h
      simp only [List.filter_cons, h, h', decide_True, decide_False, if_true, List.length_cons,
        Bool.false_eq_true, if_false]
      omega

/-- C30. `Boid.die()` and `processDeadBoids(now)` each leave the sum of the population
size and the length of the respawn queue unchanged; `die()` shortens the population by
exactly one agent and extends the queue by one entry when the agent is in the
population, and returns the state unchanged when it is not. -/
theorem kills_and_respawns_conserve (env : Env K) (s : Sim K) (this : Ref) (now : K)
    (draws : Nat → SpawnDraw K) :
    (die env s this).boids.length + (die env s this).deadBoids.length =
      s.boids.length + s.deadBoids.length ∧
    (if this ∈ s.boids then
      (die env s this).boids.length + 1 = s.boids.length ∧
      (die env s this).deadBoids.length = s.deadBoids.length + 1
    else die env s this = s) ∧
    (processDeadBoids s now draws).boids.length + (processDeadBoids s now draws).deadBoids.length =
      s.boids.length + s.deadBoids.length := by
  have hdie : if this ∈ s.boids then
      (die env s this).boids.length + 1 = s.boids.length ∧
      (die env s this).deadBoids.length = s.deadBoids.length + 1
    else die env s this = s := by
    by_cases hmem : this ∈ s.boids
    · rw [if_pos hmem, die_boids, die_deadBoids env s this hmem, List.length_erase_of_mem hmem,
        List.length_append, List.length_singleton]
      have hpos : 0 < s.boids.length := List.length_pos_of_mem hmem
      exact ⟨by omega, rfl⟩
    · rw [if_neg hmem]
      unfold die
      have hidx : s.boids.indexOf this = s.boids.length := List.indexOf_eq_length.mpr hmem
      simp only [hidx, if_true]
  refine ⟨?_, hdie, ?_⟩
  · by_cases hmem : this ∈ s.boids
    · rw [if_pos hmem] at hdie
      omega
    · rw [if_neg hmem] at hdie
      rw [hdie]
  · obtain ⟨h1, h2, h3, _, _, _, _⟩ :=
      respawn_fold now draws (List.range s.deadBoids.length).reverse (s, [])
    have hsp := species_dueIndices s.deadBoids now
    have hlen : ((List.range s.deadBoids.length).reverse.filter
        (dueAt s.deadBoids now)).length =
        (s.deadBoids.reverse.filter (fun d => decide (now ≥ d.respawnTime))).length := by
      have := congrArg List.length hsp
      simpa using this
    simp only [] at h1 h2 h3
    have hdead : (processDeadBoids s now draws).deadBoids =
        s.deadBoids.filter (fun d => decide (now < d.respawnTime)) := by
      show (respawnLoop s now draws).2.foldl (fun dead idx => splice dead idx 1)
        (respawnLoop s now draws).1.deadBoids = _
      unfold respawnLoop
      rw [h1, h2, List.nil_append]
      exact splice_dueIndices s.deadBoids now
    have hboids : (processDeadBoids s now draws).boids =
        s.boids ++ List.range' s.nextRef
          (s.deadBoids.reverse.filter (fun d => decide (now ≥ d.respawnTime))).length := by
      show (respawnLoop s now draws).1.boids = _
      unfold respawnLoop
      rw [← hlen]
      exact h3
    rw [hdead, hboids, List.length_append, List.length_range']
    have := filter_due_length s.deadBoids now
    omega

end Conservation

end Boids

namespace Snake

/-! ## The poison food and the minimum length -/

/-- C19, evaluated on the start of a game with poison enabled.  The snake has its
initial length `3`, the poison food lies directly in front of its head; after one
`update()` the game is still being played and the snake has length `2`: the test
`snake.length > 3` is made after `unshift(newHead)`, so a snake of length `3` loses
a segment although the comment says `Shrink snake (min 3)`. -/
theorem poison_shrinks_below_three :
    (startGame (newGame ⟨false, false, true, false, false⟩) ⟨[], []⟩ poisonAhead).state =
      GameState.playing ∧
    (startGame (newGame ⟨false, false, true, false, false⟩) ⟨[], []⟩ poisonAhead).snake =
      [⟨6, 6⟩, ⟨5, 6⟩, ⟨4, 6⟩] ∧
    (startGame (newGame ⟨false, false, true, false, false⟩) ⟨[], []⟩ poisonAhead).poisonFood =
      some ⟨7, 6⟩ ∧
    (update (startGame (newGame ⟨false, false, true, false, false⟩) ⟨[], []⟩ poisonAhead)
      poisonAhead).state = GameState.playing ∧
    (update (startGame (newGame ⟨false, false, true, false, false⟩) ⟨[], []⟩ poisonAhead)
      poisonAhead).snake = [⟨7, 6⟩, ⟨6, 6⟩] ∧
    (update (startGame (newGame ⟨false, false, true, false, false⟩) ⟨[], []⟩ poisonAhead)
      poisonAhead).snake.length = 2 := by
  decide!

/-! ## No reversal -/

theorem isOpposite_iff (d n : Direction) :
    ((decide (d.x = -n.x) && decide (d.x ≠ 0)) ||
      (decide (d.y = -n.y) && decide (d.y ≠ 0))) = true ↔ n = d.opposite := by
  cases d <;> cases n <;> decide

theorem Direction.ne_opposite (d : Direction) : d ≠ d.opposite := by
  cases d <;> decide

theorem setDirection_direction (g : SnakeQuest) (newDir : Direction) :
    (setDirection g newDir).direction = g.direction := by
  unfold setDirection
  simp only []
  split_ifs <;> rfl

theorem setDirection_nextDirection (g : SnakeQuest) (newDir : Direction)
    (h : g.nextDirection ≠ g.direction.opposite) :
    (setDirection g newDir).nextDirection ≠ g.direction.opposite := by
  unfold setDirection
  simp only []
  by_cases hop : ((decide (g.direction.x = -newDir.x) && decide (g.direction.x ≠ 0)) ||
      (decide (g.direction.y = -newDir.y) && decide (g.direction.y ≠ 0))) = true
  · rw [if_pos hop]; exact h
  · rw [if_neg hop]
    exact fun heq => hop ((isOpposite_iff g.direction newDir).mpr heq)

theorem spawnFood_directions (g : SnakeQuest) (d : FoodDraws) :
    (spawnFood g d).direction = g.direction ∧
    (spawnFood g d).nextDirection = g.nextDirection := by
  unfold spawnFood
  simp only []
  split_ifs <;> exact ⟨rfl, rfl⟩

theorem activateBuff_directions (g : SnakeQuest) (type : PowerUpType) (now : Int) :
    (activateBuff g type now).direction = g.direction ∧
    (activateBuff g type now).nextDirection = g.nextDirection := by
  unfold activateBuff
  simp only []
  split_ifs <;> exact ⟨rfl, rfl⟩

theorem eat_directions (g : SnakeQuest) (newHead : Cell) (d : FoodDraws) :
    (eat g newHead d).direction = g.direction ∧
    (eat g newHead d).nextDirection = g.nextDirection := by
  unfold eat
  simp only []
  repeat' split
  all_goals
    first
      | exact ⟨rfl, rfl⟩
      | exact spawnFood_directions _ d
      | exact activateBuff_directions _ _ _

theorem update_directions (g : SnakeQuest) (d : FoodDraws) :
    (update g d).direction = g.nextDirection ∧
    (update g d).nextDirection = g.nextDirection := by
  unfold update
  simp only []
  split
  · exact ⟨rfl, rfl⟩
  · split_ifs <;>
      first
        | exact ⟨rfl, rfl⟩
        | exact eat_directions _ _ d

theorem startGame_directions (g : SnakeQuest) (gen : Generated) (d : FoodDraws) :
    (startGame g gen d).direction = Direction.right ∧
    (startGame g gen d).nextDirection = Direction.right := by
  unfold startGame
  simp only []
  constructor
  · show (spawnFood _ d).direction = Direction.right
    rw [(spawnFood_directions _ d).1]
  · show (spawnFood _ d).nextDirection = Direction.right
    rw [(spawnFood_directions _ d).2]

/-- C20. In every state reachable from `startGame()` by `setDirection` calls and
`update()` ticks, `nextDirection` is not the opposite of `direction`; hence the
direction that the next tick applies is not the opposite of the current one, which
is the direction applied at the previous tick. -/
theorem snake_never_reverses (g : SnakeQuest) (h : Reachable g) :
    g.nextDirection ≠ g.direction.opposite ∧
    ∀ d, (update g d).direction = g.nextDirection ∧
      (update g d).direction ≠ g.direction.opposite := by
  have hinv : g.nextDirection ≠ g.direction.opposite := by
    induction h with
    | start g0 gen d =>
      rw [(startGame_directions g0 gen d).1, (startGame_directions g0 gen d).2]
      decide
    | setDirection g0 newDir _ ih =>
      rw [setDirection_direction]
      exact setDirection_nextDirection g0 newDir ih
    | update g0 d _ _ =>
      rw [(update_directions g0 d).1, (update_directions g0 d).2]
      exact Direction.ne_opposite _
  refine ⟨hinv, fun d => ⟨(update_directions g d).1, ?_⟩⟩
  rw [(update_directions g d).1]
  exact hinv

/-- C20 on a run: start, press up, press left (rejected, the snake moves right),
tick. -/
theorem snake_never_reverses_witness :
    Reachable (update (setDirection (setDirection
      (startGame (newGame ⟨false, false, true, false, false⟩) ⟨[], []⟩ poisonAhead)
        Direction.up) Direction.left) poisonAhead) ∧
    (setDirection (setDirection
      (startGame (newGame ⟨false, false, true, false, false⟩) ⟨[], []⟩ poisonAhead)
        Direction.up) Direction.left).nextDirection = Direction.up ∧
    (update (setDirection (setDirection
      (startGame (newGame ⟨false, false, true, false, false⟩) ⟨[], []⟩ poisonAhead)
        Direction.up) Direction.left) poisonAhead).nextDirection ≠
      (update (setDirection (setDirection
        (startGame (newGame ⟨false, false, true, false, false⟩) ⟨[], []⟩ poisonAhead)
          Direction.up) Direction.left) poisonAhead).direction.opposite :=
  have hr : Reachable (update (setDirection (setDirection
      (startGame (newGame ⟨false, false, true, false, false⟩) ⟨[], []⟩ poisonAhead)
        Direction.up) Direction.left) poisonAhead) :=
    Reachable.update _ _ (Reachable.setDirection _ _ (Reachable.setDirection _ _
      (Reachable.start _ _ _)))
  ⟨hr, by decide!, (snake_never_reverses _ hr).1⟩

end Snake
